import Mathlib

/-!
# Conforma evaluation report to SLSA VSA conversion

A shallow embedding of `convert-conforma-to-vsa.go` and the properties of its
conversion pipeline.

Conventions of the embedding:

* a Go `string` is a list of characters (`Str`); the separators the program
  searches for are ASCII, so searching characters and searching bytes agree;
* a Go `map[string]string` is an association list (`StrMap`), a `nil` or empty
  map being `[]`;
* a Go function returning `(value, error)` returns `Except Str value`, the
  error carrying the message `fmt.Errorf` builds;
* the file system read of `loadPolicyMetadata` is an explicit argument.
-/

set_option autoImplicit false

namespace ConformaVSA

/-! ## Go strings and maps -/

/-- A Go string. -/
abbrev Str := List Char

/-- A Go `map[string]string`. -/
abbrev StrMap := List (Str × Str)

/-- The lookup `m[key]` with its `ok` flag: `none` when the key is absent. -/
def StrMap.get? (m : StrMap) (key : Str) : Option Str :=
  List.lookup key m

/-- Go `strings.HasPrefix`. -/
def strHasPrefix (s pre : Str) : Bool :=
  pre.isPrefixOf s

/-- Go `strings.TrimPrefix`. -/
def strTrimPrefix (s pre : Str) : Str :=
  if strHasPrefix s pre then s.drop pre.length else s

/-- Go `strings.Index`: the position of the first occurrence of `substr` in `s`,
`none` standing for `-1`. -/
def strIndex : Str → Str → Option Nat
  | [], substr => if substr.isPrefixOf [] then some 0 else none
  | c :: rest, substr =>
    if substr.isPrefixOf (c :: rest) then some 0
    else (strIndex rest substr).map (fun i => i + 1)

/-- Go `strings.Contains`. -/
def strContains (s substr : Str) : Bool :=
  (strIndex s substr).isSome

/-- The loop of Go `genSplit` for a non-empty separator: cut at the first
occurrence of `sep`, keep what precedes it, go on after it. The counter bounds
the number of cuts. -/
def splitLoop (sep : Str) : Nat → Str → List Str
  | 0, s => [s]
  | n + 1, s =>
    match strIndex s sep with
    | none => [s]
    | some m => s.take m :: splitLoop sep n (s.drop (m + sep.length))

/-- Go `strings.Split`. An empty separator explodes the string into its
characters; otherwise `s` is cut at every occurrence of `sep`, found left to
right without overlap. Every cut removes at least one character, so
`s.length` cuts are never exceeded (`splitLoop_fuel`). -/
def strSplit (s sep : Str) : List Str :=
  if sep = [] then s.map (fun c => [c]) else splitLoop sep s.length s

/-- The number of positions of `s` at which `sep` occurs. -/
def occurrences (sep : Str) : Str → Nat
  | [] => if sep.isPrefixOf [] then 1 else 0
  | c :: rest => (if sep.isPrefixOf (c :: rest) then 1 else 0) + occurrences sep rest

/-- The digest marker of an image or policy reference. -/
def sha256Marker : Str := "@sha256:".toList

/-- The digest algorithm key of the digest maps. -/
def sha256Key : Str := "sha256".toList

/-- The prefix stripped from a configured digest. -/
def sha256Prefix : Str := "sha256:".toList

/-! ## Data model -/

structure ConformaGitSource where
  URL : Str
  Revision : Str
  deriving DecidableEq, Repr

structure ConformaSource where
  Git : Option ConformaGitSource := none
  deriving DecidableEq, Repr

structure ConformaSignature where
  KeyID : Str
  Sig : Str
  deriving DecidableEq, Repr

structure ConformaAttestation where
  Type_ : Str
  PredicateType : Str
  deriving DecidableEq, Repr

structure ConformaViolation where
  Rule : Str
  Message : Str
  deriving DecidableEq, Repr

structure ConformaComponent where
  Name : Str
  ContainerImage : Str
  Source : ConformaSource := {}
  Success : Bool
  Signatures : List ConformaSignature := []
  Attestations : List ConformaAttestation := []
  Violations : List ConformaViolation := []
  deriving DecidableEq, Repr

structure ConformaPolicySource where
  Policy : List Str
  deriving DecidableEq, Repr

structure ConformaPolicy where
  Sources : List ConformaPolicySource
  RekorURL : Str := []
  PublicKey : Str := []
  deriving DecidableEq, Repr

structure ConformaInput where
  Success : Bool
  Components : List ConformaComponent
  Key : Str := []
  Policy : ConformaPolicy
  ECVersion : Str := []
  EffectiveTime : Str
  deriving DecidableEq, Repr

structure VSASubject where
  Name : Str
  Digest : StrMap
  deriving DecidableEq, Repr

structure VSAVerifier where
  ID : Str
  Version : Str
  deriving DecidableEq, Repr

structure VSAPolicy where
  URI : Str := []
  Digest : StrMap := []
  deriving DecidableEq, Repr

structure VSAAttestation where
  URI : Str
  Digest : StrMap
  deriving DecidableEq, Repr

structure VSAPredicate where
  Verifier : VSAVerifier
  TimeVerified : Str
  ResourceURI : Str
  Policy : VSAPolicy
  InputAttestations : List VSAAttestation
  VerificationResult : Str
  VerifiedLevels : List Str
  DependencyLevels : StrMap
  deriving DecidableEq, Repr

structure VSAStatement where
  Type_ : Str
  Subject : List VSASubject
  PredicateType : Str
  Predicate : VSAPredicate
  deriving DecidableEq, Repr

/-- The `policyBundle` object of a policy metadata file. -/
structure PolicyBundle where
  URI : Str := []
  Digest : Str := []
  SourceURI : Str := []
  VerifierVersion : Str := []
  deriving DecidableEq, Repr

/-- The `validation` object of a policy metadata file. -/
structure PolicyValidation where
  Result : Str := []
  Timestamp : Str := []
  deriving DecidableEq, Repr

structure PolicyMetadata where
  PolicyBundle : PolicyBundle := {}
  Validation : PolicyValidation := {}
  deriving DecidableEq, Repr

structure ConversionConfig where
  VerifierID : Str := []
  VerifierVersion : Str := []
  InputFile : Str := []
  OutputFile : Str := []
  SubjectOverride : Str := []
  PolicyURI : Str := []
  PolicyDigest : Str := []
  PolicyMetadataFile : Str := []
  deriving DecidableEq, Repr

/-- What `loadPolicyMetadata` yields for each file name: the state of the file
system and the JSON decoder, taken as an input of the conversion. -/
abbrev MetadataLoader := Str → Except Str PolicyMetadata

/-! ## Conversion functions -/

/-- The loop of `determineVerifiedLevels` over the components, threading the
`hasViolations` flag. -/
def scanViolations (components : List ConformaComponent) : Bool :=
  components.foldl
    (fun hasViolations component =>
      if !component.Success || decide (component.Violations.length > 0) then true
      else hasViolations)
    false

/-- Go `determineVerifiedLevels`. -/
def determineVerifiedLevels (input : ConformaInput) : List Str :=
  if !input.Success then []
  else
    let hasViolations := scanViolations input.Components
    let hasWarnings := false
    if hasViolations then []
    else if hasWarnings then ["SLSA_BUILD_LEVEL_2".toList]
    else ["SLSA_BUILD_LEVEL_3".toList]

/-- Go `buildSubject`. -/
def buildSubject (component : ConformaComponent) (subjectOverride : Str) :
    Except Str VSASubject :=
  let imageRef := if subjectOverride ≠ [] then subjectOverride else component.ContainerImage
  match strSplit imageRef sha256Marker with
  | [name, digest] =>
    if digest = [] then .error ("invalid image reference format: ".toList ++ imageRef)
    else .ok { Name := name, Digest := [(sha256Key, digest)] }
  | _ => .error ("invalid image reference format: ".toList ++ imageRef)

/-- The digest normalisation of `buildPolicy`: strip a leading `sha256:`. -/
def normalizeDigest (digest : Str) : Str :=
  if strHasPrefix digest sha256Prefix then strTrimPrefix digest sha256Prefix else digest

/-- Steps 1 to 3 of Go `buildPolicy`: the configured policy, else the report's
first policy string, else the error. -/
def resolvePolicy (policy : ConformaPolicy) (config : ConversionConfig) :
    Except Str VSAPolicy :=
  if config.PolicyURI ≠ [] then
    .ok { URI := config.PolicyURI,
          Digest := if config.PolicyDigest ≠ [] then
                      [(sha256Key, normalizeDigest config.PolicyDigest)]
                    else [] }
  else
    match policy.Sources with
    | source :: _ =>
      match source.Policy with
      | policyURI :: _ =>
        .ok { URI := policyURI,
              Digest := if strContains policyURI sha256Marker then
                          match strSplit policyURI sha256Marker with
                          | [_, digest] => [(sha256Key, digest)]
                          | _ => []
                        else [] }
      | [] => .error "policy source is required".toList
    | [] => .error "policy source is required".toList

/-- The metadata override of Go `buildPolicy`: each non-empty field of the
bundle replaces the field resolved so far. -/
def applyMetadata (vsaPolicy : VSAPolicy) (metadata : PolicyMetadata) : VSAPolicy :=
  let p1 : VSAPolicy :=
    if metadata.PolicyBundle.URI ≠ [] then { vsaPolicy with URI := metadata.PolicyBundle.URI }
    else vsaPolicy
  if metadata.PolicyBundle.Digest ≠ [] then
    { p1 with Digest := [(sha256Key, normalizeDigest metadata.PolicyBundle.Digest)] }
  else p1

/-- Go `buildPolicy`, the metadata load being `loadPolicyMetadata`. -/
def buildPolicy (loadPolicyMetadata : MetadataLoader) (policy : ConformaPolicy)
    (config : ConversionConfig) : Except Str VSAPolicy :=
  match resolvePolicy policy config with
  | .error e => .error e
  | .ok vsaPolicy =>
    if config.PolicyMetadataFile ≠ [] then
      match loadPolicyMetadata config.PolicyMetadataFile with
      | .ok metadata => .ok (applyMetadata vsaPolicy metadata)
      | .error _ => .ok vsaPolicy
    else .ok vsaPolicy

/-- Go `buildInputAttestations`. -/
def buildInputAttestations : List ConformaComponent → List VSAAttestation
  | [] => []
  | component :: rest =>
    if component.Attestations.length > 0 then
      { URI := component.Name ++ "-attestations".toList,
        Digest := [(sha256Key, "computed-from-attestations".toList)] }
        :: buildInputAttestations rest
    else buildInputAttestations rest

/-- Go `determineVerifierVersion`. -/
def determineVerifierVersion (ecVersion defaultVersion : Str) : Str :=
  if ecVersion ≠ [] then ecVersion else defaultVersion

/-! ## Time normalisation

`parseTime` calls `time.Parse` of the Go standard library with the layouts
`time.RFC3339` (`2006-01-02T15:04:05Z07:00`) and `2006-01-02T15:04:05`, and
prints the parsed instant with `t.UTC().Format(time.RFC3339)`. The library is
modelled as it reads these two layouts: a four-digit year, two-digit month,
day, minute and second, an hour of one or two digits, an optional fractional
second after the seconds (dropped by the output layout), and for RFC3339 a
zone that is `Z` or a signed `hh:mm` offset with `hh ≤ 24` and `mm ≤ 60`. An
instant is a number of seconds counted from 1970-01-01T00:00:00Z. -/

/-- Go `isDigit` on one character. -/
def isDigit (c : Char) : Bool :=
  decide (48 ≤ c.toNat) && decide (c.toNat ≤ 57)

/-- The value of a decimal digit. -/
def digitVal (c : Char) : Nat :=
  c.toNat - 48

/-- The decimal digit of a value below ten. -/
def digitChar (d : Nat) : Char :=
  Char.ofNat (48 + d)

/-- Go `getnum`: a number of two digits, or of one digit when `fixed` is off and
no second digit follows; the rest of the input comes with it. -/
def getnum (s : Str) (fixed : Bool) : Option (Nat × Str) :=
  match s with
  | [] => none
  | [c0] =>
    if !isDigit c0 then none
    else if fixed then none
    else some (digitVal c0, [])
  | c0 :: c1 :: rest =>
    if !isDigit c0 then none
    else if !isDigit c1 then
      if fixed then none else some (digitVal c0, c1 :: rest)
    else some (digitVal c0 * 10 + digitVal c1, rest)

/-- The layout element `2006`: exactly four digits. -/
def getYear (s : Str) : Option (Nat × Str) :=
  match s with
  | c0 :: c1 :: c2 :: c3 :: rest =>
    if isDigit c0 && isDigit c1 && isDigit c2 && isDigit c3 then
      some (digitVal c0 * 1000 + digitVal c1 * 100 + digitVal c2 * 10 + digitVal c3, rest)
    else none
  | _ => none

/-- Go `skip` for a literal layout character other than a blank. -/
def skipChar (c : Char) (s : Str) : Option Str :=
  match s with
  | [] => none
  | d :: rest => if d = c then some rest else none

/-- The fractional second the library accepts after the seconds although the
layout has none: a comma or period followed by at least one digit, taken with
all the digits after it. -/
def skipFraction (s : Str) : Str :=
  match s with
  | p :: d :: rest =>
    if (p = '.' || p = ',') && isDigit d then rest.dropWhile isDigit else s
  | _ => s

/-- Leap years of the proleptic Gregorian calendar. -/
def isLeap (year : Nat) : Bool :=
  year % 4 = 0 && (year % 100 ≠ 0 || year % 400 = 0)

/-- Go `daysIn`. -/
def daysIn (month year : Nat) : Nat :=
  if month = 2 then (if isLeap year then 29 else 28)
  else if month = 4 || month = 6 || month = 9 || month = 11 then 30
  else 31

/-- The layout element `Z07:00`: `Z`, or a sign, two digits, a colon and two
digits; the result is the offset from UTC in seconds. -/
def getZone (s : Str) : Option (Int × Str) :=
  match s with
  | 'Z' :: rest => some (0, rest)
  | sign :: h1 :: h2 :: colon :: m1 :: m2 :: rest =>
    if colon ≠ ':' then none
    else
      match getnum [h1, h2] true, getnum [m1, m2] true with
      | some (hr, _), some (mm, _) =>
        if hr > 24 || mm > 60 then none
        else if sign = '+' then some (((hr * 60 + mm) * 60 : Nat), rest)
        else if sign = '-' then some (-(((hr * 60 + mm) * 60 : Nat) : Int), rest)
        else none
      | _, _ => none
  | _ => none

/-- A calendar date and time of day. -/
structure Civil where
  year : Int
  month : Nat
  day : Nat
  hour : Nat
  min : Nat
  sec : Nat
  deriving DecidableEq, Repr

/-- The number of days from 1970-01-01 to a date of the proleptic Gregorian
calendar. -/
def daysFromCivil (year : Int) (month day : Nat) : Int :=
  let y : Int := if month ≤ 2 then year - 1 else year
  let era : Int := y / 400
  let yoe : Int := y - era * 400
  let mp : Int := ((month + 9) % 12 : Nat)
  let doy : Int := (153 * mp + 2) / 5 + day - 1
  let doe : Int := yoe * 365 + yoe / 4 - yoe / 100 + doy
  era * 146097 + doe - 719468

/-- The date that lies a number of days after 1970-01-01: year, month, day. -/
def civilFromDays (days : Int) : Int × Nat × Nat :=
  let z : Int := days + 719468
  let era : Int := z / 146097
  let doe : Int := z - era * 146097
  let yoe : Int := (doe - doe / 1460 + doe / 36524 - doe / 146096) / 365
  let y : Int := yoe + era * 400
  let doy : Int := doe - (365 * yoe + yoe / 4 - yoe / 100)
  let mp : Int := (5 * doy + 2) / 153
  let d : Int := doy - (153 * mp + 2) / 5 + 1
  let m : Int := if mp < 10 then mp + 3 else mp - 9
  (if m ≤ 2 then y + 1 else y, m.toNat, d.toNat)

/-- Go `Date(...).Unix()` in UTC: the instant of a date and time. -/
def Civil.toUnix (c : Civil) : Int :=
  daysFromCivil c.year c.month c.day * 86400 + (c.hour * 3600 + c.min * 60 + c.sec : Nat)

/-- The date and time of an instant in UTC. -/
def Civil.ofUnix (t : Int) : Civil :=
  let days : Int := t / 86400
  let rem : Nat := (t % 86400).toNat
  let ymd := civilFromDays days
  { year := ymd.1, month := ymd.2.1, day := ymd.2.2,
    hour := rem / 3600, min := rem % 3600 / 60, sec := rem % 60 }

/-- The date and time both layouts start with, `2006-01-02T15:04:05` and an
optional fractional second, with the range checks of `time.Parse`. -/
def getDateTime (s : Str) : Option (Civil × Str) := do
  let (year, s) ← getYear s
  let s ← skipChar '-' s
  let (month, s) ← getnum s true
  if month = 0 || 12 < month then none
  let s ← skipChar '-' s
  let (day, s) ← getnum s true
  let s ← skipChar 'T' s
  let (hour, s) ← getnum s false
  if 24 ≤ hour then none
  let s ← skipChar ':' s
  let (min, s) ← getnum s true
  if 60 ≤ min then none
  let s ← skipChar ':' s
  let (sec, s) ← getnum s true
  if 60 ≤ sec then none
  some ({ year := year, month := month, day := day, hour := hour, min := min, sec := sec },
        skipFraction s)

/-- Go `time.Parse(time.RFC3339, value)`, as the instant parsed. -/
def parseRFC3339 (value : Str) : Option Int := do
  let (c, s) ← getDateTime value
  let (zoneOffset, s) ← getZone s
  if s ≠ [] then none
  if c.day < 1 || c.day > daysIn c.month c.year.toNat then none
  some (c.toUnix - zoneOffset)

/-- Go `time.Parse("2006-01-02T15:04:05", value)`, as the instant parsed: without
a zone the time is read as UTC. -/
def parseBare (value : Str) : Option Int := do
  let (c, s) ← getDateTime value
  if s ≠ [] then none
  if c.day < 1 || c.day > daysIn c.month c.year.toNat then none
  some c.toUnix

/-- Two decimal digits, zero padded. -/
def pad2 (n : Nat) : Str :=
  [digitChar (n / 10 % 10), digitChar (n % 10)]

/-- Go `appendInt(b, year, 4)`: a sign for a negative year, then at least four
digits. -/
def formatYear (year : Int) : Str :=
  let u : Nat := year.natAbs
  let digits : Str :=
    if u < 10000 then
      [digitChar (u / 1000), digitChar (u / 100 % 10), digitChar (u / 10 % 10), digitChar (u % 10)]
    else Nat.toDigits 10 u
  if year < 0 then '-' :: digits else digits

/-- Go `t.UTC().Format(time.RFC3339)` of an instant. -/
def formatRFC3339UTC (t : Int) : Str :=
  let c := Civil.ofUnix t
  formatYear c.year ++ '-' :: pad2 c.month ++ '-' :: pad2 c.day ++ 'T' :: pad2 c.hour
    ++ ':' :: pad2 c.min ++ ':' :: pad2 c.sec ++ ['Z']

/-- Go `parseTime`. -/
def parseTime (timeStr : Str) : Except Str Str :=
  match parseRFC3339 timeStr with
  | some t => .ok (formatRFC3339UTC t)
  | none =>
    match parseBare timeStr with
    | some t => .ok (formatRFC3339UTC t)
    | none => .error ("unsupported time format: ".toList ++ timeStr)

/-- The number two decimal digits denote. -/
def twoDigits (a b : Char) : Nat :=
  digitVal a * 10 + digitVal b

/-- The number four decimal digits denote. -/
def fourDigits (a b c d : Char) : Nat :=
  digitVal a * 1000 + digitVal b * 100 + digitVal c * 10 + digitVal d

/-- The form `YYYY-MM-DDTHH:MM:SSZ`: four, two, two, two, two and two digits
between the separators, and a final `Z` in place of a numeric offset. -/
def isRFC3339UTC (s : Str) : Bool :=
  match s with
  | [y1, y2, y3, y4, a, m1, m2, b, d1, d2, c, h1, h2, e, n1, n2, f, s1, s2, z] =>
    isDigit y1 && isDigit y2 && isDigit y3 && isDigit y4 && a == '-' &&
      isDigit m1 && isDigit m2 && b == '-' && isDigit d1 && isDigit d2 && c == 'T' &&
      isDigit h1 && isDigit h2 && e == ':' && isDigit n1 && isDigit n2 && f == ':' &&
      isDigit s1 && isDigit s2 && z == 'Z'
  | _ => false

/-! ## The conversion -/

/-- The outcome of `convertToVSA`: the statement, the error returned, or the
run-time panic of an index out of range. -/
inductive ConvResult where
  | ok (vsa : VSAStatement)
  | error (msg : Str)
  | indexOutOfRange
  deriving DecidableEq, Repr

/-- The subject loop of `convertToVSA`: one subject per component in order, the
first failure ending the conversion. -/
def buildSubjects (subjectOverride : Str) : List ConformaComponent → Except Str (List VSASubject)
  | [] => .ok []
  | component :: rest =>
    match buildSubject component subjectOverride with
    | .error e =>
      .error ("failed to build subject for component ".toList ++ component.Name
        ++ ": ".toList ++ e)
    | .ok subject =>
      match buildSubjects subjectOverride rest with
      | .error e => .error e
      | .ok subjects => .ok (subject :: subjects)

/-- The resource URI `convertToVSA` derives from the first subject. -/
def buildResourceURI (first : VSASubject) : Str :=
  if strContains first.Name "@".toList then first.Name
  else
    match first.Digest.get? sha256Key with
    | some digest => first.Name ++ "@sha256:".toList ++ digest
    | none => first.Name

/-- Go `convertToVSA`. -/
def convertToVSA (loadPolicyMetadata : MetadataLoader) (input : ConformaInput)
    (config : ConversionConfig) : ConvResult :=
  match parseTime input.EffectiveTime with
  | .error e => .error ("failed to parse effective-time: ".toList ++ e)
  | .ok timeVerified =>
    match buildSubjects config.SubjectOverride input.Components with
    | .error e => .error e
    | .ok subjects =>
      let verificationResult : Str :=
        if !input.Success then "FAILED".toList else "PASSED".toList
      let verifiedLevels := determineVerifiedLevels input
      match buildPolicy loadPolicyMetadata input.Policy config with
      | .error e => .error ("failed to build policy: ".toList ++ e)
      | .ok policy =>
        let inputAttestations := buildInputAttestations input.Components
        match subjects with
        | [] => .indexOutOfRange
        | first :: _ =>
          .ok { Type_ := "https://in-toto.io/Statement/v1".toList,
                Subject := subjects,
                PredicateType := "https://slsa.dev/verification_summary/v1".toList,
                Predicate :=
                  { Verifier :=
                      { ID := config.VerifierID,
                        Version := determineVerifierVersion input.ECVersion config.VerifierVersion },
                    TimeVerified := timeVerified,
                    ResourceURI := buildResourceURI first,
                    Policy := policy,
                    InputAttestations := inputAttestations,
                    VerificationResult := verificationResult,
                    VerifiedLevels := verifiedLevels,
                    DependencyLevels := [] } }

/-! ## Validation -/

/-- The decimal digits `%d` prints for an index. -/
def formatIndex (i : Nat) : Str :=
  Nat.toDigits 10 i

/-- The component loop of `validateConformaInput`; `i` is the index of the first
component of the list. -/
def validateComponents : Nat → List ConformaComponent → Except Str Unit
  | _, [] => .ok ()
  | i, component :: rest =>
    if component.Name = [] then
      .error ("component[".toList ++ formatIndex i ++ "]: name is required".toList)
    else if component.ContainerImage = [] then
      .error ("component[".toList ++ formatIndex i ++ "]: containerImage is required".toList)
    else if !strContains component.ContainerImage "@sha256:".toList then
      .error ("component[".toList ++ formatIndex i
        ++ "]: containerImage must include sha256 digest".toList)
    else validateComponents (i + 1) rest

/-- Go `validateConformaInput`. -/
def validateConformaInput (input : ConformaInput) : Except Str Unit :=
  if input.EffectiveTime = [] then .error "effective-time is required".toList
  else if input.Components.length = 0 then .error "at least one component is required".toList
  else validateComponents 0 input.Components

/-- The subject loop of `validateVSAOutput`; `i` is the index of the first subject
of the list. -/
def validateSubjects : Nat → List VSASubject → Except Str Unit
  | _, [] => .ok ()
  | i, subject :: rest =>
    if subject.Name = [] then
      .error ("subject[".toList ++ formatIndex i ++ "]: name is required".toList)
    else if subject.Digest.length = 0 then
      .error ("subject[".toList ++ formatIndex i ++ "]: digest is required".toList)
    else if (subject.Digest.get? sha256Key).isNone then
      .error ("subject[".toList ++ formatIndex i ++ "]: sha256 digest is required".toList)
    else validateSubjects (i + 1) rest

/-- The map `validResults` of `validateVSAOutput`. -/
def validResults : List (Str × Bool) :=
  [("PASSED".toList, true), ("FAILED".toList, true)]

/-- The lookup `validResults[key]` of a `map[string]bool`: `false` for an absent
key. -/
def validResultsGet (key : Str) : Bool :=
  (List.lookup key validResults).getD false

/-- Go `validateVSAOutput`. -/
def validateVSAOutput (vsa : VSAStatement) : Except Str Unit :=
  if vsa.Type_ ≠ "https://in-toto.io/Statement/v1".toList then
    .error ("invalid statement type: ".toList ++ vsa.Type_)
  else if vsa.PredicateType ≠ "https://slsa.dev/verification_summary/v1".toList then
    .error ("invalid predicate type: ".toList ++ vsa.PredicateType)
  else if vsa.Subject.length = 0 then .error "at least one subject is required".toList
  else
    match validateSubjects 0 vsa.Subject with
    | .error e => .error e
    | .ok _ =>
      if vsa.Predicate.Verifier.ID = [] then .error "verifier ID is required".toList
      else if vsa.Predicate.TimeVerified = [] then .error "timeVerified is required".toList
      else if vsa.Predicate.ResourceURI = [] then .error "resourceUri is required".toList
      else if vsa.Predicate.Policy.URI = [] then .error "policy URI is required".toList
      else if !validResultsGet vsa.Predicate.VerificationResult then
        .error ("invalid verification result: ".toList ++ vsa.Predicate.VerificationResult)
      else .ok ()

/-! ## Sample inputs

The values of the test suite (`TestConvertToVSA`, `TestBuildSubject`,
`TestBuildPolicy`), used to run the definitions. -/

/-- A policy metadata loader for a file system without the file. -/
def noMetadata : MetadataLoader :=
  fun _ => .error "failed to read policy metadata file".toList

/-- The component of the "Successful conversion" case. -/
def testComponent : ConformaComponent :=
  { Name := "test-app".toList,
    ContainerImage :=
      "quay.io/test/app@sha256:a1b2c3d4e5f6789012345678901234567890abcdef1234567890abcdef123456".toList,
    Success := true }

/-- The report of the "Successful conversion" case. -/
def testInput : ConformaInput :=
  { Success := true,
    EffectiveTime := "2024-01-15T14:30:00Z".toList,
    ECVersion := "v0.3.0".toList,
    Components := [testComponent],
    Policy :=
      { Sources :=
          [{ Policy := ["oci://registry.example.com/policies/enterprise-contract:v1.0".toList] }] } }

/-- The configuration of `TestConvertToVSA`. -/
def testConfig : ConversionConfig :=
  { VerifierID := "https://test.example.com/verifier".toList,
    VerifierVersion := "v1.0.0".toList }

/-- The statement `convertToVSA` produces for `testInput`. -/
def testVSA : VSAStatement :=
  { Type_ := "https://in-toto.io/Statement/v1".toList,
    Subject :=
      [{ Name := "quay.io/test/app".toList,
         Digest :=
           [("sha256".toList,
             "a1b2c3d4e5f6789012345678901234567890abcdef1234567890abcdef123456".toList)] }],
    PredicateType := "https://slsa.dev/verification_summary/v1".toList,
    Predicate :=
      { Verifier := { ID := "https://test.example.com/verifier".toList, Version := "v0.3.0".toList },
        TimeVerified := "2024-01-15T14:30:00Z".toList,
        ResourceURI :=
          "quay.io/test/app@sha256:a1b2c3d4e5f6789012345678901234567890abcdef1234567890abcdef123456".toList,
        Policy :=
          { URI := "oci://registry.example.com/policies/enterprise-contract:v1.0".toList,
            Digest := [] },
        InputAttestations := [],
        VerificationResult := "PASSED".toList,
        VerifiedLevels := ["SLSA_BUILD_LEVEL_3".toList],
        DependencyLevels := [] } }

/-- A report whose first image name holds an `@` before the digest marker. -/
def atNameInput : ConformaInput :=
  { testInput with
    Components :=
      [{ testComponent with ContainerImage := "registry.example.com/team@site/app@sha256:abc123".toList }] }

/-- The first subject built for `atNameInput`. -/
def atNameSubject : VSASubject :=
  { Name := "registry.example.com/team@site/app".toList,
    Digest := [("sha256".toList, "abc123".toList)] }

/-- The statement `convertToVSA` produces for `atNameInput`. -/
def atNameVSA : VSAStatement :=
  { testVSA with
    Subject := [atNameSubject],
    Predicate :=
      { testVSA.Predicate with ResourceURI := "registry.example.com/team@site/app".toList } }

/-- A report policy whose first string holds the digest marker twice. -/
def twoMarkerPolicy : ConformaPolicy :=
  { Sources := [{ Policy := ["oci://registry.example.com/p@sha256:abc123@sha256:def456".toList] }] }

/-- The report policy of the "OCI policy with digest" case. -/
def ociPolicy : ConformaPolicy :=
  { Sources := [{ Policy := ["oci://registry.example.com/p@sha256:abc123".toList] }] }

/-- A report policy whose first policy string is empty. -/
def emptyStringPolicy : ConformaPolicy :=
  { Sources := [{ Policy := [[]] }] }

/-- The test report with the overall result failed. -/
def failedInput : ConformaInput :=
  { testInput with Success := false }

/-- The statement `convertToVSA` produces for `failedInput`. -/
def failedVSA : VSAStatement :=
  { testVSA with
    Predicate :=
      { testVSA.Predicate with VerificationResult := "FAILED".toList, VerifiedLevels := [] } }

/-- The report of the "Has violations" case: overall success, a failed component. -/
def violationInput : ConformaInput :=
  { testInput with
    Components :=
      [{ testComponent with
         Success := false,
         Violations := [{ Rule := "test".toList, Message := "failed".toList }] }] }

/-- A policy metadata loader for a file that holds a policy bundle with a URI and a
prefixed digest. -/
def bundleMetadata : MetadataLoader :=
  fun _ =>
    .ok { PolicyBundle :=
            { URI := "oci://registry.example.com/bundle".toList,
              Digest := "sha256:feed".toList } }

/-- A configuration naming a policy metadata file. -/
def metadataConfig : ConversionConfig :=
  { testConfig with PolicyMetadataFile := "policy-metadata.json".toList }

/-- A configuration whose policy digest carries the prefix twice. -/
def doublePrefixConfig : ConversionConfig :=
  { PolicyURI := "oci://config.example.com/policy".toList,
    PolicyDigest := "sha256:sha256:abc".toList }

/-- A report whose first component has no image and whose second has no name. -/
def imageBeforeNameInput : ConformaInput :=
  { testInput with
    Components :=
      [{ testComponent with ContainerImage := [] },
       { testComponent with Name := [] }] }

/-- A report whose image reference has nothing before the digest marker. -/
def emptyNameInput : ConformaInput :=
  { testInput with
    Components := [{ testComponent with ContainerImage := "@sha256:abc123".toList }] }

/-- The statement `convertToVSA` produces for `emptyNameInput`. -/
def emptyNameVSA : VSAStatement :=
  { testVSA with
    Subject := [{ Name := [], Digest := [("sha256".toList, "abc123".toList)] }],
    Predicate := { testVSA.Predicate with ResourceURI := "@sha256:abc123".toList } }

/-- The test report with an empty first policy string. -/
def emptyPolicyInput : ConformaInput :=
  { testInput with Policy := emptyStringPolicy }

/-- The statement `convertToVSA` produces for `emptyPolicyInput`. -/
def emptyPolicyVSA : VSAStatement :=
  { testVSA with
    Predicate := { testVSA.Predicate with Policy := { URI := [], Digest := [] } } }

/-- The test report with a second component whose image has no digest. -/
def badSecondImageInput : ConformaInput :=
  { testInput with
    Components :=
      [testComponent,
       { testComponent with Name := "other".toList,
                            ContainerImage := "quay.io/test/app:latest".toList }] }

/-- The test report without components. -/
def noComponentsInput : ConformaInput :=
  { testInput with Components := [] }

/-- The test configuration with a subject override. -/
def overrideConfig : ConversionConfig :=
  { testConfig with SubjectOverride := "quay.io/override/app@sha256:new123".toList }

/-- A report of two components with different images. -/
def twoComponentInput : ConformaInput :=
  { testInput with
    Components :=
      [testComponent,
       { testComponent with Name := "other".toList,
                            ContainerImage := "quay.io/test/other@sha256:abc123".toList }] }

/-- The report `twoComponentInput` with other images, one of them without a digest. -/
def twoComponentInputOtherImages : ConformaInput :=
  { testInput with
    Components :=
      [{ testComponent with ContainerImage := "quay.io/test/app:latest".toList },
       { testComponent with Name := "other".toList, ContainerImage := [] }] }

/-! ## Shared lemmas -/

theorem scanViolations_foldl (components : List ConformaComponent) (acc : Bool) :
    components.foldl
      (fun hasViolations component =>
        if !component.Success || decide (component.Violations.length > 0) then true
        else hasViolations)
      acc
    = (acc || components.any (fun c => !c.Success || decide (c.Violations.length > 0))) := by
  induction components generalizing acc with
  | nil => simp
  | cons c cs ih =>
    simp only [List.foldl_cons, List.any_cons, ih]
    cases hc : (!c.Success || decide (c.Violations.length > 0)) <;> simp

theorem scanViolations_eq_any (components : List ConformaComponent) :
    scanViolations components
      = components.any (fun c => !c.Success || decide (c.Violations.length > 0)) := by
  unfold scanViolations
  rw [scanViolations_foldl]
  simp

theorem scanViolations_eq_false_iff (components : List ConformaComponent) :
    scanViolations components = false
      ↔ ∀ c ∈ components, c.Success = true ∧ c.Violations = [] := by
  rw [scanViolations_eq_any]
  constructor
  · intro h c hc
    have h1 : ¬ (components.any (fun c => !c.Success || decide (c.Violations.length > 0)) = true) := by
      simp [h]
    rw [List.any_eq_true] at h1
    have h2 : ¬ ((!c.Success || decide (c.Violations.length > 0)) = true) :=
      fun hx => h1 ⟨c, hc, hx⟩
    cases hs : c.Success <;> cases hv : c.Violations <;> simp [hs, hv] at h2 ⊢
  · intro h
    apply Bool.eq_false_iff.mpr
    intro hx
    rw [List.any_eq_true] at hx
    obtain ⟨c, hc, hcx⟩ := hx
    obtain ⟨hs, hv⟩ := h c hc
    simp [hs, hv] at hcx

/-- What a successful `convertToVSA` has computed: the time, the subjects (at
least one) and the policy, and the statement built from them. -/
theorem convertToVSA_ok_inv (loadPolicyMetadata : MetadataLoader) (input : ConformaInput)
    (config : ConversionConfig) (vsa : VSAStatement)
    (h : convertToVSA loadPolicyMetadata input config = .ok vsa) :
    ∃ timeVerified first rest policy,
      parseTime input.EffectiveTime = .ok timeVerified ∧
      buildSubjects config.SubjectOverride input.Components = .ok (first :: rest) ∧
      buildPolicy loadPolicyMetadata input.Policy config = .ok policy ∧
      vsa =
        { Type_ := "https://in-toto.io/Statement/v1".toList,
          Subject := first :: rest,
          PredicateType := "https://slsa.dev/verification_summary/v1".toList,
          Predicate :=
            { Verifier :=
                { ID := config.VerifierID,
                  Version := determineVerifierVersion input.ECVersion config.VerifierVersion },
              TimeVerified := timeVerified,
              ResourceURI := buildResourceURI first,
              Policy := policy,
              InputAttestations := buildInputAttestations input.Components,
              VerificationResult := if !input.Success then "FAILED".toList else "PASSED".toList,
              VerifiedLevels := determineVerifiedLevels input,
              DependencyLevels := [] } } := by
  unfold convertToVSA at h
  cases ht : parseTime input.EffectiveTime with
  | error e => simp [ht] at h
  | ok timeVerified =>
    cases hs : buildSubjects config.SubjectOverride input.Components with
    | error e => simp [ht, hs] at h
    | ok subjects =>
      cases hp : buildPolicy loadPolicyMetadata input.Policy config with
      | error e => simp [ht, hs, hp] at h
      | ok policy =>
        cases subjects with
        | nil => simp [ht, hs, hp] at h
        | cons first rest =>
          simp only [ht, hs, hp] at h
          injection h with h
          exact ⟨timeVerified, first, rest, policy, rfl, rfl, rfl, h.symm⟩

theorem sha256Marker_eq : sha256Marker = ['@', 's', 'h', 'a', '2', '5', '6', ':'] := rfl

theorem sha256Marker_ne_nil : sha256Marker ≠ [] := by
  rw [sha256Marker_eq]; simp

theorem strIndex_nil_of_ne_nil (sep : Str) (h : sep ≠ []) : strIndex [] sep = none := by
  cases sep with
  | nil => exact absurd rfl h
  | cons a l => simp [strIndex, List.isPrefixOf]

/-- Where `strIndex` finds `sep`, the string is what precedes the position, `sep`,
and what follows it, and no occurrence starts before the position. -/
theorem strIndex_some (sep : Str) : ∀ (s : Str) (m : Nat), strIndex s sep = some m →
    s = s.take m ++ sep ++ s.drop (m + sep.length) ∧
    occurrences sep s = occurrences sep (s.drop m) ∧ m ≤ s.length := by
  intro s
  induction s with
  | nil =>
    intro m h
    cases sep with
    | nil =>
      simp [strIndex] at h
      subst h
      simp
    | cons a l => simp [strIndex, List.isPrefixOf] at h
  | cons c rest ih =>
    intro m h
    unfold strIndex at h
    by_cases hp : sep.isPrefixOf (c :: rest) = true
    · simp only [hp, if_true, Option.some.injEq] at h
      subst h
      have hpre : sep <+: c :: rest := List.isPrefixOf_iff_prefix.mp hp
      obtain ⟨t, ht⟩ := hpre
      refine ⟨?_, rfl, Nat.zero_le _⟩
      rw [← ht]
      simp
    · simp only [hp] at h
      cases hr : strIndex rest sep with
      | none => simp [hr] at h
      | some m' =>
        simp [hr] at h
        subst h
        obtain ⟨h1, h2, h3⟩ := ih m' hr
        refine ⟨?_, ?_, ?_⟩
        · have : m' + 1 + sep.length = (m' + sep.length) + 1 := by omega
          rw [this]
          simp only [List.take_succ_cons, List.drop_succ_cons, List.cons_append]
          rw [← h1]
        · simp [occurrences, hp, h2]
        · simp only [List.length_cons]; omega

theorem strIndex_none (sep : Str) : ∀ (s : Str), strIndex s sep = none ↔ occurrences sep s = 0 := by
  intro s
  induction s with
  | nil =>
    by_cases hp : sep.isPrefixOf [] = true <;> simp [strIndex, occurrences, hp]
  | cons c rest ih =>
    by_cases hp : sep.isPrefixOf (c :: rest) = true
    · simp [strIndex, occurrences, hp]
    · simp [strIndex, occurrences, hp, ih]

theorem strIndex_some_length (sep s : Str) (m : Nat) (h : strIndex s sep = some m) :
    m + sep.length ≤ s.length := by
  obtain ⟨h1, _, h3⟩ := strIndex_some sep s m h
  have h2 := congrArg List.length h1
  simp only [List.length_append, List.length_take, List.length_drop] at h2
  omega

theorem splitLoop_ne_nil (sep : Str) (n : Nat) (s : Str) : splitLoop sep n s ≠ [] := by
  cases n with
  | zero => simp [splitLoop]
  | succ n =>
    unfold splitLoop
    cases strIndex s sep <;> simp

theorem splitLoop_of_none (sep : Str) (n : Nat) (s : Str) (h : strIndex s sep = none) :
    splitLoop sep n s = [s] := by
  cases n with
  | zero => simp [splitLoop]
  | succ n => simp [splitLoop, h]

theorem splitLoop_of_some (sep : Str) (hsep : sep ≠ []) (n : Nat) (s : Str) (m : Nat)
    (hn : s.length ≤ n) (h : strIndex s sep = some m) :
    splitLoop sep n s = s.take m :: splitLoop sep (n - 1) (s.drop (m + sep.length)) ∧
      (s.drop (m + sep.length)).length ≤ n - 1 := by
  have hlen := strIndex_some_length sep s m h
  have hpos : 0 < sep.length := List.length_pos.mpr hsep
  cases n with
  | zero => omega
  | succ n =>
    constructor
    · simp [splitLoop, h]
    · simp only [List.length_drop]; omega

/-- The counter of `strSplit` is never exhausted: any bound from the length of
the string on gives the same pieces. -/
theorem splitLoop_fuel (sep : Str) (hsep : sep ≠ []) :
    ∀ (n : Nat) (s : Str), s.length ≤ n → splitLoop sep n s = splitLoop sep s.length s := by
  have key : ∀ (n : Nat) (s : Str) (k : Nat), s.length ≤ n → s.length ≤ k →
      splitLoop sep n s = splitLoop sep k s := by
    intro n
    induction n with
    | zero =>
      intro s k hn hk
      have hs : s = [] := List.length_eq_zero.mp (by omega)
      subst hs
      rw [splitLoop_of_none sep 0 [] (strIndex_nil_of_ne_nil sep hsep),
        splitLoop_of_none sep k [] (strIndex_nil_of_ne_nil sep hsep)]
    | succ n ih =>
      intro s k hn hk
      cases hi : strIndex s sep with
      | none => rw [splitLoop_of_none sep _ s hi, splitLoop_of_none sep _ s hi]
      | some m =>
        obtain ⟨e1, b1⟩ := splitLoop_of_some sep hsep (n + 1) s m hn hi
        obtain ⟨e2, b2⟩ := splitLoop_of_some sep hsep k s m hk hi
        rw [e1, e2]
        congr 1
        exact ih _ _ b1 b2
  intro n s hn
  exact key n s s.length hn (Nat.le_refl _)

/-- When `strSplit` yields exactly two pieces: `sep` is found once, the pieces
are what precedes and what follows it, and it is not found in the second. -/
theorem strSplit_pair (sep : Str) (hsep : sep ≠ []) (s a b : Str) :
    strSplit s sep = [a, b] ↔
      ∃ m, strIndex s sep = some m ∧ a = s.take m ∧ b = s.drop (m + sep.length) ∧
        strIndex b sep = none := by
  unfold strSplit
  simp only [hsep, if_false]
  constructor
  · intro h
    cases hi : strIndex s sep with
    | none => rw [splitLoop_of_none sep _ s hi] at h; simp at h
    | some m =>
      obtain ⟨e1, b1⟩ := splitLoop_of_some sep hsep s.length s m (Nat.le_refl _) hi
      rw [e1] at h
      simp only [List.cons.injEq] at h
      obtain ⟨ha, ht⟩ := h
      cases hj : strIndex (s.drop (m + sep.length)) sep with
      | none =>
        rw [splitLoop_of_none sep _ _ hj] at ht
        simp only [List.cons.injEq, and_true] at ht
        exact ⟨m, rfl, ha.symm, ht.symm, by rw [← ht]; exact hj⟩
      | some m' =>
        obtain ⟨e2, _⟩ := splitLoop_of_some sep hsep _ _ m' b1 hj
        rw [e2] at ht
        simp only [List.cons.injEq] at ht
        exact absurd ht.2 (splitLoop_ne_nil _ _ _)
  · rintro ⟨m, hi, ha, hb, hn⟩
    obtain ⟨e1, b1⟩ := splitLoop_of_some sep hsep s.length s m (Nat.le_refl _) hi
    rw [e1, ← hb, splitLoop_of_none sep _ b hn, ← ha]

/-- The marker does not overlap itself: after an occurrence the next one starts
behind it. -/
theorem occurrences_marker_append (b : Str) :
    occurrences sha256Marker (sha256Marker ++ b) = 1 + occurrences sha256Marker b := by
  simp [sha256Marker_eq, occurrences, List.isPrefixOf]

theorem occurrences_cons (sep : Str) (c : Char) (rest : Str) :
    occurrences sep (c :: rest)
      = (if sep.isPrefixOf (c :: rest) then 1 else 0) + occurrences sep rest := rfl

theorem occurrences_append_ge (sep a s : Str) :
    occurrences sep s ≤ occurrences sep (a ++ s) := by
  induction a with
  | nil => simp
  | cons c a ih => rw [List.cons_append, occurrences_cons]; omega

/-- A marker occurring exactly once is found at its position, and not after it. -/
theorem strIndex_of_occurrences_one (n d : Str)
    (h : occurrences sha256Marker (n ++ sha256Marker ++ d) = 1) :
    strIndex (n ++ sha256Marker ++ d) sha256Marker = some n.length ∧
      occurrences sha256Marker d = 0 := by
  induction n with
  | nil =>
    simp only [List.nil_append] at h ⊢
    rw [occurrences_marker_append] at h
    refine ⟨?_, by omega⟩
    simp [sha256Marker_eq, strIndex, List.isPrefixOf]
  | cons c n ih =>
    rw [List.cons_append, List.cons_append, occurrences_cons] at h
    have hge : 1 ≤ occurrences sha256Marker (n ++ sha256Marker ++ d) := by
      have h1 := occurrences_append_ge sha256Marker n (sha256Marker ++ d)
      rw [occurrences_marker_append] at h1
      simp only [List.append_assoc]
      omega
    by_cases hp : sha256Marker.isPrefixOf (c :: (n ++ sha256Marker ++ d)) = true
    · rw [if_pos hp] at h; omega
    · rw [if_neg hp] at h
      obtain ⟨i1, i2⟩ := ih (by omega)
      refine ⟨?_, i2⟩
      rw [List.cons_append, List.cons_append, strIndex, if_neg hp, i1]
      rfl

/-- Splitting at the digest marker yields exactly two pieces when the string is
the first piece, the marker and the second piece, and the marker occurs once. -/
theorem strSplit_marker_pair (s a b : Str) :
    strSplit s sha256Marker = [a, b] ↔
      s = a ++ sha256Marker ++ b ∧ occurrences sha256Marker s = 1 := by
  rw [strSplit_pair sha256Marker sha256Marker_ne_nil]
  constructor
  · rintro ⟨m, hi, ha, hb, hn⟩
    obtain ⟨h1, h2, h3⟩ := strIndex_some sha256Marker s m hi
    rw [← ha, ← hb] at h1
    refine ⟨h1, ?_⟩
    have hd : s.drop m = sha256Marker ++ b := by
      have hlen : a.length = m := by rw [ha, List.length_take]; omega
      conv_lhs => rw [h1, List.append_assoc, ← hlen, List.drop_left]
    rw [h2, hd, occurrences_marker_append, (strIndex_none sha256Marker b).mp hn]
  · rintro ⟨hs, hocc⟩
    rw [hs] at hocc
    obtain ⟨hi, hz⟩ := strIndex_of_occurrences_one a b hocc
    refine ⟨a.length, by rw [hs]; exact hi, ?_, ?_, (strIndex_none sha256Marker b).mpr hz⟩
    · rw [hs, List.append_assoc, List.take_left]
    · rw [hs, ← List.length_append, List.drop_left]

theorem strSplit_marker_unique (s a b a' b' : Str)
    (h : strSplit s sha256Marker = [a, b]) (h' : s = a' ++ sha256Marker ++ b')
    (hocc : occurrences sha256Marker s = 1) : a' = a ∧ b' = b := by
  have h2 := (strSplit_marker_pair s a' b').mpr ⟨h', hocc⟩
  rw [h] at h2
  simp only [List.cons.injEq, and_true] at h2
  exact ⟨h2.1.symm, h2.2.symm⟩

theorem buildSubject_ok_iff (component : ConformaComponent) (subjectOverride : Str)
    (subject : VSASubject) :
    buildSubject component subjectOverride = .ok subject ↔
      ∃ n d, strSplit (if subjectOverride ≠ [] then subjectOverride
          else component.ContainerImage) sha256Marker = [n, d] ∧ d ≠ [] ∧
        subject = { Name := n, Digest := [(sha256Key, d)] } := by
  unfold buildSubject
  dsimp only
  generalize (if subjectOverride ≠ [] then subjectOverride
    else component.ContainerImage) = imageRef
  constructor
  · intro h
    split at h
    · rename_i name digest heq
      by_cases hd : digest = []
      · rw [if_pos hd] at h; cases h
      · rw [if_neg hd] at h
        injection h with h
        exact ⟨name, digest, heq, hd, h.symm⟩
    · cases h
  · rintro ⟨n, d, hs, hd, rfl⟩
    rw [hs]
    dsimp only
    rw [if_neg hd]

/-! ## Verified levels and verification result -/

/-- C1: for a report with overall `Success = true` whose components all have
`Success = true` and no violations, a successful `convertToVSA` produces
`verifiedLevels = ["SLSA_BUILD_LEVEL_3"]` and `verificationResult = "PASSED"`. -/
theorem convertToVSA_clean_report (loadPolicyMetadata : MetadataLoader) (input : ConformaInput)
    (config : ConversionConfig) (vsa : VSAStatement)
    (hsuccess : input.Success = true)
    (hclean : ∀ c ∈ input.Components, c.Success = true ∧ c.Violations = [])
    (h : convertToVSA loadPolicyMetadata input config = .ok vsa) :
    vsa.Predicate.VerifiedLevels = ["SLSA_BUILD_LEVEL_3".toList] ∧
      vsa.Predicate.VerificationResult = "PASSED".toList := by
  obtain ⟨timeVerified, first, rest, policy, -, -, -, rfl⟩ :=
    convertToVSA_ok_inv loadPolicyMetadata input config vsa h
  have hscan := (scanViolations_eq_false_iff input.Components).mpr hclean
  constructor
  · show determineVerifiedLevels input = _
    simp [determineVerifiedLevels, hsuccess, hscan]
  · show (if !input.Success then "FAILED".toList else "PASSED".toList) = _
    simp [hsuccess]

/-- The test report is clean, converts, and gets level 3 and `PASSED`. -/
theorem convertToVSA_clean_report_witness :
    convertToVSA noMetadata testInput testConfig = .ok testVSA ∧
      testVSA.Predicate.VerifiedLevels = ["SLSA_BUILD_LEVEL_3".toList] ∧
      testVSA.Predicate.VerificationResult = "PASSED".toList :=
  ⟨by decide,
    convertToVSA_clean_report noMetadata testInput testConfig testVSA (by decide) (by decide)
      (by decide)⟩

/-- C2: when the overall `Success` is false, or a component has `Success = false`,
or a component has a violation, `determineVerifiedLevels` returns the empty list;
and for no report does it return `SLSA_BUILD_LEVEL_2`. -/
theorem determineVerifiedLevels_empty (input : ConformaInput) :
    ((input.Success = false ∨ (∃ c ∈ input.Components, c.Success = false) ∨
        (∃ c ∈ input.Components, c.Violations ≠ [])) →
      determineVerifiedLevels input = []) ∧
    "SLSA_BUILD_LEVEL_2".toList ∉ determineVerifiedLevels input := by
  constructor
  · intro h
    unfold determineVerifiedLevels
    cases hs : input.Success with
    | false => simp
    | true =>
      have hscan : scanViolations input.Components = true := by
        cases hsc : scanViolations input.Components with
        | true => rfl
        | false =>
          exfalso
          have hall := (scanViolations_eq_false_iff input.Components).mp hsc
          rcases h with h | ⟨c, hc, hcs⟩ | ⟨c, hc, hcv⟩
          · rw [hs] at h; cases h
          · rw [(hall c hc).1] at hcs; cases hcs
          · exact hcv (hall c hc).2
      simp [hscan]
  · unfold determineVerifiedLevels
    cases input.Success <;> cases scanViolations input.Components <;> simp

/-- A report with overall success and one failed component with a violation gets
no level. -/
theorem determineVerifiedLevels_empty_witness :
    violationInput.Success = true ∧
      (∃ c ∈ violationInput.Components, c.Success = false) ∧
      determineVerifiedLevels violationInput = [] :=
  ⟨rfl, by decide, (determineVerifiedLevels_empty violationInput).1 (Or.inr (Or.inl (by decide)))⟩

/-- C3: on success of `convertToVSA`, `verificationResult` is `PASSED` when the
report's overall `Success` is true and `FAILED` otherwise: one of these two
values, the same for any two converted reports with the same overall `Success`,
whatever their components. -/
theorem convertToVSA_verificationResult (loadPolicyMetadata : MetadataLoader)
    (input : ConformaInput) (config : ConversionConfig) (vsa : VSAStatement)
    (h : convertToVSA loadPolicyMetadata input config = .ok vsa) :
    vsa.Predicate.VerificationResult
        = (if input.Success = true then "PASSED".toList else "FAILED".toList) ∧
      (vsa.Predicate.VerificationResult = "PASSED".toList ∨
        vsa.Predicate.VerificationResult = "FAILED".toList) ∧
      ∀ (load2 : MetadataLoader) (input2 : ConformaInput) (config2 : ConversionConfig)
        (vsa2 : VSAStatement), convertToVSA load2 input2 config2 = .ok vsa2 →
        input2.Success = input.Success →
        vsa2.Predicate.VerificationResult = vsa.Predicate.VerificationResult := by
  obtain ⟨timeVerified, first, rest, policy, -, -, -, rfl⟩ :=
    convertToVSA_ok_inv loadPolicyMetadata input config vsa h
  refine ⟨?_, ?_, ?_⟩
  · show (if !input.Success then "FAILED".toList else "PASSED".toList) = _
    cases input.Success <;> simp
  · show (if !input.Success then "FAILED".toList else "PASSED".toList) = _ ∨
      (if !input.Success then "FAILED".toList else "PASSED".toList) = _
    cases input.Success <;> simp
  · intro load2 input2 config2 vsa2 h2 hs
    obtain ⟨tv2, first2, rest2, policy2, -, -, -, rfl⟩ :=
      convertToVSA_ok_inv load2 input2 config2 vsa2 h2
    show (if !input2.Success then "FAILED".toList else "PASSED".toList)
      = (if !input.Success then "FAILED".toList else "PASSED".toList)
    rw [hs]

/-- A failed report with a clean component converts with `FAILED`. -/
theorem convertToVSA_verificationResult_witness :
    convertToVSA noMetadata failedInput testConfig = .ok failedVSA ∧
      failedVSA.Predicate.VerificationResult = "FAILED".toList :=
  ⟨by decide,
    (convertToVSA_verificationResult noMetadata failedInput testConfig failedVSA (by decide)).1⟩

/-! ## Subjects and the resource URI -/

theorem sha256Key_lookup (d : Str) : StrMap.get? [(sha256Key, d)] sha256Key = some d := by
  simp [StrMap.get?, List.lookup]

/-- C4: with an empty override `buildSubject` succeeds exactly when the
component's `containerImage` is `n ++ "@sha256:" ++ d` with `d` non-empty and the
marker occurring exactly once, and then returns `name = n` and the digest map with
the single entry `sha256 -> d`, from which the reference is rebuilt; it fails for
`quay.io/test/app:latest` and for `quay.io/test/app@sha256:`. -/
theorem buildSubject_no_override (component : ConformaComponent) :
    (∀ subject, buildSubject component [] = .ok subject ↔
      ∃ n d, component.ContainerImage = n ++ sha256Marker ++ d ∧ d ≠ [] ∧
        occurrences sha256Marker component.ContainerImage = 1 ∧
        subject = { Name := n, Digest := [(sha256Key, d)] }) ∧
    (∀ subject, buildSubject component [] = .ok subject →
      ∃ d, subject.Digest = [(sha256Key, d)] ∧ subject.Digest.get? sha256Key = some d ∧
        subject.Name ++ "@sha256:".toList ++ d = component.ContainerImage) ∧
    (component.ContainerImage = "quay.io/test/app:latest".toList →
      ∃ e, buildSubject component [] = .error e) ∧
    (component.ContainerImage = "quay.io/test/app@sha256:".toList →
      ∃ e, buildSubject component [] = .error e) := by
  have key : ∀ subject, buildSubject component [] = .ok subject ↔
      ∃ n d, component.ContainerImage = n ++ sha256Marker ++ d ∧ d ≠ [] ∧
        occurrences sha256Marker component.ContainerImage = 1 ∧
        subject = { Name := n, Digest := [(sha256Key, d)] } := by
    intro subject
    rw [buildSubject_ok_iff]
    simp only [ne_eq, not_true_eq_false, if_false]
    constructor
    · rintro ⟨n, d, hs, hd, hsub⟩
      obtain ⟨h1, h2⟩ := (strSplit_marker_pair _ n d).mp hs
      exact ⟨n, d, h1, hd, h2, hsub⟩
    · rintro ⟨n, d, h1, hd, h2, hsub⟩
      exact ⟨n, d, (strSplit_marker_pair _ n d).mpr ⟨h1, h2⟩, hd, hsub⟩
  refine ⟨key, ?_, ?_, ?_⟩
  · intro subject h
    obtain ⟨n, d, h1, -, -, rfl⟩ := (key subject).mp h
    exact ⟨d, rfl, sha256Key_lookup d, h1.symm⟩
  · intro h
    cases hb : buildSubject component [] with
    | error e => exact ⟨e, rfl⟩
    | ok subject =>
      exfalso
      obtain ⟨n, d, -, -, h2, -⟩ := (key subject).mp hb
      rw [h] at h2
      have hev : occurrences sha256Marker "quay.io/test/app:latest".toList = 0 := by decide
      omega
  · intro h
    cases hb : buildSubject component [] with
    | error e => exact ⟨e, rfl⟩
    | ok subject =>
      exfalso
      obtain ⟨n, d, hs, hd, -⟩ := (buildSubject_ok_iff component [] subject).mp hb
      simp only [ne_eq, not_true_eq_false, if_false] at hs
      rw [h] at hs
      have hev : strSplit "quay.io/test/app@sha256:".toList sha256Marker
          = ["quay.io/test/app".toList, []] := by decide
      rw [hev] at hs
      simp only [List.cons.injEq, and_true] at hs
      exact hd hs.2.symm

/-- The image of the test suite is split into its name and its digest. -/
theorem buildSubject_no_override_witness :
    buildSubject testComponent []
      = .ok { Name := "quay.io/test/app".toList,
              Digest :=
                [(sha256Key,
                  "a1b2c3d4e5f6789012345678901234567890abcdef1234567890abcdef123456".toList)] } :=
  ((buildSubject_no_override testComponent).1 _).mpr
    ⟨"quay.io/test/app".toList,
      "a1b2c3d4e5f6789012345678901234567890abcdef1234567890abcdef123456".toList,
      by decide, by decide, by decide, rfl⟩

/-- C5: a non-empty subject override replaces the component's reference before
splitting: `buildSubject c o` is `buildSubject` of `c` with `containerImage := o`
and no override, and does not depend on `c.containerImage`. -/
theorem buildSubject_override (component : ConformaComponent) (subjectOverride : Str)
    (h : subjectOverride ≠ []) :
    buildSubject component subjectOverride
        = buildSubject { component with ContainerImage := subjectOverride } [] ∧
      ∀ image : Str,
        buildSubject { component with ContainerImage := image } subjectOverride
          = buildSubject component subjectOverride := by
  constructor
  · unfold buildSubject
    simp only [ne_eq, h, not_false_eq_true, if_true, not_true_eq_false, if_false]
  · intro image
    unfold buildSubject
    simp only [ne_eq, h, not_false_eq_true, if_true]

/-- The override case of the test suite: the override's name and digest are
returned, not those of the component. -/
theorem buildSubject_override_witness :
    buildSubject { testComponent with ContainerImage := "quay.io/test/app@sha256:old".toList }
        "quay.io/override/app@sha256:new123".toList
      = buildSubject
          { testComponent with ContainerImage := "quay.io/override/app@sha256:new123".toList } [] ∧
    buildSubject { testComponent with ContainerImage := "quay.io/test/app@sha256:old".toList }
        "quay.io/override/app@sha256:new123".toList
      = .ok { Name := "quay.io/override/app".toList, Digest := [(sha256Key, "new123".toList)] } :=
  ⟨(buildSubject_override _ "quay.io/override/app@sha256:new123".toList (by decide)).1, by rfl⟩

/-- The subject loop succeeds with one subject per component, each the result of
`buildSubject` on the component at the same position. -/
theorem buildSubjects_ok_iff (subjectOverride : Str) :
    ∀ (components : List ConformaComponent) (subjects : List VSASubject),
      buildSubjects subjectOverride components = .ok subjects ↔
        List.Forall₂ (fun c s => buildSubject c subjectOverride = .ok s) components subjects := by
  intro components
  induction components with
  | nil =>
    intro subjects
    constructor
    · intro h
      simp only [buildSubjects, Except.ok.injEq] at h
      subst h
      exact List.Forall₂.nil
    · intro h
      cases h
      rfl
  | cons c cs ih =>
    intro subjects
    constructor
    · intro h
      unfold buildSubjects at h
      cases hb : buildSubject c subjectOverride with
      | error e => simp [hb] at h
      | ok s =>
        cases hr : buildSubjects subjectOverride cs with
        | error e => simp [hb, hr] at h
        | ok ss =>
          simp only [hb, hr, Except.ok.injEq] at h
          subst h
          exact List.Forall₂.cons hb ((ih ss).mp hr)
    · intro h
      cases h with
      | cons h1 h2 =>
        unfold buildSubjects
        simp only [h1, (ih _).mpr h2]

theorem strContains_singleton (c : Char) (s : Str) : strContains s [c] = true ↔ c ∈ s := by
  unfold strContains
  induction s with
  | nil => simp [strIndex, List.isPrefixOf]
  | cons x rest ih =>
    by_cases hx : c = x
    · subst hx
      simp [strIndex, List.isPrefixOf]
    · simp only [strIndex, List.isPrefixOf, List.mem_cons, hx, false_or]
      simp only [Option.isSome_map'] at ih ⊢
      simpa [hx] using ih

/-- C6 as the code has it: on success of `convertToVSA` the first subject carries
the single digest entry `sha256 -> d`, and `resourceUri` is the first subject's
`name ++ "@sha256:" ++ d` when the name holds no `@`, and the name alone when it
holds one; the other components play no part. -/
theorem convertToVSA_resourceURI (loadPolicyMetadata : MetadataLoader) (input : ConformaInput)
    (config : ConversionConfig) (vsa : VSAStatement)
    (h : convertToVSA loadPolicyMetadata input config = .ok vsa) :
    ∃ first rest d, vsa.Subject = first :: rest ∧ first.Digest = [(sha256Key, d)] ∧
      vsa.Predicate.ResourceURI
        = (if '@' ∈ first.Name then first.Name else first.Name ++ "@sha256:".toList ++ d) := by
  obtain ⟨timeVerified, first, rest, policy, -, hsub, -, rfl⟩ :=
    convertToVSA_ok_inv loadPolicyMetadata input config vsa h
  have hf := (buildSubjects_ok_iff _ _ _).mp hsub
  obtain ⟨c, cs, h1, -, -⟩ := List.forall₂_cons_right_iff.mp hf
  obtain ⟨n, d, -, -, rfl⟩ := (buildSubject_ok_iff _ _ _).mp h1
  refine ⟨_, rest, d, rfl, rfl, ?_⟩
  show buildResourceURI _ = _
  unfold buildResourceURI
  by_cases hat : '@' ∈ n
  · have hc : strContains n "@".toList = true := (strContains_singleton '@' n).mpr hat
    simp only [hc, if_true, hat]
  · have hc : ¬ strContains n "@".toList = true :=
      fun e => hat ((strContains_singleton '@' n).mp e)
    simp only [hc, if_false, hat, sha256Key_lookup, Bool.false_eq_true]

/-- The test report has a name without `@`: the resource URI is the full reference. -/
theorem convertToVSA_resourceURI_witness :
    convertToVSA noMetadata testInput testConfig = .ok testVSA ∧
      ∃ first rest d, testVSA.Subject = first :: rest ∧ first.Digest = [(sha256Key, d)] ∧
        testVSA.Predicate.ResourceURI
          = (if '@' ∈ first.Name then first.Name else first.Name ++ "@sha256:".toList ++ d) :=
  ⟨by decide, convertToVSA_resourceURI noMetadata testInput testConfig testVSA (by decide)⟩

/-- C6 as stated fails: for an image whose name holds an `@`, the conversion
succeeds and `resourceUri` is the bare name, not `name@sha256:digest`. -/
theorem convertToVSA_resourceURI_counterexample :
    convertToVSA noMetadata atNameInput testConfig = .ok atNameVSA ∧
      atNameVSA.Subject.head? = some atNameSubject ∧
      atNameSubject.Digest.get? sha256Key = some "abc123".toList ∧
      atNameVSA.Predicate.ResourceURI
        ≠ atNameSubject.Name ++ "@sha256:".toList ++ "abc123".toList := by
  decide

/-! ## Policy resolution -/

/-- Without a metadata file `buildPolicy` is the resolution of steps 1 to 3. -/
theorem buildPolicy_no_metadata (loadPolicyMetadata : MetadataLoader) (policy : ConformaPolicy)
    (config : ConversionConfig) (hfile : config.PolicyMetadataFile = []) :
    buildPolicy loadPolicyMetadata policy config = resolvePolicy policy config := by
  unfold buildPolicy
  cases resolvePolicy policy config with
  | error e => rfl
  | ok vsaPolicy => simp [hfile]

/-- The metadata step never turns a resolved policy into an error, nor an error
into a policy. -/
theorem buildPolicy_error_iff_resolve (loadPolicyMetadata : MetadataLoader)
    (policy : ConformaPolicy) (config : ConversionConfig) (e : Str) :
    buildPolicy loadPolicyMetadata policy config = .error e
      ↔ resolvePolicy policy config = .error e := by
  unfold buildPolicy
  cases resolvePolicy policy config with
  | error e' => simp
  | ok vsaPolicy =>
    by_cases hf : config.PolicyMetadataFile = []
    · simp [hf]
    · cases hl : loadPolicyMetadata config.PolicyMetadataFile <;> simp [hf]

/-- A marker that occurs exactly once splits the string in two. -/
theorem strSplit_of_occurrences_one (p : Str) (h : occurrences sha256Marker p = 1) :
    ∃ a d, strSplit p sha256Marker = [a, d] ∧ p = a ++ sha256Marker ++ d := by
  cases hi : strIndex p sha256Marker with
  | none =>
    have := (strIndex_none sha256Marker p).mp hi
    omega
  | some m =>
    obtain ⟨h1, -, -⟩ := strIndex_some sha256Marker p m hi
    exact ⟨_, _, (strSplit_marker_pair p _ _).mpr ⟨h1, h⟩, h1⟩

/-- C7: with a non-empty configured `PolicyURI` and no policy-metadata file,
`buildPolicy` succeeds with `uri = config.PolicyURI` whatever the report's policy
holds, and the digest comes from `config.PolicyDigest` alone: unset when that is
empty, else the single `sha256` entry of the normalised configured digest. -/
theorem buildPolicy_config_uri (loadPolicyMetadata : MetadataLoader) (policy : ConformaPolicy)
    (config : ConversionConfig) (huri : config.PolicyURI ≠ [])
    (hfile : config.PolicyMetadataFile = []) :
    buildPolicy loadPolicyMetadata policy config
      = .ok { URI := config.PolicyURI,
              Digest := if config.PolicyDigest = [] then []
                        else [(sha256Key, normalizeDigest config.PolicyDigest)] } := by
  rw [buildPolicy_no_metadata _ _ _ hfile]
  unfold resolvePolicy
  by_cases hd : config.PolicyDigest = [] <;> simp [huri, hd]

/-- A configured URI without digest wins over a report policy that embeds a
digest: the configured URI is returned and the digest is unset. -/
theorem buildPolicy_config_uri_witness :
    buildPolicy noMetadata ociPolicy { PolicyURI := "oci://config.example.com/policy".toList }
      = .ok { URI := "oci://config.example.com/policy".toList, Digest := [] } :=
  buildPolicy_config_uri noMetadata ociPolicy
    { PolicyURI := "oci://config.example.com/policy".toList } (by decide) rfl

/-- C8 as the code has it: with no configured `PolicyURI` and no metadata file,
for a report whose first policy source starts with the string `p`, `buildPolicy`
returns `uri = p`; when the marker `@sha256:` occurs exactly once in `p`, the
digest map is the single entry `sha256 -> d` for the text `d` after the marker;
when it occurs not at all or more than once, the digest is unset. -/
theorem buildPolicy_report_policy (loadPolicyMetadata : MetadataLoader) (policy : ConformaPolicy)
    (config : ConversionConfig) (source : ConformaPolicySource)
    (sources : List ConformaPolicySource) (p : Str) (ps : List Str)
    (huri : config.PolicyURI = []) (hfile : config.PolicyMetadataFile = [])
    (hsources : policy.Sources = source :: sources) (hpolicy : source.Policy = p :: ps) :
    ∃ vsaPolicy, buildPolicy loadPolicyMetadata policy config = .ok vsaPolicy ∧
      vsaPolicy.URI = p ∧
      (occurrences sha256Marker p = 1 →
        ∃ a d, p = a ++ "@sha256:".toList ++ d ∧ vsaPolicy.Digest = [(sha256Key, d)] ∧
          ∀ a2 d2, p = a2 ++ "@sha256:".toList ++ d2 → d2 = d) ∧
      (occurrences sha256Marker p ≠ 1 → vsaPolicy.Digest = []) := by
  rw [buildPolicy_no_metadata _ _ _ hfile]
  unfold resolvePolicy
  simp only [huri, ne_eq, not_true_eq_false, if_false, hsources, hpolicy]
  refine ⟨_, rfl, rfl, ?_, ?_⟩
  · intro hocc
    obtain ⟨a, d, hs, hp⟩ := strSplit_of_occurrences_one p hocc
    have hc : strContains p sha256Marker = true := by
      unfold strContains
      cases hi : strIndex p sha256Marker with
      | none =>
        have := (strIndex_none sha256Marker p).mp hi
        omega
      | some m => rfl
    refine ⟨a, d, hp, ?_, ?_⟩
    · simp only [hc, if_true, hs]
    · intro a2 d2 h2
      exact (strSplit_marker_unique p a d a2 d2 hs h2 hocc).2
  · intro hocc
    by_cases hc : strContains p sha256Marker = true
    · simp only [hc, if_true]
      split
      · rename_i a d hs
        exact absurd ((strSplit_marker_pair p a d).mp hs).2 hocc
      · rfl
    · simp only [hc, if_false]; rfl

/-- The OCI policy of the test suite: `uri` is the full string and the digest is
what follows the marker. -/
theorem buildPolicy_report_policy_witness :
    ∃ vsaPolicy, buildPolicy noMetadata ociPolicy {} = .ok vsaPolicy ∧
      vsaPolicy.URI = "oci://registry.example.com/p@sha256:abc123".toList ∧
      (occurrences sha256Marker "oci://registry.example.com/p@sha256:abc123".toList = 1 →
        ∃ a d, "oci://registry.example.com/p@sha256:abc123".toList = a ++ "@sha256:".toList ++ d ∧
          vsaPolicy.Digest = [(sha256Key, d)] ∧
          ∀ a2 d2, "oci://registry.example.com/p@sha256:abc123".toList
            = a2 ++ "@sha256:".toList ++ d2 → d2 = d) ∧
      (occurrences sha256Marker "oci://registry.example.com/p@sha256:abc123".toList ≠ 1 →
        vsaPolicy.Digest = []) :=
  buildPolicy_report_policy noMetadata ociPolicy {} _ _ _ _ rfl rfl rfl rfl

/-- C8 as stated fails: a first policy string that embeds the marker twice is
returned as `uri` with no digest entry at all. -/
theorem buildPolicy_report_policy_counterexample :
    strContains "oci://registry.example.com/p@sha256:abc123@sha256:def456".toList sha256Marker
        = true ∧
      buildPolicy noMetadata twoMarkerPolicy {}
        = .ok { URI := "oci://registry.example.com/p@sha256:abc123@sha256:def456".toList,
                Digest := [] } ∧
      ∀ vsaPolicy, buildPolicy noMetadata twoMarkerPolicy {} = .ok vsaPolicy →
        vsaPolicy.Digest.get? sha256Key = none :=
  ⟨by decide, rfl, fun vsaPolicy h => by
    have h2 : buildPolicy noMetadata twoMarkerPolicy {}
        = .ok { URI := "oci://registry.example.com/p@sha256:abc123@sha256:def456".toList,
                Digest := [] } := rfl
    rw [h2] at h
    injection h with h
    subst h
    rfl⟩

/-- C9: `buildPolicy` fails exactly when `config.PolicyURI` is empty and the
report has no policy source or its first policy source has an empty policy list,
and the error is then the policy-required one; `config.PolicyDigest`, later
policy sources and the policy-metadata file play no part. -/
theorem buildPolicy_error_iff (loadPolicyMetadata : MetadataLoader) (policy : ConformaPolicy)
    (config : ConversionConfig) :
    ((∃ e, buildPolicy loadPolicyMetadata policy config = .error e) ↔
      (config.PolicyURI = [] ∧
        (policy.Sources = [] ∨
          ∃ source sources, policy.Sources = source :: sources ∧ source.Policy = []))) ∧
    (∀ e, buildPolicy loadPolicyMetadata policy config = .error e →
      e = "policy source is required".toList) ∧
    (buildPolicy loadPolicyMetadata policy config = .error "policy source is required".toList ↔
      (config.PolicyURI = [] ∧
        (policy.Sources = [] ∨
          ∃ source sources, policy.Sources = source :: sources ∧ source.Policy = []))) := by
  have key : ∀ e, buildPolicy loadPolicyMetadata policy config = .error e ↔
      (e = "policy source is required".toList ∧ config.PolicyURI = [] ∧
        (policy.Sources = [] ∨
          ∃ source sources, policy.Sources = source :: sources ∧ source.Policy = [])) := by
    intro e
    rw [buildPolicy_error_iff_resolve]
    unfold resolvePolicy
    by_cases hu : config.PolicyURI = []
    · simp only [hu, ne_eq, not_true_eq_false, if_false, true_and]
      cases hs : policy.Sources with
      | nil =>
        simp only [Except.error.injEq, true_or, and_true]
        exact eq_comm
      | cons source sources =>
        cases hp : source.Policy with
        | nil =>
          simp only [hp, Except.error.injEq]
          constructor
          · intro h
            exact ⟨h.symm, Or.inr ⟨source, sources, rfl, hp⟩⟩
          · intro h
            exact h.1.symm
        | cons p ps =>
          simp only [hp]
          constructor
          · intro h
            cases h
          · rintro ⟨-, h | ⟨s2, ss2, h2, h3⟩⟩
            · cases h
            · injection h2 with h4 h5
              subst h4
              rw [hp] at h3
              cases h3
    · simp [hu]
  refine ⟨?_, ?_, ?_⟩
  · constructor
    · rintro ⟨e, he⟩
      exact ((key e).mp he).2
    · intro h
      exact ⟨_, (key _).mpr ⟨rfl, h⟩⟩
  · intro e he
    exact ((key e).mp he).1
  · rw [key]
    simp

/-- No policy sources and no configured URI: the policy-required error, also
with a digest and a metadata file configured. -/
theorem buildPolicy_error_iff_witness :
    buildPolicy noMetadata { Sources := [] }
        { PolicyDigest := "sha256:abc".toList, PolicyMetadataFile := "meta.json".toList }
      = .error "policy source is required".toList :=
  (buildPolicy_error_iff noMetadata { Sources := [] }
    { PolicyDigest := "sha256:abc".toList, PolicyMetadataFile := "meta.json".toList }).2.2.mpr
    ⟨rfl, Or.inl rfl⟩

/-- C10 fails on the code: a report whose first policy string is empty, with no
configured URI, makes `buildPolicy` succeed with an empty `uri`, and
`convertToVSA` returns a statement whose policy has no reference. -/
theorem buildPolicy_empty_uri :
    buildPolicy noMetadata emptyStringPolicy {} = .ok { URI := [], Digest := [] } ∧
      convertToVSA noMetadata { testInput with Policy := emptyStringPolicy } testConfig
        = .ok { testVSA with
                Predicate := { testVSA.Predicate with Policy := { URI := [], Digest := [] } } } :=
  ⟨rfl, by decide⟩

/-! ## Policy metadata -/

/-- The digest normalisation removes one leading `sha256:` and leaves any other
digest as it is. -/
theorem normalizeDigest_spec (digest : Str) :
    (∀ x, digest = "sha256:".toList ++ x → normalizeDigest digest = x) ∧
      (¬ "sha256:".toList <+: digest → normalizeDigest digest = digest) := by
  constructor
  · intro x hx
    subst hx
    have hp : strHasPrefix ("sha256:".toList ++ x) sha256Prefix = true := by
      unfold strHasPrefix
      exact List.isPrefixOf_iff_prefix.mpr (List.prefix_append _ _)
    unfold normalizeDigest strTrimPrefix
    simp only [hp, if_true]
    exact List.drop_left _ _
  · intro hx
    have hp : ¬ strHasPrefix digest sha256Prefix = true := by
      unfold strHasPrefix
      intro h
      exact hx (List.isPrefixOf_iff_prefix.mp h)
    unfold normalizeDigest
    simp only [hp, if_false, Bool.false_eq_true]

/-- C11: when steps 1 and 2 of `buildPolicy` give the policy `p0` and the
configured metadata file loads, the result takes the bundle's `uri` when it is
non-empty and keeps `p0.uri` otherwise, and takes the digest
`sha256 -> bundle digest without a leading "sha256:"` when the bundle digest is
non-empty and keeps `p0.digest` otherwise: each field on its own. -/
theorem buildPolicy_metadata_override (loadPolicyMetadata : MetadataLoader)
    (policy : ConformaPolicy) (config : ConversionConfig) (p0 : VSAPolicy)
    (metadata : PolicyMetadata)
    (hsteps : buildPolicy loadPolicyMetadata policy { config with PolicyMetadataFile := [] }
      = .ok p0)
    (hfile : config.PolicyMetadataFile ≠ [])
    (hload : loadPolicyMetadata config.PolicyMetadataFile = .ok metadata) :
    buildPolicy loadPolicyMetadata policy config
        = .ok { URI := if metadata.PolicyBundle.URI ≠ [] then metadata.PolicyBundle.URI
                       else p0.URI,
                Digest := if metadata.PolicyBundle.Digest ≠ [] then
                            [(sha256Key, normalizeDigest metadata.PolicyBundle.Digest)]
                          else p0.Digest } ∧
      (∀ x, metadata.PolicyBundle.Digest = "sha256:".toList ++ x →
        normalizeDigest metadata.PolicyBundle.Digest = x) ∧
      (¬ "sha256:".toList <+: metadata.PolicyBundle.Digest →
        normalizeDigest metadata.PolicyBundle.Digest = metadata.PolicyBundle.Digest) := by
  refine ⟨?_, (normalizeDigest_spec _).1, (normalizeDigest_spec _).2⟩
  rw [buildPolicy_no_metadata _ _ _ rfl] at hsteps
  have hres : resolvePolicy policy config = .ok p0 := hsteps
  unfold buildPolicy
  simp only [hres, hfile, ne_eq, not_false_eq_true, if_true, hload]
  unfold applyMetadata
  by_cases hu : metadata.PolicyBundle.URI = [] <;>
    by_cases hd : metadata.PolicyBundle.Digest = [] <;>
    simp [hu, hd]

/-- A bundle with a URI and a prefixed digest overrides both fields of the policy
resolved from the report. -/
theorem buildPolicy_metadata_override_witness :
    buildPolicy bundleMetadata ociPolicy metadataConfig
      = .ok { URI := "oci://registry.example.com/bundle".toList,
              Digest := [(sha256Key, "feed".toList)] } :=
  (buildPolicy_metadata_override bundleMetadata ociPolicy metadataConfig
    { URI := "oci://registry.example.com/p@sha256:abc123".toList,
      Digest := [(sha256Key, "abc123".toList)] }
    { PolicyBundle :=
        { URI := "oci://registry.example.com/bundle".toList, Digest := "sha256:feed".toList } }
    rfl (by decide) rfl).1

/-- C12: when the configured policy-metadata file cannot be loaded, `buildPolicy`
returns what it returns for the same inputs with `PolicyMetadataFile` empty; the
load failure is no error of `buildPolicy`. -/
theorem buildPolicy_metadata_failure (loadPolicyMetadata : MetadataLoader)
    (policy : ConformaPolicy) (config : ConversionConfig) (e : Str)
    (hload : loadPolicyMetadata config.PolicyMetadataFile = .error e) :
    buildPolicy loadPolicyMetadata policy config
      = buildPolicy loadPolicyMetadata policy { config with PolicyMetadataFile := [] } := by
  rw [buildPolicy_no_metadata _ _ { config with PolicyMetadataFile := [] } rfl]
  have hres : resolvePolicy policy { config with PolicyMetadataFile := [] }
      = resolvePolicy policy config := rfl
  rw [hres]
  unfold buildPolicy
  cases resolvePolicy policy config with
  | error e' => rfl
  | ok vsaPolicy =>
    by_cases hf : config.PolicyMetadataFile = []
    · simp [hf]
    · simp [hf, hload]

/-- With a metadata file that cannot be read the policy of the report is returned. -/
theorem buildPolicy_metadata_failure_witness :
    buildPolicy noMetadata ociPolicy metadataConfig
        = buildPolicy noMetadata ociPolicy { metadataConfig with PolicyMetadataFile := [] } ∧
      buildPolicy noMetadata ociPolicy metadataConfig
        = .ok { URI := "oci://registry.example.com/p@sha256:abc123".toList,
                Digest := [(sha256Key, "abc123".toList)] } :=
  ⟨buildPolicy_metadata_failure noMetadata ociPolicy metadataConfig
      "failed to read policy metadata file".toList rfl, rfl⟩

/-- C13 as the code has it: with a non-empty configured `PolicyURI`, a non-empty
`PolicyDigest` `g` and no metadata file, the digest map is the single entry
`sha256 -> v`, where `v` is `g` without one leading `sha256:` (`g` itself when it
has no such prefix); `v` begins with `sha256:` exactly when `g` begins with
`sha256:sha256:`. -/
theorem buildPolicy_config_digest (loadPolicyMetadata : MetadataLoader)
    (policy : ConformaPolicy) (config : ConversionConfig)
    (huri : config.PolicyURI ≠ []) (hdigest : config.PolicyDigest ≠ [])
    (hfile : config.PolicyMetadataFile = []) :
    ∃ v, buildPolicy loadPolicyMetadata policy config
        = .ok { URI := config.PolicyURI, Digest := [(sha256Key, v)] } ∧
      (∀ x, config.PolicyDigest = "sha256:".toList ++ x → v = x) ∧
      (¬ "sha256:".toList <+: config.PolicyDigest → v = config.PolicyDigest) ∧
      ("sha256:".toList <+: v ↔ "sha256:sha256:".toList <+: config.PolicyDigest) := by
  refine ⟨normalizeDigest config.PolicyDigest, ?_, (normalizeDigest_spec _).1,
    (normalizeDigest_spec _).2, ?_⟩
  · rw [buildPolicy_no_metadata _ _ _ hfile]
    unfold resolvePolicy
    simp [huri, hdigest]
  · by_cases hp : "sha256:".toList <+: config.PolicyDigest
    · obtain ⟨x, hx⟩ := hp
      rw [(normalizeDigest_spec _).1 x hx.symm, ← hx]
      have h2 : "sha256:sha256:".toList = "sha256:".toList ++ "sha256:".toList := by decide
      rw [h2, List.prefix_append_right_inj]
    · rw [(normalizeDigest_spec _).2 hp]
      constructor
      · intro h; exact absurd h hp
      · intro h
        exact absurd (List.IsPrefix.trans (by decide : "sha256:".toList <+: "sha256:sha256:".toList) h) hp

/-- A configured digest with one prefix is emitted without it. -/
theorem buildPolicy_config_digest_witness :
    ∃ v, buildPolicy noMetadata ociPolicy
          { PolicyURI := "oci://config.example.com/policy".toList,
            PolicyDigest := "sha256:abc".toList }
        = .ok { URI := "oci://config.example.com/policy".toList, Digest := [(sha256Key, v)] } ∧
      (∀ x, "sha256:abc".toList = "sha256:".toList ++ x → v = x) ∧
      (¬ "sha256:".toList <+: "sha256:abc".toList → v = "sha256:abc".toList) ∧
      ("sha256:".toList <+: v ↔ "sha256:sha256:".toList <+: "sha256:abc".toList) :=
  buildPolicy_config_digest noMetadata ociPolicy
    { PolicyURI := "oci://config.example.com/policy".toList, PolicyDigest := "sha256:abc".toList }
    (by decide) (by decide) rfl

/-- C13 as stated fails: a configured digest with the prefix twice is emitted with
one prefix left, so the `sha256` value does begin with `sha256:`. -/
theorem buildPolicy_config_digest_counterexample :
    doublePrefixConfig.PolicyURI ≠ [] ∧ doublePrefixConfig.PolicyDigest ≠ [] ∧
      doublePrefixConfig.PolicyMetadataFile = [] ∧
      buildPolicy noMetadata ociPolicy doublePrefixConfig
        = .ok { URI := "oci://config.example.com/policy".toList,
                Digest := [(sha256Key, "sha256:abc".toList)] } ∧
      strHasPrefix "sha256:abc".toList "sha256:".toList = true :=
  ⟨by decide, by decide, rfl, rfl, by decide⟩

/-! ## Input validation -/

theorem strIndex_cons (c : Char) (rest sub : Str) :
    strIndex (c :: rest) sub
      = if sub.isPrefixOf (c :: rest) then some 0
        else (strIndex rest sub).map (fun i => i + 1) := by
  rw [strIndex]

theorem strIndex_isSome_iff_substring (sub : Str) :
    ∀ s : Str, (strIndex s sub).isSome = true ↔ sub <:+: s := by
  intro s
  induction s with
  | nil =>
    cases sub with
    | nil => simp [strIndex]
    | cons a l => simp [strIndex, List.isPrefixOf]
  | cons c rest ih =>
    rw [List.infix_cons_iff, ← ih, strIndex_cons]
    by_cases hp : sub.isPrefixOf (c :: rest) = true
    · rw [if_pos hp]
      simp only [Option.isSome_some, true_iff]
      exact Or.inl (List.isPrefixOf_iff_prefix.mp hp)
    · have hp2 : ¬ sub <+: c :: rest := fun h => hp (List.isPrefixOf_iff_prefix.mpr h)
      rw [if_neg hp]
      simp only [Option.isSome_map', hp2, false_or]

/-- Go `strings.Contains` decides the substring relation. -/
theorem strContains_iff_substring (s sub : Str) : strContains s sub = true ↔ sub <:+: s :=
  strIndex_isSome_iff_substring sub s

theorem validateComponents_cons (i : Nat) (c : ConformaComponent)
    (rest : List ConformaComponent) :
    validateComponents i (c :: rest) =
      if c.Name = [] then
        .error ("component[".toList ++ formatIndex i ++ "]: name is required".toList)
      else if c.ContainerImage = [] then
        .error ("component[".toList ++ formatIndex i ++ "]: containerImage is required".toList)
      else if !strContains c.ContainerImage sha256Marker then
        .error ("component[".toList ++ formatIndex i
          ++ "]: containerImage must include sha256 digest".toList)
      else validateComponents (i + 1) rest := by
  rw [validateComponents]
  rfl

/-- The component loop succeeds when every component passes the three checks. -/
theorem validateComponents_ok_iff :
    ∀ (components : List ConformaComponent) (i : Nat),
      validateComponents i components = .ok () ↔
        ∀ c ∈ components, c.Name ≠ [] ∧ c.ContainerImage ≠ [] ∧
          strContains c.ContainerImage sha256Marker = true := by
  intro components
  induction components with
  | nil =>
    intro i
    simp [validateComponents]
  | cons c cs ih =>
    intro i
    rw [validateComponents_cons, List.forall_mem_cons]
    by_cases hn : c.Name = []
    · rw [if_pos hn]
      constructor
      · intro h; cases h
      · intro h; exact absurd hn h.1.1
    · rw [if_neg hn]
      by_cases hi : c.ContainerImage = []
      · rw [if_pos hi]
        constructor
        · intro h; cases h
        · intro h; exact absurd hi h.1.2.1
      · rw [if_neg hi]
        cases hc : strContains c.ContainerImage sha256Marker with
        | false =>
          simp only [Bool.not_false, if_true]
          constructor
          · intro h; cases h
          · intro h; cases h.1.2.2
        | true =>
          simp only [Bool.not_true, Bool.false_eq_true, if_false]
          rw [ih (i + 1)]
          constructor
          · intro h; exact ⟨⟨hn, hi, trivial⟩, h⟩
          · intro h; exact h.2

/-- The loop reports the first component that fails a check, with its index and
its first failing check. -/
theorem validateComponents_first_failure :
    ∀ (pre : List ConformaComponent) (c : ConformaComponent) (post : List ConformaComponent)
      (i : Nat),
      (∀ x ∈ pre, x.Name ≠ [] ∧ x.ContainerImage ≠ [] ∧
        strContains x.ContainerImage sha256Marker = true) →
      validateComponents i (pre ++ c :: post) =
        if c.Name = [] then
          .error ("component[".toList ++ formatIndex (i + pre.length)
            ++ "]: name is required".toList)
        else if c.ContainerImage = [] then
          .error ("component[".toList ++ formatIndex (i + pre.length)
            ++ "]: containerImage is required".toList)
        else if !strContains c.ContainerImage sha256Marker then
          .error ("component[".toList ++ formatIndex (i + pre.length)
            ++ "]: containerImage must include sha256 digest".toList)
        else validateComponents (i + pre.length + 1) post := by
  intro pre
  induction pre with
  | nil =>
    intro c post i _
    rw [List.nil_append, validateComponents_cons]
    rfl
  | cons x xs ih =>
    intro c post i hpre
    have hx := hpre x (List.mem_cons_self _ _)
    have hxs : ∀ y ∈ xs, y.Name ≠ [] ∧ y.ContainerImage ≠ [] ∧
        strContains y.ContainerImage sha256Marker = true :=
      fun y hy => hpre y (List.mem_cons_of_mem _ hy)
    rw [List.cons_append, validateComponents_cons, if_neg hx.1, if_neg hx.2.1, hx.2.2]
    simp only [Bool.not_true, Bool.false_eq_true, if_false]
    rw [ih c post (i + 1) hxs]
    have e1 : i + 1 + xs.length = i + (x :: xs).length := by
      simp only [List.length_cons]; omega
    rw [e1]

/-- C14: `validateConformaInput` succeeds exactly when `effectiveTime` is
non-empty, there is a component, and every component has a non-empty name and a
non-empty `containerImage` that contains `@sha256:`; otherwise it returns an
error. -/
theorem validateConformaInput_ok_iff (input : ConformaInput) :
    (validateConformaInput input = .ok () ↔
      (input.EffectiveTime ≠ [] ∧ input.Components ≠ [] ∧
        ∀ c ∈ input.Components, c.Name ≠ [] ∧ c.ContainerImage ≠ [] ∧
          "@sha256:".toList <:+: c.ContainerImage)) ∧
    (¬ (input.EffectiveTime ≠ [] ∧ input.Components ≠ [] ∧
        ∀ c ∈ input.Components, c.Name ≠ [] ∧ c.ContainerImage ≠ [] ∧
          "@sha256:".toList <:+: c.ContainerImage) →
      ∃ e, validateConformaInput input = .error e) := by
  have key : validateConformaInput input = .ok () ↔
      (input.EffectiveTime ≠ [] ∧ input.Components ≠ [] ∧
        ∀ c ∈ input.Components, c.Name ≠ [] ∧ c.ContainerImage ≠ [] ∧
          "@sha256:".toList <:+: c.ContainerImage) := by
    unfold validateConformaInput
    by_cases ht : input.EffectiveTime = []
    · simp [ht]
    · by_cases hc : input.Components = []
      · simp [ht, hc]
      · have hlen : ¬ input.Components.length = 0 := fun h => hc (List.length_eq_zero.mp h)
        rw [if_neg ht, if_neg hlen, validateComponents_ok_iff]
        constructor
        · intro h
          exact ⟨ht, hc, fun c hcm =>
            ⟨(h c hcm).1, (h c hcm).2.1, (strContains_iff_substring _ _).mp (h c hcm).2.2⟩⟩
        · intro h c hcm
          exact ⟨(h.2.2 c hcm).1, (h.2.2 c hcm).2.1,
            (strContains_iff_substring _ _).mpr (h.2.2 c hcm).2.2⟩
  refine ⟨key, ?_⟩
  intro h
  cases hv : validateConformaInput input with
  | error e => exact ⟨e, rfl⟩
  | ok u => exact absurd (key.mp hv) h

/-- The test report passes the checks; a report without components does not. -/
theorem validateConformaInput_ok_iff_witness :
    validateConformaInput testInput = .ok () ∧
      ∃ e, validateConformaInput { testInput with Components := [] } = .error e :=
  ⟨by rfl,
    (validateConformaInput_ok_iff { testInput with Components := [] }).2
      (fun h => h.2.1 rfl)⟩

/-- C15 as the code has it: an empty `effectiveTime` is reported first, then an
empty component list; after that the components are checked one after the other,
and the error names the first component that fails a check, with its first
failing check in the order name, empty `containerImage`, missing digest marker. So
an empty name is reported when every component before it passes all three
checks. -/
theorem validateConformaInput_order (input : ConformaInput) :
    (input.EffectiveTime = [] →
      validateConformaInput input = .error "effective-time is required".toList) ∧
    (input.EffectiveTime ≠ [] → input.Components = [] →
      validateConformaInput input = .error "at least one component is required".toList) ∧
    (∀ pre c post, input.EffectiveTime ≠ [] → input.Components = pre ++ c :: post →
      (∀ x ∈ pre, x.Name ≠ [] ∧ x.ContainerImage ≠ [] ∧
        "@sha256:".toList <:+: x.ContainerImage) →
      (c.Name = [] →
        validateConformaInput input
          = .error ("component[".toList ++ formatIndex pre.length
              ++ "]: name is required".toList)) ∧
      (c.Name ≠ [] → c.ContainerImage = [] →
        validateConformaInput input
          = .error ("component[".toList ++ formatIndex pre.length
              ++ "]: containerImage is required".toList)) ∧
      (c.Name ≠ [] → c.ContainerImage ≠ [] → ¬ "@sha256:".toList <:+: c.ContainerImage →
        validateConformaInput input
          = .error ("component[".toList ++ formatIndex pre.length
              ++ "]: containerImage must include sha256 digest".toList))) := by
  refine ⟨?_, ?_, ?_⟩
  · intro ht
    unfold validateConformaInput
    simp [ht]
  · intro ht hc
    unfold validateConformaInput
    simp [ht, hc]
  · intro pre c post ht hc hpre
    have hlen : ¬ input.Components.length = 0 := by
      rw [hc]; simp
    have hpre2 : ∀ x ∈ pre, x.Name ≠ [] ∧ x.ContainerImage ≠ [] ∧
        strContains x.ContainerImage sha256Marker = true :=
      fun x hx => ⟨(hpre x hx).1, (hpre x hx).2.1, (strContains_iff_substring _ _).mpr (hpre x hx).2.2⟩
    have hv : validateConformaInput input = validateComponents 0 (pre ++ c :: post) := by
      unfold validateConformaInput
      rw [if_neg ht, if_neg hlen, hc]
    rw [hv, validateComponents_first_failure pre c post 0 hpre2, Nat.zero_add]
    refine ⟨?_, ?_, ?_⟩
    · intro hn
      rw [if_pos hn]
    · intro hn hi
      rw [if_neg hn, if_pos hi]
    · intro hn hi hm
      have hm2 : strContains c.ContainerImage sha256Marker = false := by
        cases hs : strContains c.ContainerImage sha256Marker with
        | false => rfl
        | true => exact absurd ((strContains_iff_substring _ _).mp hs) hm
      rw [if_neg hn, if_neg hi, hm2]
      rfl

/-- A report whose second component has no name and whose first two are fine up
to it reports the name of component 1. -/
theorem validateConformaInput_order_witness :
    validateConformaInput
        { testInput with Components := [testComponent, { testComponent with Name := [] }] }
      = .error "component[1]: name is required".toList :=
  ((validateConformaInput_order
      { testInput with Components := [testComponent, { testComponent with Name := [] }] }).2.2
    [testComponent] { testComponent with Name := [] } [] (by decide) rfl
    (by
      intro x hx
      rw [List.mem_singleton] at hx
      subst hx
      exact ⟨by decide, by decide, (strContains_iff_substring _ _).mp (by decide)⟩)).1 rfl

/-- C15 as stated fails: with a non-empty `effectiveTime`, a first component
without image and a second component without name, the error reported is the
image error of component 0, not a name-is-required error. -/
theorem validateConformaInput_order_counterexample :
    imageBeforeNameInput.EffectiveTime ≠ [] ∧
      (∃ c ∈ imageBeforeNameInput.Components, c.Name = []) ∧
      validateConformaInput imageBeforeNameInput
        = .error "component[0]: containerImage is required".toList := by
  refine ⟨by decide, by decide, by rfl⟩

/-! ## Output validation -/

theorem lookup_isSome_iff (key : Str) :
    ∀ m : StrMap, (StrMap.get? m key).isSome = true ↔ key ∈ m.map Prod.fst := by
  intro m
  induction m with
  | nil => simp [StrMap.get?, List.lookup]
  | cons e es ih =>
    obtain ⟨a, b⟩ := e
    unfold StrMap.get? at ih ⊢
    by_cases hk : key = a
    · subst hk
      simp [List.lookup]
    · have hb : (key == a) = false := by simpa using hk
      simp only [List.lookup, hb, List.map_cons, List.mem_cons, hk, false_or]
      exact ih

theorem validateSubjects_cons (i : Nat) (subject : VSASubject) (rest : List VSASubject) :
    validateSubjects i (subject :: rest) =
      if subject.Name = [] then
        .error ("subject[".toList ++ formatIndex i ++ "]: name is required".toList)
      else if subject.Digest.length = 0 then
        .error ("subject[".toList ++ formatIndex i ++ "]: digest is required".toList)
      else if (subject.Digest.get? sha256Key).isNone then
        .error ("subject[".toList ++ formatIndex i ++ "]: sha256 digest is required".toList)
      else validateSubjects (i + 1) rest := by
  rw [validateSubjects]

/-- The subject loop succeeds when every subject has a name and a non-empty digest
map with the key `sha256`. -/
theorem validateSubjects_ok_iff :
    ∀ (subjects : List VSASubject) (i : Nat),
      validateSubjects i subjects = .ok () ↔
        ∀ s ∈ subjects, s.Name ≠ [] ∧ s.Digest ≠ [] ∧ sha256Key ∈ s.Digest.map Prod.fst := by
  intro subjects
  induction subjects with
  | nil =>
    intro i
    simp [validateSubjects]
  | cons s ss ih =>
    intro i
    rw [validateSubjects_cons, List.forall_mem_cons]
    by_cases hn : s.Name = []
    · rw [if_pos hn]
      constructor
      · intro h; cases h
      · intro h; exact absurd hn h.1.1
    · rw [if_neg hn]
      by_cases hd : s.Digest = []
      · have hl : s.Digest.length = 0 := by rw [hd]; rfl
        rw [if_pos hl]
        constructor
        · intro h; cases h
        · intro h; exact absurd hd h.1.2.1
      · have hl : ¬ s.Digest.length = 0 := fun h => hd (List.length_eq_zero.mp h)
        rw [if_neg hl]
        cases hk : StrMap.get? s.Digest sha256Key with
        | none =>
          simp only [Option.isNone_none, if_true]
          constructor
          · intro h; cases h
          · intro h
            have := (lookup_isSome_iff sha256Key s.Digest).mpr h.1.2.2
            rw [hk] at this
            cases this
        | some v =>
          simp only [Option.isNone_some, Bool.false_eq_true, if_false]
          rw [ih (i + 1)]
          have hmem : sha256Key ∈ s.Digest.map Prod.fst :=
            (lookup_isSome_iff sha256Key s.Digest).mp (by rw [hk]; rfl)
          constructor
          · intro h; exact ⟨⟨hn, hd, hmem⟩, h⟩
          · intro h; exact h.2

theorem validResultsGet_iff (key : Str) :
    validResultsGet key = true ↔ key = "PASSED".toList ∨ key = "FAILED".toList := by
  unfold validResultsGet validResults
  by_cases h1 : key = "PASSED".toList
  · subst h1
    simp [List.lookup]
  · by_cases h2 : key = "FAILED".toList
    · subst h2
      simp only [or_true, iff_true]
      rfl
    · have b1 : (key == "PASSED".toList) = false := by simpa using h1
      have b2 : (key == "FAILED".toList) = false := by simpa using h2
      simp only [List.lookup, b1, b2, h1, h2, or_self, iff_false]
      simp

/-- C16: `validateVSAOutput` succeeds exactly when the statement type and the
predicate type are the fixed identifiers, there is a subject, every subject has a
non-empty name and a non-empty digest map with the key `sha256`, verifier id,
`timeVerified`, `resourceUri` and `policy.uri` are non-empty, and
`verificationResult` is `PASSED` or `FAILED`; a statement that breaks one of the
conditions is rejected. -/
theorem validateVSAOutput_ok_iff (vsa : VSAStatement) :
    (validateVSAOutput vsa = .ok () ↔
      (vsa.Type_ = "https://in-toto.io/Statement/v1".toList ∧
        vsa.PredicateType = "https://slsa.dev/verification_summary/v1".toList ∧
        vsa.Subject ≠ [] ∧
        (∀ s ∈ vsa.Subject, s.Name ≠ [] ∧ s.Digest ≠ [] ∧ sha256Key ∈ s.Digest.map Prod.fst) ∧
        vsa.Predicate.Verifier.ID ≠ [] ∧
        vsa.Predicate.TimeVerified ≠ [] ∧
        vsa.Predicate.ResourceURI ≠ [] ∧
        vsa.Predicate.Policy.URI ≠ [] ∧
        (vsa.Predicate.VerificationResult = "PASSED".toList ∨
          vsa.Predicate.VerificationResult = "FAILED".toList))) ∧
    (¬ (vsa.Type_ = "https://in-toto.io/Statement/v1".toList ∧
        vsa.PredicateType = "https://slsa.dev/verification_summary/v1".toList ∧
        vsa.Subject ≠ [] ∧
        (∀ s ∈ vsa.Subject, s.Name ≠ [] ∧ s.Digest ≠ [] ∧ sha256Key ∈ s.Digest.map Prod.fst) ∧
        vsa.Predicate.Verifier.ID ≠ [] ∧
        vsa.Predicate.TimeVerified ≠ [] ∧
        vsa.Predicate.ResourceURI ≠ [] ∧
        vsa.Predicate.Policy.URI ≠ [] ∧
        (vsa.Predicate.VerificationResult = "PASSED".toList ∨
          vsa.Predicate.VerificationResult = "FAILED".toList)) →
      ∃ e, validateVSAOutput vsa = .error e) := by
  have key : validateVSAOutput vsa = .ok () ↔
      (vsa.Type_ = "https://in-toto.io/Statement/v1".toList ∧
        vsa.PredicateType = "https://slsa.dev/verification_summary/v1".toList ∧
        vsa.Subject ≠ [] ∧
        (∀ s ∈ vsa.Subject, s.Name ≠ [] ∧ s.Digest ≠ [] ∧ sha256Key ∈ s.Digest.map Prod.fst) ∧
        vsa.Predicate.Verifier.ID ≠ [] ∧
        vsa.Predicate.TimeVerified ≠ [] ∧
        vsa.Predicate.ResourceURI ≠ [] ∧
        vsa.Predicate.Policy.URI ≠ [] ∧
        (vsa.Predicate.VerificationResult = "PASSED".toList ∨
          vsa.Predicate.VerificationResult = "FAILED".toList)) := by
    unfold validateVSAOutput
    by_cases h1 : vsa.Type_ = "https://in-toto.io/Statement/v1".toList
    swap
    · rw [if_pos h1]
      constructor
      · intro h; cases h
      · intro h; exact absurd h.1 h1
    rw [if_neg (not_not.mpr h1)]
    by_cases h2 : vsa.PredicateType = "https://slsa.dev/verification_summary/v1".toList
    swap
    · rw [if_pos h2]
      constructor
      · intro h; cases h
      · intro h; exact absurd h.2.1 h2
    rw [if_neg (not_not.mpr h2)]
    by_cases h3 : vsa.Subject = []
    · have hl : vsa.Subject.length = 0 := by rw [h3]; rfl
      rw [if_pos hl]
      constructor
      · intro h; cases h
      · intro h; exact absurd h3 h.2.2.1
    have hl : ¬ vsa.Subject.length = 0 := fun h => h3 (List.length_eq_zero.mp h)
    rw [if_neg hl]
    cases hs : validateSubjects 0 vsa.Subject with
    | error e =>
      constructor
      · intro h; cases h
      · intro h
        rw [(validateSubjects_ok_iff vsa.Subject 0).mpr h.2.2.2.1] at hs
        cases hs
    | ok u =>
      have hsub := (validateSubjects_ok_iff vsa.Subject 0).mp (by rw [hs])
      dsimp only
      by_cases h5 : vsa.Predicate.Verifier.ID = []
      · rw [if_pos h5]
        constructor
        · intro h; cases h
        · intro h; exact absurd h5 h.2.2.2.2.1
      rw [if_neg h5]
      by_cases h6 : vsa.Predicate.TimeVerified = []
      · rw [if_pos h6]
        constructor
        · intro h; cases h
        · intro h; exact absurd h6 h.2.2.2.2.2.1
      rw [if_neg h6]
      by_cases h7 : vsa.Predicate.ResourceURI = []
      · rw [if_pos h7]
        constructor
        · intro h; cases h
        · intro h; exact absurd h7 h.2.2.2.2.2.2.1
      rw [if_neg h7]
      by_cases h8 : vsa.Predicate.Policy.URI = []
      · rw [if_pos h8]
        constructor
        · intro h; cases h
        · intro h; exact absurd h8 h.2.2.2.2.2.2.2.1
      rw [if_neg h8]
      cases h9 : validResultsGet vsa.Predicate.VerificationResult with
      | false =>
        simp only [Bool.not_false, if_true]
        constructor
        · intro h; cases h
        · intro h
          rw [(validResultsGet_iff _).mpr h.2.2.2.2.2.2.2.2] at h9
          cases h9
      | true =>
        simp only [Bool.not_true, Bool.false_eq_true, if_false, true_iff]
        exact ⟨h1, h2, h3, hsub, h5, h6, h7, h8, (validResultsGet_iff _).mp h9⟩
  refine ⟨key, ?_⟩
  intro h
  cases hv : validateVSAOutput vsa with
  | error e => exact ⟨e, rfl⟩
  | ok u => exact absurd (key.mp hv) h

/-- The statement of the test report is accepted; with a lower-case result it is
rejected. -/
theorem validateVSAOutput_ok_iff_witness :
    validateVSAOutput testVSA = .ok () ∧
      ∃ e, validateVSAOutput
          { testVSA with
            Predicate := { testVSA.Predicate with VerificationResult := "passed".toList } }
        = .error e :=
  ⟨by rfl,
    (validateVSAOutput_ok_iff
      { testVSA with
        Predicate := { testVSA.Predicate with VerificationResult := "passed".toList } }).2
      (fun h => by
        have h9 := h.2.2.2.2.2.2.2.2
        revert h9
        decide)⟩

/-! ## The conversion as a whole -/

/-- C17 fails on the code: a report that `validateConformaInput` accepts and
`convertToVSA` converts, with a non-empty verifier id, gives a statement that
`validateVSAOutput` rejects, when the image reference has nothing before the
digest marker (the subject has no name) and when the first policy string of the
report is empty (the policy has no URI). -/
theorem convertToVSA_output_rejected :
    testConfig.VerifierID ≠ [] ∧
      validateConformaInput emptyNameInput = .ok () ∧
      convertToVSA noMetadata emptyNameInput testConfig = .ok emptyNameVSA ∧
      validateVSAOutput emptyNameVSA = .error "subject[0]: name is required".toList ∧
      validateConformaInput emptyPolicyInput = .ok () ∧
      convertToVSA noMetadata emptyPolicyInput testConfig = .ok emptyPolicyVSA ∧
      validateVSAOutput emptyPolicyVSA = .error "policy URI is required".toList :=
  ⟨by decide, by rfl, by decide, by rfl, by rfl, by decide, by rfl⟩

/-- The subject loop succeeds when `buildSubject` succeeds for every component. -/
theorem buildSubjects_ok_iff_all (subjectOverride : Str) :
    ∀ components : List ConformaComponent,
      (∃ subjects, buildSubjects subjectOverride components = .ok subjects) ↔
        ∀ c ∈ components, ∃ s, buildSubject c subjectOverride = .ok s := by
  intro components
  induction components with
  | nil =>
    constructor
    · intro _ c hc
      cases hc
    · intro _
      exact ⟨[], rfl⟩
  | cons c cs ih =>
    rw [List.forall_mem_cons, ← ih]
    constructor
    · rintro ⟨subjects, h⟩
      obtain ⟨s, ss, h1, h2, -⟩ :=
        List.forall₂_cons_left_iff.mp ((buildSubjects_ok_iff _ _ _).mp h)
      exact ⟨⟨s, h1⟩, ss, (buildSubjects_ok_iff _ _ _).mpr h2⟩
    · rintro ⟨⟨s, h1⟩, ss, h2⟩
      exact ⟨s :: ss, (buildSubjects_ok_iff _ _ _).mpr
        (List.Forall₂.cons h1 ((buildSubjects_ok_iff _ _ _).mp h2))⟩

theorem buildSubjects_length (subjectOverride : Str) (components : List ConformaComponent)
    (subjects : List VSASubject)
    (h : buildSubjects subjectOverride components = .ok subjects) :
    subjects.length = components.length :=
  ((buildSubjects_ok_iff subjectOverride components subjects).mp h).length_eq.symm

/-- With at least one component `convertToVSA` returns a statement or an error. -/
theorem convertToVSA_cases (loadPolicyMetadata : MetadataLoader) (input : ConformaInput)
    (config : ConversionConfig) (hne : input.Components ≠ []) :
    ((∃ vsa, convertToVSA loadPolicyMetadata input config = .ok vsa) ∧
        (∃ t, parseTime input.EffectiveTime = .ok t) ∧
        (∃ subjects, buildSubjects config.SubjectOverride input.Components = .ok subjects) ∧
        (∃ p, buildPolicy loadPolicyMetadata input.Policy config = .ok p)) ∨
      ((∃ e, convertToVSA loadPolicyMetadata input config = .error e) ∧
        ((∃ e, parseTime input.EffectiveTime = .error e) ∨
          (∃ e, buildSubjects config.SubjectOverride input.Components = .error e) ∨
          (∃ e, buildPolicy loadPolicyMetadata input.Policy config = .error e))) := by
  unfold convertToVSA
  cases ht : parseTime input.EffectiveTime with
  | error e => exact Or.inr ⟨⟨_, rfl⟩, Or.inl ⟨e, rfl⟩⟩
  | ok t =>
    cases hs : buildSubjects config.SubjectOverride input.Components with
    | error e => exact Or.inr ⟨⟨_, rfl⟩, Or.inr (Or.inl ⟨e, rfl⟩)⟩
    | ok subjects =>
      cases hp : buildPolicy loadPolicyMetadata input.Policy config with
      | error e => exact Or.inr ⟨⟨_, rfl⟩, Or.inr (Or.inr ⟨e, rfl⟩)⟩
      | ok p =>
        cases subjects with
        | nil =>
          have hl := buildSubjects_length _ _ _ hs
          exact absurd (List.length_eq_zero.mp hl.symm) hne
        | cons first rest =>
          exact Or.inl ⟨⟨_, rfl⟩, ⟨t, rfl⟩, ⟨_, rfl⟩, ⟨p, rfl⟩⟩

/-- C18: for a report with at least one component, `convertToVSA` returns a
statement exactly when `parseTime` accepts `effectiveTime`, `buildSubject`
succeeds for every component with the configured override, and `buildPolicy`
succeeds; otherwise it returns an error. So an unparseable `effectiveTime`, or one
malformed image reference at any position, ends the conversion with an error. -/
theorem convertToVSA_ok_iff (loadPolicyMetadata : MetadataLoader) (input : ConformaInput)
    (config : ConversionConfig) (hne : input.Components ≠ []) :
    ((∃ vsa, convertToVSA loadPolicyMetadata input config = .ok vsa) ↔
      ((∃ t, parseTime input.EffectiveTime = .ok t) ∧
        (∀ c ∈ input.Components, ∃ s, buildSubject c config.SubjectOverride = .ok s) ∧
        (∃ p, buildPolicy loadPolicyMetadata input.Policy config = .ok p))) ∧
    ((¬ ∃ vsa, convertToVSA loadPolicyMetadata input config = .ok vsa) →
      ∃ e, convertToVSA loadPolicyMetadata input config = .error e) ∧
    ((∃ e, parseTime input.EffectiveTime = .error e) →
      ∃ e, convertToVSA loadPolicyMetadata input config = .error e) ∧
    ((∃ c ∈ input.Components, ∃ e, buildSubject c config.SubjectOverride = .error e) →
      ∃ e, convertToVSA loadPolicyMetadata input config = .error e) := by
  have hcases := convertToVSA_cases loadPolicyMetadata input config hne
  have hall := buildSubjects_ok_iff_all config.SubjectOverride input.Components
  have hiff : (∃ vsa, convertToVSA loadPolicyMetadata input config = .ok vsa) ↔
      ((∃ t, parseTime input.EffectiveTime = .ok t) ∧
        (∀ c ∈ input.Components, ∃ s, buildSubject c config.SubjectOverride = .ok s) ∧
        (∃ p, buildPolicy loadPolicyMetadata input.Policy config = .ok p)) := by
    constructor
    · intro hok
      rcases hcases with ⟨-, ht, hs, hp⟩ | ⟨⟨e, he⟩, -⟩
      · exact ⟨ht, hall.mp hs, hp⟩
      · obtain ⟨vsa, hv⟩ := hok
        rw [hv] at he
        cases he
    · rintro ⟨⟨t, ht⟩, hs, ⟨p, hp⟩⟩
      obtain ⟨subjects, hs2⟩ := hall.mpr hs
      rcases hcases with ⟨hok, -⟩ | ⟨-, ⟨e, he⟩ | ⟨e, he⟩ | ⟨e, he⟩⟩
      · exact hok
      · rw [ht] at he; cases he
      · rw [hs2] at he; cases he
      · rw [hp] at he; cases he
  have herr : (¬ ∃ vsa, convertToVSA loadPolicyMetadata input config = .ok vsa) →
      ∃ e, convertToVSA loadPolicyMetadata input config = .error e := by
    intro hno
    rcases hcases with ⟨hok, -⟩ | ⟨he, -⟩
    · exact absurd hok hno
    · exact he
  refine ⟨hiff, herr, ?_, ?_⟩
  · rintro ⟨e, he⟩
    apply herr
    intro hok
    obtain ⟨⟨t, ht⟩, -⟩ := hiff.mp hok
    rw [ht] at he
    cases he
  · rintro ⟨c, hc, e, he⟩
    apply herr
    intro hok
    obtain ⟨s, hs⟩ := (hiff.mp hok).2.1 c hc
    rw [hs] at he
    cases he

/-- A second component with a tag instead of a digest ends the conversion of the
whole report with an error. -/
theorem convertToVSA_ok_iff_witness :
    badSecondImageInput.Components ≠ [] ∧
      ∃ e, convertToVSA noMetadata badSecondImageInput testConfig = .error e :=
  ⟨by decide,
    (convertToVSA_ok_iff noMetadata badSecondImageInput testConfig (by decide)).2.2.2
      ⟨{ testComponent with Name := "other".toList,
                            ContainerImage := "quay.io/test/app:latest".toList },
        by decide, _, rfl⟩⟩

/-! ## The year of a day within a 400-year era -/

set_option maxHeartbeats 4000000 in
/-- The year-of-era formula of `civilFromDays` finds the year of a day: for the
day `doy` of the year `yoe` of an era, counted from 1 March, it returns `yoe`. -/
theorem yoe_of_doe (yoe doy : Int) (h0 : 0 ≤ yoe) (h1 : yoe ≤ 399) (h2 : 0 ≤ doy)
    (h3 : doy ≤ 365)
    (h4 : doy = 365 → ((yoe + 1) % 4 = 0 ∧ ((yoe + 1) % 100 ≠ 0 ∨ (yoe + 1) % 400 = 0))) :
    ((yoe * 365 + yoe / 4 - yoe / 100 + doy) - (yoe * 365 + yoe / 4 - yoe / 100 + doy) / 1460
        + (yoe * 365 + yoe / 4 - yoe / 100 + doy) / 36524
        - (yoe * 365 + yoe / 4 - yoe / 100 + doy) / 146096) / 365 = yoe := by
  interval_cases yoe <;> omega

theorem yoe_range (doe : Int) (h0 : 0 ≤ doe) (h1 : doe ≤ 146096) :
    0 ≤ (doe - doe / 1460 + doe / 36524 - doe / 146096) / 365 ∧
    (doe - doe / 1460 + doe / 36524 - doe / 146096) / 365 ≤ 399 := by
  omega

set_option maxHeartbeats 4000000 in
/-- A day of an era lies in the year the formula finds: its day of the year is
at most 365, and 365 only before a leap year's 1 March. -/
theorem doy_of_doe (doe yoe : Int) (h0 : 0 ≤ doe) (h1 : doe ≤ 146096)
    (hy : yoe = (doe - doe / 1460 + doe / 36524 - doe / 146096) / 365) :
    0 ≤ doe - (365 * yoe + yoe / 4 - yoe / 100) ∧
    doe - (365 * yoe + yoe / 4 - yoe / 100) ≤ 365 ∧
    (doe - (365 * yoe + yoe / 4 - yoe / 100) = 365 →
      ((yoe + 1) % 4 = 0 ∧ ((yoe + 1) % 100 ≠ 0 ∨ (yoe + 1) % 400 = 0))) := by
  have hr := yoe_range doe h0 h1
  rw [← hy] at hr
  obtain ⟨hr0, hr1⟩ := hr
  interval_cases yoe <;> omega

/-! ## Calendar arithmetic -/

theorem isLeap_iff (year : Nat) :
    isLeap year = true ↔ year % 4 = 0 ∧ (year % 100 ≠ 0 ∨ year % 400 = 0) := by
  unfold isLeap
  simp

theorem daysIn_eq (month year : Nat) :
    daysIn month year =
      if month = 2 then (if year % 4 = 0 ∧ (year % 100 ≠ 0 ∨ year % 400 = 0) then 29 else 28)
      else if month = 4 ∨ month = 6 ∨ month = 9 ∨ month = 11 then 30
      else 31 := by
  unfold daysIn
  by_cases h2 : month = 2
  · simp only [h2, if_true]
    by_cases hl : isLeap year = true
    · rw [if_pos hl, if_pos ((isLeap_iff year).mp hl)]
    · rw [if_neg hl, if_neg (fun h => hl ((isLeap_iff year).mpr h))]
  · simp only [h2, if_false]
    simp [or_assoc]

theorem era_of_year (yoe era : Int) (h0 : 0 ≤ yoe) (h1 : yoe ≤ 399) :
    (yoe + era * 400) / 400 = era := by
  omega

theorem civilFromDays_spec (z : Int) :
    daysFromCivil (civilFromDays z).1 (civilFromDays z).2.1 (civilFromDays z).2.2 = z ∧
      1 ≤ (civilFromDays z).2.1 ∧ (civilFromDays z).2.1 ≤ 12 ∧
      1 ≤ (civilFromDays z).2.2 ∧ (civilFromDays z).2.2 ≤ 31 ∧
      (0 ≤ (civilFromDays z).1 →
        (civilFromDays z).2.2 ≤ daysIn (civilFromDays z).2.1 (civilFromDays z).1.toNat) := by
  unfold civilFromDays
  dsimp only
  generalize hera : (z + 719468) / 146097 = era
  generalize hdoe : z + 719468 - era * 146097 = doe
  have hdoe0 : 0 ≤ doe ∧ doe ≤ 146096 := by omega
  obtain ⟨hr0, hr1⟩ := yoe_range doe hdoe0.1 hdoe0.2
  obtain ⟨hd0, hd1, hd2⟩ := doy_of_doe doe _ hdoe0.1 hdoe0.2 rfl
  generalize hyoe : (doe - doe / 1460 + doe / 36524 - doe / 146096) / 365 = yoe at *
  generalize hdoy : doe - (365 * yoe + yoe / 4 - yoe / 100) = doy at *
  generalize hmp : (5 * doy + 2) / 153 = mp
  have hmp0 : 0 ≤ mp ∧ mp ≤ 11 := by omega
  obtain ⟨hmp1, hmp2⟩ := hmp0
  have hm : 1 ≤ (if mp < 10 then mp + 3 else mp - 9) ∧ (if mp < 10 then mp + 3 else mp - 9) ≤ 12 ∧
      ((if mp < 10 then mp + 3 else mp - 9) ≤ 2 ↔ 10 ≤ mp) ∧
      (mp < 10 → (if mp < 10 then mp + 3 else mp - 9) = mp + 3) ∧
      (10 ≤ mp → (if mp < 10 then mp + 3 else mp - 9) = mp - 9) := by
    split_ifs <;> omega
  generalize (if mp < 10 then mp + 3 else mp - 9) = m at *
  obtain ⟨hm1, hm2, hm3, hm4, hm5⟩ := hm
  have hd : 1 ≤ doy - (153 * mp + 2) / 5 + 1 ∧ doy - (153 * mp + 2) / 5 + 1 ≤ 31 := by omega
  generalize hdd : doy - (153 * mp + 2) / 5 + 1 = d at *
  obtain ⟨hdd1, hdd2⟩ := hd
  have hY : (if m ≤ 2 then yoe + era * 400 + 1 else yoe + era * 400)
      = yoe + era * 400 + (if m ≤ 2 then 1 else 0) := by
    split_ifs <;> omega
  rw [hY]
  generalize hYY : yoe + era * 400 + (if m ≤ 2 then 1 else 0) = Y at *
  have hYv : Y = yoe + era * 400 + 1 ∧ m ≤ 2 ∨ Y = yoe + era * 400 ∧ 2 < m := by
    split_ifs at hYY <;> omega
  have hmn : ((m.toNat : Nat) : Int) = m := by omega
  have hdn : ((d.toNat : Nat) : Int) = d := by omega
  refine ⟨?_, by omega, by omega, by omega, by omega, ?_⟩
  · unfold daysFromCivil
    dsimp only
    have h1 : (if m.toNat ≤ 2 then Y - 1 else Y) = yoe + era * 400 := by
      split_ifs <;> omega
    have h2 : (((m.toNat + 9) % 12 : Nat) : Int) = mp := by omega
    have h3 : yoe + era * 400 - era * 400 = yoe := by omega
    rw [h1, h2, hdn, era_of_year yoe era hr0 hr1, h3]
    clear hyoe hd2 hm3 hm4 hm5 hYv hYY hY h1 h2 hmn hdn hmp
    omega
  · intro hY0
    rw [daysIn_eq]
    split_ifs <;> omega

theorem doy_of_month_day (m d : Nat) (hm1 : 1 ≤ m) (hm2 : m ≤ 12) (hd1 : 1 ≤ d)
    (hlen : d ≤ if m = 2 then 29 else if m = 4 ∨ m = 6 ∨ m = 9 ∨ m = 11 then 30 else 31) :
    0 ≤ (153 * (((m + 9) % 12 : Nat) : Int) + 2) / 5 + (d : Int) - 1 ∧
      (153 * (((m + 9) % 12 : Nat) : Int) + 2) / 5 + (d : Int) - 1 ≤ 365 ∧
      ((153 * (((m + 9) % 12 : Nat) : Int) + 2) / 5 + (d : Int) - 1 = 365 → m = 2 ∧ d = 29) ∧
      (5 * ((153 * (((m + 9) % 12 : Nat) : Int) + 2) / 5 + (d : Int) - 1) + 2) / 153
        = (((m + 9) % 12 : Nat) : Int) := by
  interval_cases m <;> simp at hlen <;> omega

theorem civilFromDays_daysFromCivil (y m d : Nat) (hm1 : 1 ≤ m) (hm2 : m ≤ 12)
    (hd1 : 1 ≤ d) (hd2 : d ≤ daysIn m y) :
    civilFromDays (daysFromCivil y m d) = ((y : Int), m, d) := by
  rw [daysIn_eq] at hd2
  unfold daysFromCivil
  dsimp only
  have hyp : (if m ≤ 2 then (y : Int) - 1 else y) = (y : Int) - 1 ∧ m ≤ 2 ∨
      (if m ≤ 2 then (y : Int) - 1 else y) = y ∧ 2 < m := by
    split_ifs <;> omega
  generalize (if m ≤ 2 then (y : Int) - 1 else y) = yp at *
  generalize hera : yp / 400 = era
  have hyoe0 : 0 ≤ yp - era * 400 ∧ yp - era * 400 ≤ 399 := by omega
  generalize hyoe : yp - era * 400 = yoe at *
  have hmp0 : 0 ≤ (((m + 9) % 12 : Nat) : Int) ∧ (((m + 9) % 12 : Nat) : Int) ≤ 11 ∧
      (m ≤ 2 → (((m + 9) % 12 : Nat) : Int) = m + 9) ∧
      (2 < m → (((m + 9) % 12 : Nat) : Int) = m - 3) := by omega
  have hfacts := doy_of_month_day m d hm1 hm2 hd1 (by split_ifs at hd2 ⊢ <;> omega)
  generalize (((m + 9) % 12 : Nat) : Int) = mp at *
  obtain ⟨hmpa, hmpb, hmpc, hmpd⟩ := hmp0
  have hdoy0 : 0 ≤ (153 * mp + 2) / 5 + (d : Int) - 1 ∧ (153 * mp + 2) / 5 + (d : Int) - 1 ≤ 365 ∧
      ((153 * mp + 2) / 5 + (d : Int) - 1 = 365 →
        ((yoe + 1) % 4 = 0 ∧ ((yoe + 1) % 100 ≠ 0 ∨ (yoe + 1) % 400 = 0))) ∧
      (5 * ((153 * mp + 2) / 5 + (d : Int) - 1) + 2) / 153 = mp := by
    refine ⟨hfacts.1, hfacts.2.1, ?_, hfacts.2.2.2⟩
    intro h365
    obtain ⟨hm, hd⟩ := hfacts.2.2.1 h365
    subst hm
    subst hd
    simp only [if_true] at hd2
    split_ifs at hd2 <;> omega
  have hdd : (153 * mp + 2) / 5 + (d : Int) - 1 - (153 * mp + 2) / 5 + 1 = d := by omega
  generalize hdoy : (153 * mp + 2) / 5 + (d : Int) - 1 = doy at *
  obtain ⟨hdoya, hdoyb, hdoyc, hdoyd⟩ := hdoy0
  have e4 := yoe_of_doe yoe doy hyoe0.1 hyoe0.2 hdoya hdoyb hdoyc
  have hdoe0 : 0 ≤ yoe * 365 + yoe / 4 - yoe / 100 + doy ∧
      yoe * 365 + yoe / 4 - yoe / 100 + doy ≤ 146096 ∧
      yoe * 365 + yoe / 4 - yoe / 100 + doy - (365 * yoe + yoe / 4 - yoe / 100) = doy := by
    omega
  generalize hdoe : yoe * 365 + yoe / 4 - yoe / 100 + doy = doe at *
  unfold civilFromDays
  dsimp only
  have e1 : era * 146097 + doe - 719468 + 719468 = era * 146097 + doe := by omega
  have e2 : (era * 146097 + doe) / 146097 = era := by omega
  have e3 : era * 146097 + doe - era * 146097 = doe := by omega
  have e8 : (if mp < 10 then mp + 3 else mp - 9) = (m : Int) := by
    split_ifs <;> omega
  rw [e1, e2, e3, e4, hdoe0.2.2, hdoyd, hdd, e8]
  simp only [Int.toNat_ofNat, Prod.mk.injEq, and_true]
  split_ifs <;> omega

/-! ## Reading and printing digits -/

theorem digitVal_lt (c : Char) (h : isDigit c = true) : digitVal c < 10 := by
  unfold isDigit at h
  unfold digitVal
  simp only [Bool.and_eq_true, decide_eq_true_eq] at h
  omega

theorem digitChar_digitVal (c : Char) (h : isDigit c = true) : digitChar (digitVal c) = c := by
  unfold isDigit at h
  unfold digitVal digitChar
  simp only [Bool.and_eq_true, decide_eq_true_eq] at h
  have : 48 + (c.toNat - 48) = c.toNat := by omega
  rw [this]
  exact Char.ofNat_toNat c

theorem getYear_digits (y1 y2 y3 y4 : Char) (rest : Str)
    (hy : isDigit y1 = true ∧ isDigit y2 = true ∧ isDigit y3 = true ∧ isDigit y4 = true) :
    getYear (y1 :: y2 :: y3 :: y4 :: rest) = some (fourDigits y1 y2 y3 y4, rest) := by
  unfold getYear fourDigits
  simp only [hy.1, hy.2.1, hy.2.2.1, hy.2.2.2, Bool.and_self, if_true]

theorem getnum_digits (a b : Char) (rest : Str) (fixed : Bool)
    (h : isDigit a = true ∧ isDigit b = true) :
    getnum (a :: b :: rest) fixed = some (twoDigits a b, rest) := by
  unfold getnum twoDigits
  simp only [h.1, h.2, Bool.not_true, Bool.false_eq_true, if_false]

theorem skipChar_cons (c : Char) (rest : Str) : skipChar c (c :: rest) = some rest := by
  unfold skipChar
  simp only [if_true]

theorem getDateTime_digits (y1 y2 y3 y4 m1 m2 d1 d2 h1 h2 n1 n2 s1 s2 : Char) (rest : Str)
    (hy : isDigit y1 = true ∧ isDigit y2 = true ∧ isDigit y3 = true ∧ isDigit y4 = true)
    (hm : isDigit m1 = true ∧ isDigit m2 = true) (hd : isDigit d1 = true ∧ isDigit d2 = true)
    (hh : isDigit h1 = true ∧ isDigit h2 = true) (hn : isDigit n1 = true ∧ isDigit n2 = true)
    (hs : isDigit s1 = true ∧ isDigit s2 = true)
    (hmonth : 1 ≤ twoDigits m1 m2 ∧ twoDigits m1 m2 ≤ 12)
    (hhour : twoDigits h1 h2 ≤ 23) (hmin : twoDigits n1 n2 ≤ 59) (hsec : twoDigits s1 s2 ≤ 59) :
    getDateTime (y1 :: y2 :: y3 :: y4 :: '-' :: m1 :: m2 :: '-' :: d1 :: d2 :: 'T' :: h1 :: h2
        :: ':' :: n1 :: n2 :: ':' :: s1 :: s2 :: rest)
      = some ({ year := (fourDigits y1 y2 y3 y4 : Nat), month := twoDigits m1 m2,
                day := twoDigits d1 d2, hour := twoDigits h1 h2, min := twoDigits n1 n2,
                sec := twoDigits s1 s2 }, skipFraction rest) := by
  have c1 : ¬ ((twoDigits m1 m2 = 0 || 12 < twoDigits m1 m2) = true) := by
    simp only [Bool.or_eq_true, decide_eq_true_eq]; omega
  have c2 : ¬ (24 ≤ twoDigits h1 h2) := by omega
  have c3 : ¬ (60 ≤ twoDigits n1 n2) := by omega
  have c4 : ¬ (60 ≤ twoDigits s1 s2) := by omega
  unfold getDateTime
  simp only [getYear_digits _ _ _ _ _ hy, getnum_digits _ _ _ _ hm, getnum_digits _ _ _ _ hd,
    getnum_digits _ _ _ _ hh, getnum_digits _ _ _ _ hn, getnum_digits _ _ _ _ hs,
    skipChar_cons, Option.bind_eq_bind, Option.some_bind, Option.pure_def, c1, c2, c3, c4, if_false]
  simp only [Bool.false_eq_true, if_false]

/-! ## Instants and their dates -/

/-- The date and time of the instant of a valid date and time are that date and
time. -/
theorem Civil.ofUnix_toUnix (y m d h n s : Nat) (hm1 : 1 ≤ m) (hm2 : m ≤ 12)
    (hd1 : 1 ≤ d) (hd2 : d ≤ daysIn m y) (hh : h ≤ 23) (hn : n ≤ 59) (hs : s ≤ 59) :
    Civil.ofUnix (Civil.toUnix { year := y, month := m, day := d, hour := h, min := n, sec := s })
      = { year := y, month := m, day := d, hour := h, min := n, sec := s } := by
  have hc := civilFromDays_daysFromCivil y m d hm1 hm2 hd1 hd2
  unfold Civil.toUnix Civil.ofUnix
  dsimp only
  generalize daysFromCivil (y : Int) m d = z at *
  have e1 : (z * 86400 + ((h * 3600 + n * 60 + s : Nat) : Int)) / 86400 = z := by omega
  have e2 : ((z * 86400 + ((h * 3600 + n * 60 + s : Nat) : Int)) % 86400).toNat
      = h * 3600 + n * 60 + s := by omega
  rw [e1, e2, hc]
  have e3 : (h * 3600 + n * 60 + s) / 3600 = h := by omega
  have e4 : (h * 3600 + n * 60 + s) % 3600 / 60 = n := by omega
  have e5 : (h * 3600 + n * 60 + s) % 60 = s := by omega
  rw [e3, e4, e5]

/-- The date and time printed for an instant denote that instant, and are a valid
date and time. -/
theorem Civil.toUnix_ofUnix (t : Int) :
    (Civil.ofUnix t).toUnix = t ∧
      1 ≤ (Civil.ofUnix t).month ∧ (Civil.ofUnix t).month ≤ 12 ∧
      1 ≤ (Civil.ofUnix t).day ∧ (Civil.ofUnix t).day ≤ 31 ∧
      (0 ≤ (Civil.ofUnix t).year →
        (Civil.ofUnix t).day ≤ daysIn (Civil.ofUnix t).month (Civil.ofUnix t).year.toNat) ∧
      (Civil.ofUnix t).hour ≤ 23 ∧ (Civil.ofUnix t).min ≤ 59 ∧ (Civil.ofUnix t).sec ≤ 59 := by
  obtain ⟨h1, h2, h3, h4, h5, h6⟩ := civilFromDays_spec (t / 86400)
  unfold Civil.toUnix Civil.ofUnix
  dsimp only
  refine ⟨?_, h2, h3, h4, h5, h6, by omega, by omega, by omega⟩
  rw [h1]
  omega

theorem isDigit_digitChar (k : Nat) (h : k < 10) : isDigit (digitChar k) = true := by
  interval_cases k <;> decide

theorem pad2_twoDigits (a b : Char) (h : isDigit a = true ∧ isDigit b = true) :
    pad2 (twoDigits a b) = [a, b] := by
  have ha := digitVal_lt a h.1
  have hb := digitVal_lt b h.2
  unfold pad2 twoDigits
  have e1 : (digitVal a * 10 + digitVal b) / 10 % 10 = digitVal a := by omega
  have e2 : (digitVal a * 10 + digitVal b) % 10 = digitVal b := by omega
  rw [e1, e2, digitChar_digitVal a h.1, digitChar_digitVal b h.2]

theorem formatYear_fourDigits (y1 y2 y3 y4 : Char)
    (h : isDigit y1 = true ∧ isDigit y2 = true ∧ isDigit y3 = true ∧ isDigit y4 = true) :
    formatYear ((fourDigits y1 y2 y3 y4 : Nat) : Int) = [y1, y2, y3, y4] := by
  have h1 := digitVal_lt y1 h.1
  have h2 := digitVal_lt y2 h.2.1
  have h3 := digitVal_lt y3 h.2.2.1
  have h4 := digitVal_lt y4 h.2.2.2
  unfold formatYear fourDigits
  dsimp only
  rw [Int.natAbs_ofNat]
  have hlt : digitVal y1 * 1000 + digitVal y2 * 100 + digitVal y3 * 10 + digitVal y4 < 10000 := by
    omega
  have hn : ¬ (((digitVal y1 * 1000 + digitVal y2 * 100 + digitVal y3 * 10 + digitVal y4 : Nat)
      : Int) < 0) := by omega
  rw [if_pos hlt, if_neg hn]
  have e1 : (digitVal y1 * 1000 + digitVal y2 * 100 + digitVal y3 * 10 + digitVal y4) / 1000
      = digitVal y1 := by omega
  have e2 : (digitVal y1 * 1000 + digitVal y2 * 100 + digitVal y3 * 10 + digitVal y4) / 100 % 10
      = digitVal y2 := by omega
  have e3 : (digitVal y1 * 1000 + digitVal y2 * 100 + digitVal y3 * 10 + digitVal y4) / 10 % 10
      = digitVal y3 := by omega
  have e4 : (digitVal y1 * 1000 + digitVal y2 * 100 + digitVal y3 * 10 + digitVal y4) % 10
      = digitVal y4 := by omega
  rw [e1, e2, e3, e4, digitChar_digitVal y1 h.1, digitChar_digitVal y2 h.2.1,
    digitChar_digitVal y3 h.2.2.1, digitChar_digitVal y4 h.2.2.2]

/-- An instant whose year in UTC has four digits is printed in the form
`YYYY-MM-DDTHH:MM:SSZ`. -/
theorem formatRFC3339UTC_form (t : Int) (h0 : 0 ≤ (Civil.ofUnix t).year)
    (h1 : (Civil.ofUnix t).year ≤ 9999) : isRFC3339UTC (formatRFC3339UTC t) = true := by
  unfold formatRFC3339UTC
  dsimp only
  generalize Civil.ofUnix t = c at *
  have hy : formatYear c.year
      = [digitChar (c.year.natAbs / 1000), digitChar (c.year.natAbs / 100 % 10),
          digitChar (c.year.natAbs / 10 % 10), digitChar (c.year.natAbs % 10)] := by
    unfold formatYear
    dsimp only
    have hlt : c.year.natAbs < 10000 := by omega
    have hn : ¬ c.year < 0 := by omega
    rw [if_pos hlt, if_neg hn]
  have hq : c.year.natAbs / 1000 < 10 := by omega
  rw [hy]
  unfold pad2 isRFC3339UTC
  simp only [List.cons_append, List.nil_append, List.singleton_append]
  simp only [isDigit_digitChar _ hq, isDigit_digitChar _ (Nat.mod_lt _ (by decide : 10 > 0)),
    Bool.and_self, beq_self_eq_true]

theorem daysFromCivil_year_neg (y : Int) (m d : Nat) (hm1 : 1 ≤ m) (hm2 : m ≤ 12)
    (hd1 : 1 ≤ d) (hd2 : d ≤ 31) (hy : y ≤ -1) : daysFromCivil y m d ≤ -719529 := by
  unfold daysFromCivil
  dsimp only
  interval_cases m <;> simp only [Nat.reduceLeDiff, if_true, if_false, Nat.reduceAdd, Nat.reduceMod] <;> omega

theorem daysFromCivil_year_big (y : Int) (m d : Nat) (hm1 : 1 ≤ m) (hm2 : m ≤ 12)
    (hd1 : 1 ≤ d) (hd2 : d ≤ 31) (hy : 10000 ≤ y) : 2932897 ≤ daysFromCivil y m d := by
  unfold daysFromCivil
  dsimp only
  interval_cases m <;> simp only [Nat.reduceLeDiff, if_true, if_false, Nat.reduceAdd, Nat.reduceMod] <;> omega

theorem daysFromCivil_year_range (y m d : Nat) (hm1 : 1 ≤ m) (hm2 : m ≤ 12)
    (hd1 : 1 ≤ d) (hd2 : d ≤ 31) (hy1 : 1 ≤ y) (hy2 : y ≤ 9998) :
    -719162 ≤ daysFromCivil y m d ∧ daysFromCivil y m d ≤ 2932534 := by
  unfold daysFromCivil
  dsimp only
  interval_cases m <;> simp only [Nat.reduceLeDiff, if_true, if_false, Nat.reduceAdd, Nat.reduceMod] <;> omega

/-- An instant less than a day away from a date of the years 1 to 9998 has a year
of four digits in UTC. -/
theorem Civil.ofUnix_year_range (y m d : Nat) (hm1 : 1 ≤ m) (hm2 : m ≤ 12)
    (hd1 : 1 ≤ d) (hd2 : d ≤ 31) (hy1 : 1 ≤ y) (hy2 : y ≤ 9998) (tod : Nat)
    (htod : tod < 86400) (off : Int) (hoff1 : -86400 < off) (hoff2 : off < 86400) :
    0 ≤ (Civil.ofUnix (daysFromCivil y m d * 86400 + (tod : Int) - off)).year ∧
      (Civil.ofUnix (daysFromCivil y m d * 86400 + (tod : Int) - off)).year ≤ 9999 := by
  obtain ⟨hr1, hr2⟩ := daysFromCivil_year_range y m d hm1 hm2 hd1 hd2 hy1 hy2
  generalize daysFromCivil (y : Int) m d = dz at *
  unfold Civil.ofUnix
  dsimp only
  have hz1 : dz - 1 ≤ (dz * 86400 + (tod : Int) - off) / 86400 := by omega
  have hz2 : (dz * 86400 + (tod : Int) - off) / 86400 ≤ dz + 1 := by omega
  generalize (dz * 86400 + (tod : Int) - off) / 86400 = z at *
  obtain ⟨h1, h2, h3, h4, h5, -⟩ := civilFromDays_spec z
  constructor
  · by_contra hneg
    have := daysFromCivil_year_neg _ _ _ h2 h3 h4 h5 (by omega : (civilFromDays z).1 ≤ -1)
    omega
  · by_contra hbig
    have := daysFromCivil_year_big _ _ _ h2 h3 h4 h5 (by omega : 10000 ≤ (civilFromDays z).1)
    omega

theorem getZone_offset (sign o1 o2 p1 p2 : Char) (hsign : sign = '+' ∨ sign = '-')
    (ho : isDigit o1 = true ∧ isDigit o2 = true) (hp : isDigit p1 = true ∧ isDigit p2 = true)
    (hoh : twoDigits o1 o2 ≤ 23) (hom : twoDigits p1 p2 ≤ 59) :
    getZone [sign, o1, o2, ':', p1, p2]
      = some ((if sign = '-' then -1 else 1)
          * (((twoDigits o1 o2 * 60 + twoDigits p1 p2) * 60 : Nat) : Int), []) := by
  have c1 : ¬ (24 < twoDigits o1 o2 ∨ 60 < twoDigits p1 p2) := by omega
  rcases hsign with rfl | rfl
  · simp [getZone, getnum_digits _ _ _ _ ho, getnum_digits _ _ _ _ hp, c1]
  · simp [getZone, getnum_digits _ _ _ _ ho, getnum_digits _ _ _ _ hp, c1]

theorem skipFraction_sign (sign : Char) (rest : Str) (hsign : sign = '+' ∨ sign = '-') :
    skipFraction (sign :: rest) = sign :: rest := by
  rcases hsign with rfl | rfl <;> cases rest <;> simp [skipFraction]

/-- A valid date and time with a numeric offset is read as the instant of the date
and time less the offset. -/
theorem parseRFC3339_offset (y1 y2 y3 y4 m1 m2 d1 d2 h1 h2 n1 n2 s1 s2 sign o1 o2 p1 p2 : Char)
    (hy : isDigit y1 = true ∧ isDigit y2 = true ∧ isDigit y3 = true ∧ isDigit y4 = true)
    (hm : isDigit m1 = true ∧ isDigit m2 = true) (hd : isDigit d1 = true ∧ isDigit d2 = true)
    (hh : isDigit h1 = true ∧ isDigit h2 = true) (hn : isDigit n1 = true ∧ isDigit n2 = true)
    (hs : isDigit s1 = true ∧ isDigit s2 = true)
    (ho : isDigit o1 = true ∧ isDigit o2 = true) (hp : isDigit p1 = true ∧ isDigit p2 = true)
    (hsign : sign = '+' ∨ sign = '-')
    (hmonth : 1 ≤ twoDigits m1 m2 ∧ twoDigits m1 m2 ≤ 12)
    (hday : 1 ≤ twoDigits d1 d2 ∧
      twoDigits d1 d2 ≤ daysIn (twoDigits m1 m2) (fourDigits y1 y2 y3 y4))
    (hhour : twoDigits h1 h2 ≤ 23) (hmin : twoDigits n1 n2 ≤ 59) (hsec : twoDigits s1 s2 ≤ 59)
    (hoh : twoDigits o1 o2 ≤ 23) (hom : twoDigits p1 p2 ≤ 59) :
    parseRFC3339 [y1, y2, y3, y4, '-', m1, m2, '-', d1, d2, 'T', h1, h2, ':', n1, n2, ':', s1, s2,
        sign, o1, o2, ':', p1, p2]
      = some (Civil.toUnix
          (Civil.mk (fourDigits y1 y2 y3 y4 : Nat) (twoDigits m1 m2) (twoDigits d1 d2)
            (twoDigits h1 h2) (twoDigits n1 n2) (twoDigits s1 s2))
          - (if sign = '-' then -1 else 1)
            * (((twoDigits o1 o2 * 60 + twoDigits p1 p2) * 60 : Nat) : Int)) := by
  have hg := getDateTime_digits y1 y2 y3 y4 m1 m2 d1 d2 h1 h2 n1 n2 s1 s2
    [sign, o1, o2, ':', p1, p2] hy hm hd hh hn hs hmonth hhour hmin hsec
  rw [skipFraction_sign sign _ hsign] at hg
  have hdv : ¬ ((decide (twoDigits d1 d2 < 1) ||
      decide (twoDigits d1 d2 > daysIn (twoDigits m1 m2) (fourDigits y1 y2 y3 y4))) = true) := by
    simp only [Bool.or_eq_true, decide_eq_true_eq]
    omega
  unfold parseRFC3339
  rw [hg]
  simp only [Option.bind_eq_bind, Option.some_bind, getZone_offset sign o1 o2 p1 p2 hsign ho hp
    hoh hom, ne_eq, not_true_eq_false, if_false, Int.toNat_ofNat, hdv, Bool.false_eq_true,
    Option.pure_def]

/-! ## Time normalisation -/

/-- The UTC rendering of the instant of a valid date and time given by its digits
is those digits followed by `Z`. -/
theorem formatRFC3339UTC_digits (y1 y2 y3 y4 m1 m2 d1 d2 h1 h2 n1 n2 s1 s2 : Char)
    (hy : isDigit y1 = true ∧ isDigit y2 = true ∧ isDigit y3 = true ∧ isDigit y4 = true)
    (hm : isDigit m1 = true ∧ isDigit m2 = true) (hd : isDigit d1 = true ∧ isDigit d2 = true)
    (hh : isDigit h1 = true ∧ isDigit h2 = true) (hn : isDigit n1 = true ∧ isDigit n2 = true)
    (hs : isDigit s1 = true ∧ isDigit s2 = true)
    (hmonth : 1 ≤ twoDigits m1 m2 ∧ twoDigits m1 m2 ≤ 12)
    (hday : 1 ≤ twoDigits d1 d2 ∧
      twoDigits d1 d2 ≤ daysIn (twoDigits m1 m2) (fourDigits y1 y2 y3 y4))
    (hhour : twoDigits h1 h2 ≤ 23) (hmin : twoDigits n1 n2 ≤ 59) (hsec : twoDigits s1 s2 ≤ 59) :
    formatRFC3339UTC
        (Civil.toUnix { year := (fourDigits y1 y2 y3 y4 : Nat), month := twoDigits m1 m2,
                        day := twoDigits d1 d2, hour := twoDigits h1 h2,
                        min := twoDigits n1 n2, sec := twoDigits s1 s2 })
      = [y1, y2, y3, y4, '-', m1, m2, '-', d1, d2, 'T', h1, h2, ':', n1, n2, ':', s1, s2, 'Z'] := by
  unfold formatRFC3339UTC
  dsimp only
  rw [Civil.ofUnix_toUnix _ _ _ _ _ _ hmonth.1 hmonth.2 hday.1 hday.2 hhour hmin hsec]
  dsimp only
  rw [formatYear_fourDigits _ _ _ _ hy, pad2_twoDigits _ _ hm, pad2_twoDigits _ _ hd,
    pad2_twoDigits _ _ hh, pad2_twoDigits _ _ hn, pad2_twoDigits _ _ hs]
  rfl

/-- C20: a string of the bare form `YYYY-MM-DDTHH:MM:SS`, all digits, that denotes
a valid calendar date and time, is accepted by `parseTime`, and the result is the
string itself followed by `Z`: it is read as UTC and no hour is shifted. -/
theorem parseTime_bare (y1 y2 y3 y4 m1 m2 d1 d2 h1 h2 n1 n2 s1 s2 : Char)
    (hy : isDigit y1 = true ∧ isDigit y2 = true ∧ isDigit y3 = true ∧ isDigit y4 = true)
    (hm : isDigit m1 = true ∧ isDigit m2 = true) (hd : isDigit d1 = true ∧ isDigit d2 = true)
    (hh : isDigit h1 = true ∧ isDigit h2 = true) (hn : isDigit n1 = true ∧ isDigit n2 = true)
    (hs : isDigit s1 = true ∧ isDigit s2 = true)
    (hmonth : 1 ≤ twoDigits m1 m2 ∧ twoDigits m1 m2 ≤ 12)
    (hday : 1 ≤ twoDigits d1 d2 ∧
      twoDigits d1 d2 ≤ daysIn (twoDigits m1 m2) (fourDigits y1 y2 y3 y4))
    (hhour : twoDigits h1 h2 ≤ 23) (hmin : twoDigits n1 n2 ≤ 59) (hsec : twoDigits s1 s2 ≤ 59) :
    parseTime [y1, y2, y3, y4, '-', m1, m2, '-', d1, d2, 'T', h1, h2, ':', n1, n2, ':', s1, s2]
      = .ok ([y1, y2, y3, y4, '-', m1, m2, '-', d1, d2, 'T', h1, h2, ':', n1, n2, ':', s1, s2]
          ++ ['Z']) := by
  have hg := getDateTime_digits y1 y2 y3 y4 m1 m2 d1 d2 h1 h2 n1 n2 s1 s2 [] hy hm hd hh hn hs
    hmonth hhour hmin hsec
  have hsf : skipFraction [] = [] := rfl
  rw [hsf] at hg
  have hp1 : parseRFC3339
      [y1, y2, y3, y4, '-', m1, m2, '-', d1, d2, 'T', h1, h2, ':', n1, n2, ':', s1, s2] = none := by
    unfold parseRFC3339
    rw [hg]
    rfl
  have hdv : ¬ ((decide (twoDigits d1 d2 < 1) ||
      decide (twoDigits d1 d2 > daysIn (twoDigits m1 m2) (fourDigits y1 y2 y3 y4))) = true) := by
    simp only [Bool.or_eq_true, decide_eq_true_eq]
    omega
  have hp2 : parseBare
      [y1, y2, y3, y4, '-', m1, m2, '-', d1, d2, 'T', h1, h2, ':', n1, n2, ':', s1, s2]
      = some (Civil.toUnix
          (Civil.mk (fourDigits y1 y2 y3 y4 : Nat) (twoDigits m1 m2) (twoDigits d1 d2)
            (twoDigits h1 h2) (twoDigits n1 n2) (twoDigits s1 s2))) := by
    unfold parseBare
    rw [hg]
    simp only [Option.bind_eq_bind, Option.some_bind, ne_eq, not_true_eq_false, if_false,
      Int.toNat_ofNat, hdv, Bool.false_eq_true, Option.pure_def]
  unfold parseTime
  rw [hp1, hp2]
  dsimp only
  rw [formatRFC3339UTC_digits y1 y2 y3 y4 m1 m2 d1 d2 h1 h2 n1 n2 s1 s2 hy hm hd hh hn hs hmonth
    hday hhour hmin hsec]
  rfl

/-- The bare timestamp of the test suite is valid and is returned with a `Z`. -/
theorem parseTime_bare_witness :
    parseTime "2024-01-15T14:30:00".toList = .ok "2024-01-15T14:30:00Z".toList :=
  parseTime_bare '2' '0' '2' '4' '0' '1' '1' '5' '1' '4' '3' '0' '0' '0'
    (by decide) (by decide) (by decide) (by decide) (by decide) (by decide)
    (by decide) (by decide) (by decide) (by decide) (by decide)

/-! ## Attestations, verifier and statement frame -/

/-- C21: `buildInputAttestations` returns one entry for each component whose
attestations list is non-empty, in component order, and none for the others; the
entry of a component has `uri = name ++ "-attestations"` and the digest map with
the single entry `sha256 -> "computed-from-attestations"`, whatever the
attestations are and however many. -/
theorem buildInputAttestations_eq (components : List ConformaComponent) :
    buildInputAttestations components
      = (components.filter (fun c => decide (c.Attestations ≠ []))).map
          (fun c =>
            { URI := c.Name ++ "-attestations".toList,
              Digest := [(sha256Key, "computed-from-attestations".toList)] }) := by
  induction components with
  | nil => rfl
  | cons c cs ih =>
    unfold buildInputAttestations
    by_cases ha : c.Attestations = []
    · have hl : ¬ c.Attestations.length > 0 := by rw [ha]; simp
      rw [if_neg hl, ih, List.filter_cons_of_neg (by simpa using ha)]
    · have hl : c.Attestations.length > 0 := List.length_pos.mpr ha
      rw [if_pos hl, ih, List.filter_cons_of_pos (by simpa using ha), List.map_cons]

/-- Of a component with two attestations and one with none, the first alone gets
an entry. -/
theorem buildInputAttestations_eq_witness :
    buildInputAttestations
        [{ testComponent with
           Attestations :=
             [{ Type_ := "https://in-toto.io/Statement/v0.1".toList,
                PredicateType := "https://slsa.dev/provenance/v0.2".toList },
              { Type_ := "https://in-toto.io/Statement/v0.1".toList,
                PredicateType := "https://slsa.dev/provenance/v1".toList }] },
         { testComponent with Name := "other".toList }]
      = [{ URI := "test-app-attestations".toList,
           Digest := [(sha256Key, "computed-from-attestations".toList)] }] :=
  (buildInputAttestations_eq _).trans (by decide)

/-- C22: on success of `convertToVSA`, `verifier.version` is the report's
`ec-version` when that is non-empty and the configuration's `VerifierVersion`
otherwise, and `verifier.id` is the configuration's `VerifierID`. -/
theorem convertToVSA_verifier (loadPolicyMetadata : MetadataLoader) (input : ConformaInput)
    (config : ConversionConfig) (vsa : VSAStatement)
    (h : convertToVSA loadPolicyMetadata input config = .ok vsa) :
    vsa.Predicate.Verifier.Version
        = (if input.ECVersion ≠ [] then input.ECVersion else config.VerifierVersion) ∧
      vsa.Predicate.Verifier.ID = config.VerifierID := by
  obtain ⟨timeVerified, first, rest, policy, -, -, -, rfl⟩ :=
    convertToVSA_ok_inv loadPolicyMetadata input config vsa h
  exact ⟨rfl, rfl⟩

/-- The test report carries `v0.3.0`, which wins over the configured `v1.0.0`. -/
theorem convertToVSA_verifier_witness :
    convertToVSA noMetadata testInput testConfig = .ok testVSA ∧
      testVSA.Predicate.Verifier.Version = "v0.3.0".toList ∧
      testVSA.Predicate.Verifier.ID = "https://test.example.com/verifier".toList :=
  ⟨by decide, convertToVSA_verifier noMetadata testInput testConfig testVSA (by decide)⟩

/-- C23: on success of `convertToVSA` the subject list has as many entries as the
report has components, the subject at each position is the result of
`buildSubject` on the component at that position, the statement type and the
predicate type are the fixed in-toto Statement v1 and SLSA verification_summary v1
identifiers, and `dependencyLevels` is empty. -/
theorem convertToVSA_frame (loadPolicyMetadata : MetadataLoader) (input : ConformaInput)
    (config : ConversionConfig) (vsa : VSAStatement)
    (h : convertToVSA loadPolicyMetadata input config = .ok vsa) :
    vsa.Subject.length = input.Components.length ∧
      List.Forall₂ (fun c s => buildSubject c config.SubjectOverride = .ok s)
        input.Components vsa.Subject ∧
      (∀ (i : Nat) (c : ConformaComponent), input.Components[i]? = some c →
        ∃ s, vsa.Subject[i]? = some s ∧ buildSubject c config.SubjectOverride = .ok s) ∧
      vsa.Type_ = "https://in-toto.io/Statement/v1".toList ∧
      vsa.PredicateType = "https://slsa.dev/verification_summary/v1".toList ∧
      vsa.Predicate.DependencyLevels = [] := by
  obtain ⟨timeVerified, first, rest, policy, -, hsub, -, rfl⟩ :=
    convertToVSA_ok_inv loadPolicyMetadata input config vsa h
  have hf := (buildSubjects_ok_iff _ _ _).mp hsub
  refine ⟨hf.length_eq.symm, hf, ?_, rfl, rfl, rfl⟩
  intro i c hc
  have hlen := hf.length_eq
  have hi : i < input.Components.length := by
    rcases Nat.lt_or_ge i input.Components.length with hlt | hge
    · exact hlt
    · rw [List.getElem?_eq_none hge] at hc
      cases hc
  have hi2 : i < (first :: rest).length := by omega
  refine ⟨(first :: rest)[i], List.getElem?_eq_getElem hi2, ?_⟩
  have hget := List.Forall₂.get hf hi hi2
  rw [List.getElem?_eq_getElem hi] at hc
  injection hc with hc
  rw [← hc]
  exact hget

/-- The test report has one component and the statement one subject, the one
`buildSubject` builds. -/
theorem convertToVSA_frame_witness :
    convertToVSA noMetadata testInput testConfig = .ok testVSA ∧
      testVSA.Subject.length = testInput.Components.length ∧
      testVSA.Type_ = "https://in-toto.io/Statement/v1".toList ∧
      testVSA.Predicate.DependencyLevels = [] :=
  ⟨by decide,
    (convertToVSA_frame noMetadata testInput testConfig testVSA (by decide)).1,
    (convertToVSA_frame noMetadata testInput testConfig testVSA (by decide)).2.2.2.1,
    (convertToVSA_frame noMetadata testInput testConfig testVSA (by decide)).2.2.2.2.2⟩

/-! ## Fixed points of the time normalisation -/

theorem digitVal_digitChar (k : Nat) (h : k < 10) : digitVal (digitChar k) = k := by
  interval_cases k <;> decide

theorem twoDigits_digitChar (n : Nat) (h : n < 100) :
    twoDigits (digitChar (n / 10 % 10)) (digitChar (n % 10)) = n := by
  unfold twoDigits
  rw [digitVal_digitChar _ (Nat.mod_lt _ (by decide)), digitVal_digitChar _ (Nat.mod_lt _ (by decide))]
  omega

theorem fourDigits_digitChar (u : Nat) (h : u < 10000) :
    fourDigits (digitChar (u / 1000)) (digitChar (u / 100 % 10)) (digitChar (u / 10 % 10))
      (digitChar (u % 10)) = u := by
  unfold fourDigits
  rw [digitVal_digitChar _ (by omega : u / 1000 < 10),
    digitVal_digitChar _ (Nat.mod_lt _ (by decide)),
    digitVal_digitChar _ (Nat.mod_lt _ (by decide)),
    digitVal_digitChar _ (Nat.mod_lt _ (by decide))]
  omega

/-- A valid date and time followed by `Z` is read as its instant. -/
theorem parseRFC3339_utc (y1 y2 y3 y4 m1 m2 d1 d2 h1 h2 n1 n2 s1 s2 : Char)
    (hy : isDigit y1 = true ∧ isDigit y2 = true ∧ isDigit y3 = true ∧ isDigit y4 = true)
    (hm : isDigit m1 = true ∧ isDigit m2 = true) (hd : isDigit d1 = true ∧ isDigit d2 = true)
    (hh : isDigit h1 = true ∧ isDigit h2 = true) (hn : isDigit n1 = true ∧ isDigit n2 = true)
    (hs : isDigit s1 = true ∧ isDigit s2 = true)
    (hmonth : 1 ≤ twoDigits m1 m2 ∧ twoDigits m1 m2 ≤ 12)
    (hday : 1 ≤ twoDigits d1 d2 ∧
      twoDigits d1 d2 ≤ daysIn (twoDigits m1 m2) (fourDigits y1 y2 y3 y4))
    (hhour : twoDigits h1 h2 ≤ 23) (hmin : twoDigits n1 n2 ≤ 59) (hsec : twoDigits s1 s2 ≤ 59) :
    parseRFC3339 [y1, y2, y3, y4, '-', m1, m2, '-', d1, d2, 'T', h1, h2, ':', n1, n2, ':', s1, s2,
        'Z']
      = some (Civil.toUnix
          (Civil.mk (fourDigits y1 y2 y3 y4 : Nat) (twoDigits m1 m2) (twoDigits d1 d2)
            (twoDigits h1 h2) (twoDigits n1 n2) (twoDigits s1 s2))) := by
  have hg := getDateTime_digits y1 y2 y3 y4 m1 m2 d1 d2 h1 h2 n1 n2 s1 s2
    ['Z'] hy hm hd hh hn hs hmonth hhour hmin hsec
  have hsf : skipFraction ['Z'] = ['Z'] := rfl
  have hz : getZone ['Z'] = some (0, []) := rfl
  rw [hsf] at hg
  have hdv : ¬ ((decide (twoDigits d1 d2 < 1) ||
      decide (twoDigits d1 d2 > daysIn (twoDigits m1 m2) (fourDigits y1 y2 y3 y4))) = true) := by
    simp only [Bool.or_eq_true, decide_eq_true_eq]
    omega
  unfold parseRFC3339
  rw [hg]
  simp only [Option.bind_eq_bind, Option.some_bind, hz, ne_eq, not_true_eq_false, if_false,
    Int.toNat_ofNat, hdv, Bool.false_eq_true, Option.pure_def, Int.sub_zero]

/-- The rendering of an instant whose UTC year has four digits is read back as
that instant. -/
theorem parseRFC3339_formatRFC3339UTC (t : Int) (h0 : 0 ≤ (Civil.ofUnix t).year)
    (h1 : (Civil.ofUnix t).year ≤ 9999) : parseRFC3339 (formatRFC3339UTC t) = some t := by
  obtain ⟨hu, a1, a2, a3, a4, a5, a6, a7, a8⟩ := Civil.toUnix_ofUnix t
  have a5 := a5 h0
  unfold formatRFC3339UTC
  dsimp only
  generalize Civil.ofUnix t = c at *
  have hlt : c.year.natAbs < 10000 := by omega
  have hy : formatYear c.year
      = [digitChar (c.year.natAbs / 1000), digitChar (c.year.natAbs / 100 % 10),
          digitChar (c.year.natAbs / 10 % 10), digitChar (c.year.natAbs % 10)] := by
    unfold formatYear
    dsimp only
    have hn : ¬ c.year < 0 := by omega
    rw [if_pos hlt, if_neg hn]
  have hyear : ((c.year.natAbs : Nat) : Int) = c.year := by omega
  have hyn : c.year.toNat = c.year.natAbs := by omega
  rw [hyn] at a5
  rw [hy]
  unfold pad2
  have hmod : ∀ n : Nat, n % 10 < 10 := fun n => Nat.mod_lt _ (by decide)
  have hq : c.year.natAbs / 1000 < 10 := by omega
  have key := parseRFC3339_utc
    (digitChar (c.year.natAbs / 1000)) (digitChar (c.year.natAbs / 100 % 10))
    (digitChar (c.year.natAbs / 10 % 10)) (digitChar (c.year.natAbs % 10))
    (digitChar (c.month / 10 % 10)) (digitChar (c.month % 10))
    (digitChar (c.day / 10 % 10)) (digitChar (c.day % 10))
    (digitChar (c.hour / 10 % 10)) (digitChar (c.hour % 10))
    (digitChar (c.min / 10 % 10)) (digitChar (c.min % 10))
    (digitChar (c.sec / 10 % 10)) (digitChar (c.sec % 10))
    ⟨isDigit_digitChar _ hq, isDigit_digitChar _ (hmod _), isDigit_digitChar _ (hmod _),
      isDigit_digitChar _ (hmod _)⟩
    ⟨isDigit_digitChar _ (hmod _), isDigit_digitChar _ (hmod _)⟩
    ⟨isDigit_digitChar _ (hmod _), isDigit_digitChar _ (hmod _)⟩
    ⟨isDigit_digitChar _ (hmod _), isDigit_digitChar _ (hmod _)⟩
    ⟨isDigit_digitChar _ (hmod _), isDigit_digitChar _ (hmod _)⟩
    ⟨isDigit_digitChar _ (hmod _), isDigit_digitChar _ (hmod _)⟩
  rw [fourDigits_digitChar _ hlt, twoDigits_digitChar c.month (by omega),
    twoDigits_digitChar c.day (by omega), twoDigits_digitChar c.hour (by omega),
    twoDigits_digitChar c.min (by omega), twoDigits_digitChar c.sec (by omega)] at key
  have key2 := key ⟨a1, a2⟩ ⟨a3, a5⟩ a6 a7 a8
  rw [hyear] at key2
  have hc : Civil.mk c.year c.month c.day c.hour c.min c.sec = c := rfl
  rw [hc, hu] at key2
  exact key2

theorem formatRFC3339UTC_last (t : Int) : (formatRFC3339UTC t).getLast? = some 'Z' := by
  have h : ∃ l, formatRFC3339UTC t = l ++ ['Z'] := by
    unfold formatRFC3339UTC
    dsimp only
    exact ⟨formatYear (Civil.ofUnix t).year ++ '-' :: pad2 (Civil.ofUnix t).month ++ '-'
      :: pad2 (Civil.ofUnix t).day ++ 'T' :: pad2 (Civil.ofUnix t).hour ++ ':'
      :: pad2 (Civil.ofUnix t).min ++ ':' :: pad2 (Civil.ofUnix t).sec, by simp⟩
  obtain ⟨l, hl⟩ := h
  rw [hl]
  simp

/-- What a successful `parseTime` returns: the UTC rendering of the instant one
of the two layouts read. -/
theorem parseTime_ok_inv (s out : Str) (h : parseTime s = .ok out) :
    ∃ t : Int, (parseRFC3339 s = some t ∨ parseBare s = some t) ∧ out = formatRFC3339UTC t := by
  unfold parseTime at h
  cases h1 : parseRFC3339 s with
  | some t =>
    rw [h1] at h
    injection h with h
    exact ⟨t, Or.inl rfl, h.symm⟩
  | none =>
    rw [h1] at h
    cases h2 : parseBare s with
    | some t =>
      rw [h2] at h
      injection h with h
      exact ⟨t, Or.inr rfl, h.symm⟩
    | none =>
      rw [h2] at h
      cases h

/-- C24 as the code has it: a result of `parseTime` is the UTC rendering of the
instant `t` read from the input and ends in `Z`; when the year of `t` in UTC lies
in 0 to 9999, the result has the form `YYYY-MM-DDTHH:MM:SSZ` and `parseTime`
returns it unchanged. -/
theorem parseTime_fixed_point (s out : Str) (h : parseTime s = .ok out) :
    ∃ t : Int, (parseRFC3339 s = some t ∨ parseBare s = some t) ∧
      out = formatRFC3339UTC t ∧ out.getLast? = some 'Z' ∧
      ((0 ≤ (Civil.ofUnix t).year ∧ (Civil.ofUnix t).year ≤ 9999) →
        isRFC3339UTC out = true ∧ parseTime out = .ok out) := by
  obtain ⟨t, hp, hout⟩ := parseTime_ok_inv s out h
  subst hout
  refine ⟨t, hp, rfl, formatRFC3339UTC_last t, ?_⟩
  intro hyear
  refine ⟨formatRFC3339UTC_form t hyear.1 hyear.2, ?_⟩
  unfold parseTime
  rw [parseRFC3339_formatRFC3339UTC t hyear.1 hyear.2]

/-- The offset timestamp of the test suite: its result is in the UTC form and is
returned unchanged. -/
theorem parseTime_fixed_point_witness :
    parseTime "2024-01-15T14:30:00-05:00".toList = .ok "2024-01-15T19:30:00Z".toList ∧
      isRFC3339UTC "2024-01-15T19:30:00Z".toList = true ∧
      parseTime "2024-01-15T19:30:00Z".toList = .ok "2024-01-15T19:30:00Z".toList := by
  have hp : parseTime "2024-01-15T14:30:00-05:00".toList = .ok "2024-01-15T19:30:00Z".toList := by
    rfl
  obtain ⟨t, ht, -, -, hfix⟩ :=
    parseTime_fixed_point "2024-01-15T14:30:00-05:00".toList "2024-01-15T19:30:00Z".toList hp
  have hr : parseRFC3339 "2024-01-15T14:30:00-05:00".toList = some 1705347000 := by rfl
  have hb : parseBare "2024-01-15T14:30:00-05:00".toList = none := by rfl
  have htv : t = 1705347000 := by
    rcases ht with ht | ht
    · rw [hr] at ht
      injection ht with ht
      exact ht.symm
    · rw [hb] at ht
      cases ht
  subst htv
  exact ⟨hp, hfix (by decide)⟩

/-- C24 as stated fails: the result for the first hour of the year 0000 with the
offset `+01:00` ends in `Z` but is not in the form `YYYY-MM-DDTHH:MM:SSZ`, and
`parseTime` rejects it; so it does for the five-digit year at the other end. -/
theorem parseTime_fixed_point_counterexample :
    parseTime "0000-01-01T00:00:00+01:00".toList = .ok "-0001-12-31T23:00:00Z".toList ∧
      parseTime "-0001-12-31T23:00:00Z".toList
        = .error "unsupported time format: -0001-12-31T23:00:00Z".toList ∧
      parseTime "9999-12-31T23:59:59-01:00".toList = .ok "10000-01-01T00:59:59Z".toList ∧
      parseTime "10000-01-01T00:59:59Z".toList
        = .error "unsupported time format: 10000-01-01T00:59:59Z".toList := by
  refine ⟨by rfl, by rfl, by rfl, by rfl⟩

/-! ## Error messages of the validators -/

/-- A list with an element that fails a test splits at the first such element. -/
theorem exists_first_failure {α : Type} (p : α → Prop) :
    ∀ l : List α, (¬ ∀ x ∈ l, p x) →
      ∃ pre c post, l = pre ++ c :: post ∧ (∀ x ∈ pre, p x) ∧ ¬ p c := by
  intro l
  induction l with
  | nil =>
    intro h
    exact absurd (fun x hx => absurd hx (List.not_mem_nil x)) h
  | cons a l ih =>
    intro h
    by_cases ha : p a
    · have hl : ¬ ∀ x ∈ l, p x := by
        intro hall
        apply h
        intro x hx
        rcases List.mem_cons.mp hx with rfl | hx
        · exact ha
        · exact hall x hx
      obtain ⟨pre, c, post, e, hpre, hc⟩ := ih hl
      refine ⟨a :: pre, c, post, by rw [e]; rfl, ?_, hc⟩
      intro x hx
      rcases List.mem_cons.mp hx with rfl | hx
      · exact ha
      · exact hpre x hx
    · exact ⟨[], a, l, rfl, fun x hx => absurd hx (List.not_mem_nil x), ha⟩

/-- C25: an empty `effectiveTime` gives `effective-time is required`; a
non-empty one with no components gives `at least one component is required`;
and when a report with both is rejected, the message is `component[i]: ` followed
by the first failing check of component `i`, in the order `name is required`,
`containerImage is required`, `containerImage must include sha256 digest`, where
`i` is the least index of a component that fails a check. -/
theorem validateConformaInput_message (input : ConformaInput) :
    (input.EffectiveTime = [] →
      validateConformaInput input = .error "effective-time is required".toList) ∧
    (input.EffectiveTime ≠ [] → input.Components = [] →
      validateConformaInput input = .error "at least one component is required".toList) ∧
    (∀ e, input.EffectiveTime ≠ [] → input.Components ≠ [] →
      validateConformaInput input = .error e →
      ∃ (i : Nat) (c : ConformaComponent), input.Components[i]? = some c ∧
        (∀ (j : Nat) (x : ConformaComponent), j < i → input.Components[j]? = some x →
          x.Name ≠ [] ∧ x.ContainerImage ≠ [] ∧ "@sha256:".toList <:+: x.ContainerImage) ∧
        ¬ (c.Name ≠ [] ∧ c.ContainerImage ≠ [] ∧ "@sha256:".toList <:+: c.ContainerImage) ∧
        e = "component[".toList ++ formatIndex i ++ "]: ".toList ++
          (if c.Name = [] then "name is required".toList
           else if c.ContainerImage = [] then "containerImage is required".toList
           else "containerImage must include sha256 digest".toList)) := by
  refine ⟨?_, ?_, ?_⟩
  · intro ht
    unfold validateConformaInput
    rw [if_pos ht]
  · intro ht hc
    unfold validateConformaInput
    rw [if_neg ht, if_pos (by rw [hc]; rfl)]
  · intro e ht hc he
    have hlen : ¬ input.Components.length = 0 := fun h => hc (List.length_eq_zero.mp h)
    have hv : validateConformaInput input = validateComponents 0 input.Components := by
      unfold validateConformaInput
      rw [if_neg ht, if_neg hlen]
    rw [hv] at he
    have hnot : ¬ ∀ x ∈ input.Components, x.Name ≠ [] ∧ x.ContainerImage ≠ [] ∧
        strContains x.ContainerImage sha256Marker = true := by
      intro hall
      rw [(validateComponents_ok_iff input.Components 0).mpr hall] at he
      cases he
    obtain ⟨pre, c, post, hsplit, hpre, hcbad⟩ := exists_first_failure _ _ hnot
    rw [hsplit, validateComponents_first_failure pre c post 0 hpre, Nat.zero_add] at he
    refine ⟨pre.length, c, ?_, ?_, ?_, ?_⟩
    · rw [hsplit, List.getElem?_append_right (Nat.le_refl _), Nat.sub_self,
        List.getElem?_cons_zero]
    · intro j x hj hx
      rw [hsplit, List.getElem?_append_left hj] at hx
      have hmem : x ∈ pre := List.mem_iff_getElem?.mpr ⟨j, hx⟩
      exact ⟨(hpre x hmem).1, (hpre x hmem).2.1,
        (strContains_iff_substring _ _).mp (hpre x hmem).2.2⟩
    · intro hok
      exact hcbad ⟨hok.1, hok.2.1, (strContains_iff_substring _ _).mpr hok.2.2⟩
    · by_cases hn : c.Name = []
      · rw [if_pos hn] at he ⊢
        injection he with he
        simp only [← he, List.append_assoc]
        rfl
      · rw [if_neg hn] at he ⊢
        by_cases hi : c.ContainerImage = []
        · rw [if_pos hi] at he ⊢
          injection he with he
          simp only [← he, List.append_assoc]
          rfl
        · rw [if_neg hi] at he ⊢
          have hm : strContains c.ContainerImage sha256Marker = false := by
            cases hs : strContains c.ContainerImage sha256Marker with
            | false => rfl
            | true => exact absurd ⟨hn, hi, hs⟩ hcbad
          rw [hm] at he
          simp only [Bool.not_false, if_true] at he
          injection he with he
          simp only [← he, List.append_assoc]
          rfl

/-- The report whose first component has no image and whose second has no name is
rejected with the image message of component 0. -/
theorem validateConformaInput_message_witness :
    ∃ (i : Nat) (c : ConformaComponent), imageBeforeNameInput.Components[i]? = some c ∧
      (∀ (j : Nat) (x : ConformaComponent), j < i → imageBeforeNameInput.Components[j]? = some x →
        x.Name ≠ [] ∧ x.ContainerImage ≠ [] ∧ "@sha256:".toList <:+: x.ContainerImage) ∧
      ¬ (c.Name ≠ [] ∧ c.ContainerImage ≠ [] ∧ "@sha256:".toList <:+: c.ContainerImage) ∧
      "component[0]: containerImage is required".toList
        = "component[".toList ++ formatIndex i ++ "]: ".toList ++
          (if c.Name = [] then "name is required".toList
           else if c.ContainerImage = [] then "containerImage is required".toList
           else "containerImage must include sha256 digest".toList) :=
  (validateConformaInput_message imageBeforeNameInput).2.2
    "component[0]: containerImage is required".toList (by decide) (by decide) (by rfl)

/-- The subject loop reports the first subject that fails a check, with its index
and its first failing check. -/
theorem validateSubjects_first_failure :
    ∀ (pre : List VSASubject) (s : VSASubject) (post : List VSASubject) (i : Nat),
      (∀ x ∈ pre, x.Name ≠ [] ∧ x.Digest ≠ [] ∧ sha256Key ∈ x.Digest.map Prod.fst) →
      validateSubjects i (pre ++ s :: post) =
        if s.Name = [] then
          .error ("subject[".toList ++ formatIndex (i + pre.length)
            ++ "]: name is required".toList)
        else if s.Digest.length = 0 then
          .error ("subject[".toList ++ formatIndex (i + pre.length)
            ++ "]: digest is required".toList)
        else if (s.Digest.get? sha256Key).isNone then
          .error ("subject[".toList ++ formatIndex (i + pre.length)
            ++ "]: sha256 digest is required".toList)
        else validateSubjects (i + pre.length + 1) post := by
  intro pre
  induction pre with
  | nil =>
    intro s post i _
    rw [List.nil_append, validateSubjects_cons]
    rfl
  | cons x xs ih =>
    intro s post i hpre
    have hx := hpre x (List.mem_cons_self _ _)
    have hxs : ∀ y ∈ xs, y.Name ≠ [] ∧ y.Digest ≠ [] ∧ sha256Key ∈ y.Digest.map Prod.fst :=
      fun y hy => hpre y (List.mem_cons_of_mem _ hy)
    have hl : ¬ x.Digest.length = 0 := fun h => hx.2.1 (List.length_eq_zero.mp h)
    have hk : ¬ (StrMap.get? x.Digest sha256Key).isNone = true := by
      have := (lookup_isSome_iff sha256Key x.Digest).mpr hx.2.2
      cases hg : StrMap.get? x.Digest sha256Key with
      | none => rw [hg] at this; cases this
      | some v => simp
    rw [List.cons_append, validateSubjects_cons, if_neg hx.1, if_neg hl, if_neg hk]
    rw [ih s post (i + 1) hxs]
    have e1 : i + 1 + xs.length = i + (x :: xs).length := by
      simp only [List.length_cons]; omega
    rw [e1]

/-- C26: a statement that `validateVSAOutput` rejects gets the error of the first
failing check in the order: statement type, predicate type, empty subject list,
the subjects by ascending index (each for an empty name, then an empty digest
map, then a missing `sha256` key), verifier id, `timeVerified`, `resourceUri`,
policy URI, verification result; with the messages of the test suite. -/
theorem validateVSAOutput_message (vsa : VSAStatement) :
    (vsa.Type_ ≠ "https://in-toto.io/Statement/v1".toList →
      validateVSAOutput vsa = .error ("invalid statement type: ".toList ++ vsa.Type_)) ∧
    (vsa.Type_ = "https://in-toto.io/Statement/v1".toList →
      (vsa.PredicateType ≠ "https://slsa.dev/verification_summary/v1".toList →
        validateVSAOutput vsa
          = .error ("invalid predicate type: ".toList ++ vsa.PredicateType)) ∧
      (vsa.PredicateType = "https://slsa.dev/verification_summary/v1".toList →
        (vsa.Subject = [] →
          validateVSAOutput vsa = .error "at least one subject is required".toList) ∧
        (∀ pre s post, vsa.Subject = pre ++ s :: post →
          (∀ x ∈ pre, x.Name ≠ [] ∧ x.Digest ≠ [] ∧ sha256Key ∈ x.Digest.map Prod.fst) →
          ¬ (s.Name ≠ [] ∧ s.Digest ≠ [] ∧ sha256Key ∈ s.Digest.map Prod.fst) →
          validateVSAOutput vsa
            = .error ("subject[".toList ++ formatIndex pre.length ++ "]: ".toList ++
                (if s.Name = [] then "name is required".toList
                 else if s.Digest = [] then "digest is required".toList
                 else "sha256 digest is required".toList))) ∧
        (vsa.Subject ≠ [] →
          (∀ x ∈ vsa.Subject,
            x.Name ≠ [] ∧ x.Digest ≠ [] ∧ sha256Key ∈ x.Digest.map Prod.fst) →
          (vsa.Predicate.Verifier.ID = [] →
            validateVSAOutput vsa = .error "verifier ID is required".toList) ∧
          (vsa.Predicate.Verifier.ID ≠ [] →
            (vsa.Predicate.TimeVerified = [] →
              validateVSAOutput vsa = .error "timeVerified is required".toList) ∧
            (vsa.Predicate.TimeVerified ≠ [] →
              (vsa.Predicate.ResourceURI = [] →
                validateVSAOutput vsa = .error "resourceUri is required".toList) ∧
              (vsa.Predicate.ResourceURI ≠ [] →
                (vsa.Predicate.Policy.URI = [] →
                  validateVSAOutput vsa = .error "policy URI is required".toList) ∧
                (vsa.Predicate.Policy.URI ≠ [] →
                  vsa.Predicate.VerificationResult ≠ "PASSED".toList →
                  vsa.Predicate.VerificationResult ≠ "FAILED".toList →
                  validateVSAOutput vsa
                    = .error ("invalid verification result: ".toList
                        ++ vsa.Predicate.VerificationResult)))))))) := by
  refine ⟨?_, ?_⟩
  · intro h1
    unfold validateVSAOutput
    rw [if_pos h1]
  intro h1
  have e1 : validateVSAOutput vsa
      = if vsa.PredicateType ≠ "https://slsa.dev/verification_summary/v1".toList then
          .error ("invalid predicate type: ".toList ++ vsa.PredicateType)
        else if vsa.Subject.length = 0 then .error "at least one subject is required".toList
        else
          match validateSubjects 0 vsa.Subject with
          | .error e => .error e
          | .ok _ =>
            if vsa.Predicate.Verifier.ID = [] then .error "verifier ID is required".toList
            else if vsa.Predicate.TimeVerified = [] then .error "timeVerified is required".toList
            else if vsa.Predicate.ResourceURI = [] then .error "resourceUri is required".toList
            else if vsa.Predicate.Policy.URI = [] then .error "policy URI is required".toList
            else if !validResultsGet vsa.Predicate.VerificationResult then
              .error ("invalid verification result: ".toList ++ vsa.Predicate.VerificationResult)
            else .ok () := by
    unfold validateVSAOutput
    rw [if_neg (not_not.mpr h1)]
  rw [e1]
  refine ⟨?_, ?_⟩
  · intro h2
    rw [if_pos h2]
  intro h2
  rw [if_neg (not_not.mpr h2)]
  refine ⟨?_, ?_, ?_⟩
  · intro h3
    rw [if_pos (by rw [h3]; rfl)]
  · intro pre s post hsplit hpre hbad
    have hlen : ¬ vsa.Subject.length = 0 := by
      rw [hsplit]; simp
    rw [if_neg hlen, hsplit, validateSubjects_first_failure pre s post 0 hpre, Nat.zero_add]
    by_cases hn : s.Name = []
    · simp only [if_pos hn, List.append_assoc]
      rfl
    · by_cases hd : s.Digest = []
      · have hl : s.Digest.length = 0 := by rw [hd]; rfl
        simp only [if_neg hn, if_pos hl, if_pos hd, List.append_assoc]
        rfl
      · have hl : ¬ s.Digest.length = 0 := fun h => hd (List.length_eq_zero.mp h)
        have hk : (StrMap.get? s.Digest sha256Key).isNone = true := by
          cases hg : StrMap.get? s.Digest sha256Key with
          | none => rfl
          | some v =>
            exfalso
            apply hbad
            exact ⟨hn, hd, (lookup_isSome_iff sha256Key s.Digest).mp (by rw [hg]; rfl)⟩
        simp only [if_neg hn, if_neg hl, if_neg hd, if_pos hk, List.append_assoc]
        rfl
  · intro h3 hall
    have hlen : ¬ vsa.Subject.length = 0 := fun h => h3 (List.length_eq_zero.mp h)
    rw [if_neg hlen, (validateSubjects_ok_iff vsa.Subject 0).mpr hall]
    dsimp only
    refine ⟨?_, ?_⟩
    · intro h5
      rw [if_pos h5]
    intro h5
    rw [if_neg h5]
    refine ⟨?_, ?_⟩
    · intro h6
      rw [if_pos h6]
    intro h6
    rw [if_neg h6]
    refine ⟨?_, ?_⟩
    · intro h7
      rw [if_pos h7]
    intro h7
    rw [if_neg h7]
    refine ⟨?_, ?_⟩
    · intro h8
      rw [if_pos h8]
    intro h8 h9 h10
    rw [if_neg h8]
    have hv : validResultsGet vsa.Predicate.VerificationResult = false := by
      cases hg : validResultsGet vsa.Predicate.VerificationResult with
      | false => rfl
      | true =>
        rcases (validResultsGet_iff _).mp hg with h | h
        · exact absurd h h9
        · exact absurd h h10
    rw [hv]
    rfl

/-- A statement with a wrong predicate type and no subject is rejected for the
predicate type, the earlier check. -/
theorem validateVSAOutput_message_witness :
    validateVSAOutput
        { testVSA with PredicateType := "invalid-predicate".toList, Subject := [] }
      = .error "invalid predicate type: invalid-predicate".toList :=
  ((validateVSAOutput_message
      { testVSA with PredicateType := "invalid-predicate".toList, Subject := [] }).2 rfl).1
    (by decide)

/-! ## Index safety and the subject override -/

/-- C27: with at least one component, so for every report that
`validateConformaInput` accepts, the first subject exists when `convertToVSA`
reads it: the outcome is a statement or an error, never an index out of range.
Without components, with a parseable time and a resolvable policy, the access is
out of range. -/
theorem convertToVSA_index_in_range (loadPolicyMetadata : MetadataLoader)
    (input : ConformaInput) (config : ConversionConfig) :
    (input.Components ≠ [] →
      convertToVSA loadPolicyMetadata input config ≠ .indexOutOfRange ∧
      ((∃ vsa, convertToVSA loadPolicyMetadata input config = .ok vsa) ∨
        (∃ e, convertToVSA loadPolicyMetadata input config = .error e))) ∧
    (validateConformaInput input = .ok () →
      convertToVSA loadPolicyMetadata input config ≠ .indexOutOfRange) ∧
    (input.Components = [] → (∃ t, parseTime input.EffectiveTime = .ok t) →
      (∃ p, buildPolicy loadPolicyMetadata input.Policy config = .ok p) →
      convertToVSA loadPolicyMetadata input config = .indexOutOfRange) := by
  have hne : input.Components ≠ [] →
      convertToVSA loadPolicyMetadata input config ≠ .indexOutOfRange ∧
      ((∃ vsa, convertToVSA loadPolicyMetadata input config = .ok vsa) ∨
        (∃ e, convertToVSA loadPolicyMetadata input config = .error e)) := by
    intro h
    rcases convertToVSA_cases loadPolicyMetadata input config h with ⟨⟨vsa, hv⟩, -⟩ | ⟨⟨e, he⟩, -⟩
    · exact ⟨(by rw [hv]; intro hx; cases hx), Or.inl ⟨vsa, hv⟩⟩
    · exact ⟨(by rw [he]; intro hx; cases hx), Or.inr ⟨e, he⟩⟩
  refine ⟨hne, ?_, ?_⟩
  · intro hv
    have hc : input.Components ≠ [] := by
      intro hc
      unfold validateConformaInput at hv
      by_cases ht : input.EffectiveTime = []
      · rw [if_pos ht] at hv
        cases hv
      · rw [if_neg ht, if_pos (by rw [hc]; rfl)] at hv
        cases hv
    exact (hne hc).1
  · rintro hc ⟨t, ht⟩ ⟨p, hp⟩
    unfold convertToVSA
    rw [ht, hc]
    simp only [buildSubjects, hp]

/-- The test report without components has a parseable time and a policy: reading
the first subject is out of range. -/
theorem convertToVSA_index_in_range_witness :
    convertToVSA noMetadata noComponentsInput testConfig = .indexOutOfRange :=
  (convertToVSA_index_in_range noMetadata noComponentsInput testConfig).2.2 rfl
    ⟨"2024-01-15T14:30:00Z".toList, by rfl⟩
    ⟨{ URI := "oci://registry.example.com/policies/enterprise-contract:v1.0".toList,
       Digest := [] }, by rfl⟩

/-- With a non-empty override `buildSubject` does not read the component. -/
theorem buildSubject_override_const (c1 c2 : ConformaComponent) (subjectOverride : Str)
    (h : subjectOverride ≠ []) :
    buildSubject c1 subjectOverride = buildSubject c2 subjectOverride := by
  unfold buildSubject
  simp only [ne_eq, h, not_false_eq_true, if_true]

theorem buildSubjects_override_eq (subjectOverride : Str) (h : subjectOverride ≠ []) :
    ∀ (cs1 cs2 : List ConformaComponent),
      List.Forall₂ (fun c1 c2 => c2 = { c1 with ContainerImage := c2.ContainerImage }) cs1 cs2 →
      buildSubjects subjectOverride cs1 = buildSubjects subjectOverride cs2 := by
  intro cs1 cs2 hf
  induction hf with
  | nil => rfl
  | @cons c1 c2 l1 l2 hc _ ih =>
    have hname : c2.Name = c1.Name := by rw [hc]
    unfold buildSubjects
    rw [buildSubject_override_const c1 c2 subjectOverride h, ih, hname]

theorem scanViolations_same (cs1 cs2 : List ConformaComponent)
    (hf : List.Forall₂ (fun c1 c2 => c2 = { c1 with ContainerImage := c2.ContainerImage })
      cs1 cs2) :
    scanViolations cs1 = scanViolations cs2 := by
  rw [scanViolations_eq_any, scanViolations_eq_any]
  induction hf with
  | nil => rfl
  | @cons c1 c2 l1 l2 hc _ ih =>
    have hs : c2.Success = c1.Success := by rw [hc]
    have hv : c2.Violations = c1.Violations := by rw [hc]
    rw [List.any_cons, List.any_cons, ih, hs, hv]

theorem buildInputAttestations_same (cs1 cs2 : List ConformaComponent)
    (hf : List.Forall₂ (fun c1 c2 => c2 = { c1 with ContainerImage := c2.ContainerImage })
      cs1 cs2) :
    buildInputAttestations cs1 = buildInputAttestations cs2 := by
  induction hf with
  | nil => rfl
  | @cons c1 c2 l1 l2 hc _ ih =>
    have hn : c2.Name = c1.Name := by rw [hc]
    have ha : c2.Attestations = c1.Attestations := by rw [hc]
    unfold buildInputAttestations
    rw [ih, hn, ha]

theorem forall₂_const_replicate {α β : Type} (b0 : β) :
    ∀ (as : List α) (bs : List β), List.Forall₂ (fun _ b => b = b0) as bs →
      bs = List.replicate as.length b0 := by
  intro as bs hf
  induction hf with
  | nil => rfl
  | cons hb _ ih =>
    rw [List.length_cons, List.replicate_succ, ← ih, hb]

/-- C28: with a non-empty subject override, two reports that differ only in the
`containerImage` of their components get the same outcome of `convertToVSA`: the
same error, or the same statement, so the same subjects and the same
`resourceUri`. In a successful run every subject is the override's name and
digest, one copy for each component. -/
theorem convertToVSA_override_independent (loadPolicyMetadata : MetadataLoader)
    (input1 input2 : ConformaInput) (config : ConversionConfig)
    (hoverride : config.SubjectOverride ≠ [])
    (hreport : input2 = { input1 with Components := input2.Components })
    (hcomponents :
      List.Forall₂ (fun c1 c2 => c2 = { c1 with ContainerImage := c2.ContainerImage })
        input1.Components input2.Components) :
    convertToVSA loadPolicyMetadata input1 config
        = convertToVSA loadPolicyMetadata input2 config ∧
      (∀ vsa1 vsa2, convertToVSA loadPolicyMetadata input1 config = .ok vsa1 →
        convertToVSA loadPolicyMetadata input2 config = .ok vsa2 →
        vsa1.Subject = vsa2.Subject ∧
          vsa1.Predicate.ResourceURI = vsa2.Predicate.ResourceURI) ∧
      (∀ vsa, convertToVSA loadPolicyMetadata input1 config = .ok vsa →
        ∃ n d, config.SubjectOverride = n ++ "@sha256:".toList ++ d ∧
          vsa.Subject
            = List.replicate input1.Components.length
                { Name := n, Digest := [(sha256Key, d)] }) := by
  have heq : convertToVSA loadPolicyMetadata input1 config
      = convertToVSA loadPolicyMetadata input2 config := by
    have ht : input2.EffectiveTime = input1.EffectiveTime := by rw [hreport]
    have hs : input2.Success = input1.Success := by rw [hreport]
    have hp : input2.Policy = input1.Policy := by rw [hreport]
    have hv : input2.ECVersion = input1.ECVersion := by rw [hreport]
    have hlev : determineVerifiedLevels input2 = determineVerifiedLevels input1 := by
      unfold determineVerifiedLevels
      rw [hs, scanViolations_same _ _ hcomponents]
    unfold convertToVSA
    rw [ht, hs, hp, hv, hlev, buildSubjects_override_eq _ hoverride _ _ hcomponents,
      buildInputAttestations_same _ _ hcomponents]
  refine ⟨heq, ?_, ?_⟩
  · intro vsa1 vsa2 h1 h2
    rw [heq, h2] at h1
    injection h1 with h1
    rw [h1]
    exact ⟨rfl, rfl⟩
  · intro vsa h
    obtain ⟨timeVerified, first, rest, policy, -, hsub, -, rfl⟩ :=
      convertToVSA_ok_inv loadPolicyMetadata input1 config vsa h
    have hf := (buildSubjects_ok_iff _ _ _).mp hsub
    obtain ⟨c, cs, hfirst, -, -⟩ := List.forall₂_cons_right_iff.mp hf
    obtain ⟨n, d, hsplit, -, hfirst_eq⟩ := (buildSubject_ok_iff _ _ _).mp hfirst
    rw [if_pos hoverride] at hsplit
    refine ⟨n, d, ((strSplit_marker_pair _ n d).mp hsplit).1, ?_⟩
    apply forall₂_const_replicate
    apply List.Forall₂.imp _ hf
    intro c' s hs
    obtain ⟨n', d', hsplit', -, hs_eq⟩ := (buildSubject_ok_iff _ _ _).mp hs
    rw [if_pos hoverride, hsplit] at hsplit'
    injection hsplit' with e1 e2
    injection e2 with e2 e3
    rw [hs_eq, ← e1, ← e2]

/-- Two reports with different images, one of them invalid, convert to the same
statement under an override, with one copy of the override's subject for each
component. -/
theorem convertToVSA_override_independent_witness :
    convertToVSA noMetadata twoComponentInput overrideConfig
        = convertToVSA noMetadata twoComponentInputOtherImages overrideConfig ∧
      ∃ vsa, convertToVSA noMetadata twoComponentInput overrideConfig = .ok vsa ∧
        vsa.Subject
          = [{ Name := "quay.io/override/app".toList, Digest := [(sha256Key, "new123".toList)] },
             { Name := "quay.io/override/app".toList, Digest := [(sha256Key, "new123".toList)] }] :=
  ⟨(convertToVSA_override_independent noMetadata twoComponentInput twoComponentInputOtherImages
      overrideConfig (by decide) rfl
      (List.Forall₂.cons rfl (List.Forall₂.cons rfl List.Forall₂.nil))).1,
    ⟨_, rfl, rfl⟩⟩

/-! ## Timestamps with a numeric offset -/

theorem dropWhile_isDigit_append (ds : Str) (c : Char) (rest : Str)
    (hds : ds.all isDigit = true) (hc : isDigit c = false) :
    (ds ++ c :: rest).dropWhile isDigit = c :: rest := by
  induction ds with
  | nil =>
    rw [List.nil_append, List.dropWhile_cons, hc]
    rfl
  | cons d ds ih =>
    rw [List.all_cons, Bool.and_eq_true] at hds
    rw [List.cons_append, List.dropWhile_cons, hds.1]
    exact ih hds.2

/-- A fractional second, a period and one or more digits, is skipped up to the
sign of the offset. -/
theorem skipFraction_fraction (frac : Str) (sign : Char) (rest : Str)
    (hfrac : frac = [] ∨ ∃ ds, ds ≠ [] ∧ ds.all isDigit = true ∧ frac = '.' :: ds)
    (hsign : sign = '+' ∨ sign = '-') :
    skipFraction (frac ++ sign :: rest) = sign :: rest := by
  have hnd : isDigit sign = false := by
    rcases hsign with rfl | rfl <;> decide
  rcases hfrac with rfl | ⟨ds, hne, hall, rfl⟩
  · exact skipFraction_sign sign rest hsign
  · cases ds with
    | nil => exact absurd rfl hne
    | cons d ds =>
      rw [List.all_cons, Bool.and_eq_true] at hall
      show (if (('.' : Char) = '.' || ('.' : Char) = ',') && isDigit d
        then (ds ++ sign :: rest).dropWhile isDigit else _) = _
      rw [hall.1]
      simp only [decide_True, Bool.true_or, Bool.and_self, if_true]
      exact dropWhile_isDigit_append ds sign rest hall.2 hnd

/-- A valid date and time with an optional fractional second and a numeric offset
is read as the instant of the date and time less the offset. -/
theorem parseRFC3339_offset_fraction
    (y1 y2 y3 y4 m1 m2 d1 d2 h1 h2 n1 n2 s1 s2 sign o1 o2 p1 p2 : Char) (frac : Str)
    (hy : isDigit y1 = true ∧ isDigit y2 = true ∧ isDigit y3 = true ∧ isDigit y4 = true)
    (hm : isDigit m1 = true ∧ isDigit m2 = true) (hd : isDigit d1 = true ∧ isDigit d2 = true)
    (hh : isDigit h1 = true ∧ isDigit h2 = true) (hn : isDigit n1 = true ∧ isDigit n2 = true)
    (hs : isDigit s1 = true ∧ isDigit s2 = true)
    (hfrac : frac = [] ∨ ∃ ds, ds ≠ [] ∧ ds.all isDigit = true ∧ frac = '.' :: ds)
    (ho : isDigit o1 = true ∧ isDigit o2 = true) (hp : isDigit p1 = true ∧ isDigit p2 = true)
    (hsign : sign = '+' ∨ sign = '-')
    (hmonth : 1 ≤ twoDigits m1 m2 ∧ twoDigits m1 m2 ≤ 12)
    (hday : 1 ≤ twoDigits d1 d2 ∧
      twoDigits d1 d2 ≤ daysIn (twoDigits m1 m2) (fourDigits y1 y2 y3 y4))
    (hhour : twoDigits h1 h2 ≤ 23) (hmin : twoDigits n1 n2 ≤ 59) (hsec : twoDigits s1 s2 ≤ 59)
    (hoh : twoDigits o1 o2 ≤ 23) (hom : twoDigits p1 p2 ≤ 59) :
    parseRFC3339 ([y1, y2, y3, y4, '-', m1, m2, '-', d1, d2, 'T', h1, h2, ':', n1, n2, ':', s1, s2]
        ++ frac ++ [sign, o1, o2, ':', p1, p2])
      = some (Civil.toUnix
          (Civil.mk (fourDigits y1 y2 y3 y4 : Nat) (twoDigits m1 m2) (twoDigits d1 d2)
            (twoDigits h1 h2) (twoDigits n1 n2) (twoDigits s1 s2))
          - (if sign = '-' then -1 else 1)
            * (((twoDigits o1 o2 * 60 + twoDigits p1 p2) * 60 : Nat) : Int)) := by
  have hg := getDateTime_digits y1 y2 y3 y4 m1 m2 d1 d2 h1 h2 n1 n2 s1 s2
    (frac ++ [sign, o1, o2, ':', p1, p2]) hy hm hd hh hn hs hmonth hhour hmin hsec
  rw [skipFraction_fraction frac sign _ hfrac hsign] at hg
  have hdv : ¬ ((decide (twoDigits d1 d2 < 1) ||
      decide (twoDigits d1 d2 > daysIn (twoDigits m1 m2) (fourDigits y1 y2 y3 y4))) = true) := by
    simp only [Bool.or_eq_true, decide_eq_true_eq]
    omega
  show parseRFC3339 (y1 :: y2 :: y3 :: y4 :: '-' :: m1 :: m2 :: '-' :: d1 :: d2 :: 'T' :: h1 :: h2
        :: ':' :: n1 :: n2 :: ':' :: s1 :: s2 :: (frac ++ [sign, o1, o2, ':', p1, p2])) = _
  unfold parseRFC3339
  rw [hg]
  simp only [Option.bind_eq_bind, Option.some_bind, getZone_offset sign o1 o2 p1 p2 hsign ho hp
    hoh hom, ne_eq, not_true_eq_false, if_false, Int.toNat_ofNat, hdv, Bool.false_eq_true,
    Option.pure_def]

/-- A seconds field of 60 fails the range check of the library, whatever
follows it. -/
theorem getDateTime_leap_second (y1 y2 y3 y4 m1 m2 d1 d2 h1 h2 n1 n2 : Char) (rest : Str)
    (hy : isDigit y1 = true ∧ isDigit y2 = true ∧ isDigit y3 = true ∧ isDigit y4 = true)
    (hm : isDigit m1 = true ∧ isDigit m2 = true) (hd : isDigit d1 = true ∧ isDigit d2 = true)
    (hh : isDigit h1 = true ∧ isDigit h2 = true) (hn : isDigit n1 = true ∧ isDigit n2 = true) :
    getDateTime (y1 :: y2 :: y3 :: y4 :: '-' :: m1 :: m2 :: '-' :: d1 :: d2 :: 'T' :: h1 :: h2
        :: ':' :: n1 :: n2 :: ':' :: '6' :: '0' :: rest) = none := by
  have hs : isDigit '6' = true ∧ isDigit '0' = true := ⟨by decide, by decide⟩
  have h60 : twoDigits '6' '0' = 60 := by decide
  unfold getDateTime
  simp only [getYear_digits _ _ _ _ _ hy, getnum_digits _ _ _ _ hm, getnum_digits _ _ _ _ hd,
    getnum_digits _ _ _ _ hh, getnum_digits _ _ _ _ hn, getnum_digits _ _ _ _ hs,
    skipChar_cons, Option.bind_eq_bind, Option.some_bind, Option.pure_def, h60]
  split_ifs <;> first | rfl | omega

/-- A string whose date and time the library cannot read is rejected by
`parseTime`. -/
theorem parseTime_error_of_getDateTime (s : Str) (h : getDateTime s = none) :
    parseTime s = .error ("unsupported time format: ".toList ++ s) := by
  have h1 : parseRFC3339 s = none := by
    unfold parseRFC3339
    rw [h]
    rfl
  have h2 : parseBare s = none := by
    unfold parseBare
    rw [h]
    rfl
  unfold parseTime
  rw [h1, h2]

theorem daysFromCivil_year_edges (y m d : Nat) (hm1 : 1 ≤ m) (hm2 : m ≤ 12)
    (hd1 : 1 ≤ d) (hd2 : d ≤ 31) :
    -719528 ≤ daysFromCivil y m d ∧ (1 ≤ y → -719162 ≤ daysFromCivil y m d) ∧
      (y ≤ 9999 → daysFromCivil y m d ≤ 2932896) ∧
      (y ≤ 9998 → daysFromCivil y m d ≤ 2932534) := by
  unfold daysFromCivil
  dsimp only
  interval_cases m <;> simp only [Nat.reduceLeDiff, if_true, if_false, Nat.reduceAdd, Nat.reduceMod] <;> omega

/-- The instant less than a day away from a date of the years 0 to 9999 leaves
these years only at the two ends: before the year 0 it lies on the last day of
the year -1, which takes a date of the year 0 and a positive offset; after the
year 9999 it lies on the first day of the year 10000, which takes a date of the
year 9999 and a negative offset. -/
theorem Civil.ofUnix_year_edges (y m d : Nat) (hm1 : 1 ≤ m) (hm2 : m ≤ 12)
    (hd1 : 1 ≤ d) (hd2 : d ≤ 31) (hy : y ≤ 9999) (tod : Nat)
    (htod : tod < 86400) (off : Int) (hoff1 : -86400 < off) (hoff2 : off < 86400) :
    ((Civil.ofUnix (daysFromCivil y m d * 86400 + (tod : Int) - off)).year < 0 →
        y = 0 ∧ 0 < off ∧ (daysFromCivil y m d * 86400 + (tod : Int) - off) / 86400 = -719529) ∧
      (9999 < (Civil.ofUnix (daysFromCivil y m d * 86400 + (tod : Int) - off)).year →
        y = 9999 ∧ off < 0 ∧
          (daysFromCivil y m d * 86400 + (tod : Int) - off) / 86400 = 2932897) := by
  obtain ⟨hr1, hr2, hr3, hr4⟩ := daysFromCivil_year_edges y m d hm1 hm2 hd1 hd2
  have hr3 := hr3 hy
  generalize daysFromCivil (y : Int) m d = dz at *
  unfold Civil.ofUnix
  dsimp only
  have hz1 : dz - 1 ≤ (dz * 86400 + (tod : Int) - off) / 86400 := by omega
  have hz2 : (dz * 86400 + (tod : Int) - off) / 86400 ≤ dz + 1 := by omega
  have hz3 : off ≤ 0 → dz ≤ (dz * 86400 + (tod : Int) - off) / 86400 := by
    intro h
    omega
  have hz4 : 0 ≤ off → (dz * 86400 + (tod : Int) - off) / 86400 ≤ dz := by
    intro h
    omega
  generalize (dz * 86400 + (tod : Int) - off) / 86400 = z at *
  obtain ⟨h1, h2, h3, h4, h5, -⟩ := civilFromDays_spec z
  constructor
  · intro hneg
    have hb := daysFromCivil_year_neg _ _ _ h2 h3 h4 h5 (by omega : (civilFromDays z).1 ≤ -1)
    rw [h1] at hb
    refine ⟨?_, ?_, ?_⟩
    · by_contra hne
      have := hr2 (by omega)
      omega
    · by_contra hle
      have := hz3 (by omega)
      omega
    · omega
  · intro hbig
    have hb := daysFromCivil_year_big _ _ _ h2 h3 h4 h5 (by omega : 10000 ≤ (civilFromDays z).1)
    rw [h1] at hb
    refine ⟨?_, ?_, ?_⟩
    · by_contra hne
      have := hr4 (by omega)
      omega
    · by_contra hle
      have := hz4 (by omega)
      omega
    · omega

/-- An instant of the last day of the year -1 is printed with the date
`-0001-12-31`. -/
theorem formatRFC3339UTC_year_neg (t : Int) (h : t / 86400 = -719529) :
    (formatRFC3339UTC t).take 12 = "-0001-12-31T".toList := by
  have hc : civilFromDays (-719529) = (-1, 12, 31) := by decide
  unfold formatRFC3339UTC Civil.ofUnix
  dsimp only
  rw [h, hc]
  rfl

/-- An instant of the first day of the year 10000 is printed with the date
`10000-01-01`. -/
theorem formatRFC3339UTC_year_big (t : Int) (h : t / 86400 = 2932897) :
    (formatRFC3339UTC t).take 12 = "10000-01-01T".toList := by
  have hc : civilFromDays 2932897 = (10000, 1, 1) := by decide
  unfold formatRFC3339UTC Civil.ofUnix
  dsimp only
  rw [h, hc]
  rfl

/-- A string in the form `YYYY-MM-DDTHH:MM:SSZ` starts with four digits and a
hyphen. -/
theorem isRFC3339UTC_take (s : Str) (h : isRFC3339UTC s = true) :
    ∃ y1 y2 y3 y4 m1 m2 d1 d2 : Char, isDigit y1 = true ∧
      s.take 12 = [y1, y2, y3, y4, '-', m1, m2, '-', d1, d2, 'T'] ++ (s.drop 11).take 1 := by
  unfold isRFC3339UTC at h
  split at h
  · rename_i y1 y2 y3 y4 a m1 m2 b d1 d2 c h1 h2 e n1 n2 f s1 s2 z
    simp only [Bool.and_eq_true, beq_iff_eq] at h
    obtain ⟨⟨⟨⟨⟨⟨⟨⟨⟨⟨⟨⟨⟨⟨⟨⟨⟨⟨⟨hy1, -⟩, -⟩, -⟩, ha⟩, -⟩, -⟩, hb⟩, -⟩, -⟩, hc⟩, -⟩, -⟩, -⟩, -⟩, -⟩,
      -⟩, -⟩, -⟩, -⟩ := h
    subst ha hb hc
    exact ⟨y1, y2, y3, y4, m1, m2, d1, d2, hy1, rfl⟩
  · cases h

/-- C19 as the code has it. A timestamp `YYYY-MM-DDTHH:MM:SS`, an optional
fraction of a period and one or more digits, and an offset `+hh:mm` or `-hh:mm`,
all fields digits, with a valid calendar date, an hour up to 23, a minute and a
second up to 59 and an offset up to 23:59, is accepted by `parseTime`. The result
prints the instant `t` of the local date and time less the offset, the fraction
dropped: the date and time printed denote `t`. The result has the form
`YYYY-MM-DDTHH:MM:SSZ` exactly when the year of `t` in UTC lies in 0 to 9999, as
it does for every timestamp of the years 0001 to 9998; the date and time printed
are then valid and are read back as `t`. Otherwise the timestamp is of the year
0000 with a positive offset and the result starts with `-0001-12-31T`, or of the
year 9999 with a negative offset and the result starts with `10000-01-01T`. A
timestamp of this shape with the seconds field `60` is rejected.
`2024-01-15T14:30:00-05:00` gives `2024-01-15T19:30:00Z`, and `invalid-time` is
rejected. -/
theorem parseTime_offset :
    (∀ (y1 y2 y3 y4 m1 m2 d1 d2 h1 h2 n1 n2 s1 s2 sign o1 o2 p1 p2 : Char) (frac : Str),
      (isDigit y1 = true ∧ isDigit y2 = true ∧ isDigit y3 = true ∧ isDigit y4 = true) →
      (isDigit m1 = true ∧ isDigit m2 = true) → (isDigit d1 = true ∧ isDigit d2 = true) →
      (isDigit h1 = true ∧ isDigit h2 = true) → (isDigit n1 = true ∧ isDigit n2 = true) →
      (isDigit s1 = true ∧ isDigit s2 = true) →
      (frac = [] ∨ ∃ ds, ds ≠ [] ∧ ds.all isDigit = true ∧ frac = '.' :: ds) →
      (isDigit o1 = true ∧ isDigit o2 = true) → (isDigit p1 = true ∧ isDigit p2 = true) →
      (sign = '+' ∨ sign = '-') →
      (1 ≤ twoDigits m1 m2 ∧ twoDigits m1 m2 ≤ 12) →
      (1 ≤ twoDigits d1 d2 ∧
        twoDigits d1 d2 ≤ daysIn (twoDigits m1 m2) (fourDigits y1 y2 y3 y4)) →
      twoDigits h1 h2 ≤ 23 → twoDigits n1 n2 ≤ 59 → twoDigits s1 s2 ≤ 59 →
      twoDigits o1 o2 ≤ 23 → twoDigits p1 p2 ≤ 59 →
      ∃ t : Int,
        t = Civil.toUnix
              (Civil.mk (fourDigits y1 y2 y3 y4 : Nat) (twoDigits m1 m2) (twoDigits d1 d2)
                (twoDigits h1 h2) (twoDigits n1 n2) (twoDigits s1 s2))
            - (if sign = '-' then -1 else 1)
              * (((twoDigits o1 o2 * 60 + twoDigits p1 p2) * 60 : Nat) : Int) ∧
        parseTime ([y1, y2, y3, y4, '-', m1, m2, '-', d1, d2, 'T', h1, h2, ':', n1, n2, ':',
            s1, s2] ++ frac ++ [sign, o1, o2, ':', p1, p2])
          = .ok (formatRFC3339UTC t) ∧
        (Civil.ofUnix t).toUnix = t ∧
        (isRFC3339UTC (formatRFC3339UTC t) = true ↔
          (0 ≤ (Civil.ofUnix t).year ∧ (Civil.ofUnix t).year ≤ 9999)) ∧
        ((0 ≤ (Civil.ofUnix t).year ∧ (Civil.ofUnix t).year ≤ 9999) →
          1 ≤ (Civil.ofUnix t).month ∧ (Civil.ofUnix t).month ≤ 12 ∧
          1 ≤ (Civil.ofUnix t).day ∧
          (Civil.ofUnix t).day ≤ daysIn (Civil.ofUnix t).month (Civil.ofUnix t).year.toNat ∧
          (Civil.ofUnix t).hour ≤ 23 ∧ (Civil.ofUnix t).min ≤ 59 ∧
          (Civil.ofUnix t).sec ≤ 59 ∧
          parseRFC3339 (formatRFC3339UTC t) = some t) ∧
        ((1 ≤ fourDigits y1 y2 y3 y4 ∧ fourDigits y1 y2 y3 y4 ≤ 9998) →
          0 ≤ (Civil.ofUnix t).year ∧ (Civil.ofUnix t).year ≤ 9999) ∧
        ((Civil.ofUnix t).year < 0 →
          fourDigits y1 y2 y3 y4 = 0 ∧ sign = '+' ∧
            (formatRFC3339UTC t).take 12 = "-0001-12-31T".toList) ∧
        (9999 < (Civil.ofUnix t).year →
          fourDigits y1 y2 y3 y4 = 9999 ∧ sign = '-' ∧
            (formatRFC3339UTC t).take 12 = "10000-01-01T".toList)) ∧
    (∀ (y1 y2 y3 y4 m1 m2 d1 d2 h1 h2 n1 n2 sign o1 o2 p1 p2 : Char) (frac : Str),
      (isDigit y1 = true ∧ isDigit y2 = true ∧ isDigit y3 = true ∧ isDigit y4 = true) →
      (isDigit m1 = true ∧ isDigit m2 = true) → (isDigit d1 = true ∧ isDigit d2 = true) →
      (isDigit h1 = true ∧ isDigit h2 = true) → (isDigit n1 = true ∧ isDigit n2 = true) →
      parseTime ([y1, y2, y3, y4, '-', m1, m2, '-', d1, d2, 'T', h1, h2, ':', n1, n2, ':',
          '6', '0'] ++ frac ++ [sign, o1, o2, ':', p1, p2])
        = .error ("unsupported time format: ".toList ++
            ([y1, y2, y3, y4, '-', m1, m2, '-', d1, d2, 'T', h1, h2, ':', n1, n2, ':',
              '6', '0'] ++ frac ++ [sign, o1, o2, ':', p1, p2]))) ∧
    parseTime "2024-01-15T14:30:00-05:00".toList = .ok "2024-01-15T19:30:00Z".toList ∧
    parseTime "invalid-time".toList = .error "unsupported time format: invalid-time".toList := by
  refine ⟨?_, ?_, by rfl, by rfl⟩
  · intro y1 y2 y3 y4 m1 m2 d1 d2 h1 h2 n1 n2 s1 s2 sign o1 o2 p1 p2 frac hy hm hd hh hn hs
      hfrac ho hp hsign hmonth hday hhour hmin hsec hoh hom
    have hparse := parseRFC3339_offset_fraction y1 y2 y3 y4 m1 m2 d1 d2 h1 h2 n1 n2 s1 s2 sign
      o1 o2 p1 p2 frac hy hm hd hh hn hs hfrac ho hp hsign hmonth hday hhour hmin hsec hoh hom
    have hd31 : twoDigits d1 d2 ≤ 31 := by
      have := hday.2
      rw [daysIn_eq] at this
      split_ifs at this <;> omega
    have hy9 : fourDigits y1 y2 y3 y4 ≤ 9999 := by
      have b1 := digitVal_lt y1 hy.1
      have b2 := digitVal_lt y2 hy.2.1
      have b3 := digitVal_lt y3 hy.2.2.1
      have b4 := digitVal_lt y4 hy.2.2.2
      unfold fourDigits
      omega
    have hoff : -86400 < (if sign = '-' then (-1 : Int) else 1)
          * (((twoDigits o1 o2 * 60 + twoDigits p1 p2) * 60 : Nat) : Int) ∧
        (if sign = '-' then (-1 : Int) else 1)
          * (((twoDigits o1 o2 * 60 + twoDigits p1 p2) * 60 : Nat) : Int) < 86400 := by
      split_ifs <;> omega
    have hpos : 0 < (if sign = '-' then (-1 : Int) else 1)
          * (((twoDigits o1 o2 * 60 + twoDigits p1 p2) * 60 : Nat) : Int) → sign = '+' := by
      intro h
      rcases hsign with hs1 | hs1
      · exact hs1
      · rw [if_pos hs1] at h
        omega
    have hnegs : (if sign = '-' then (-1 : Int) else 1)
          * (((twoDigits o1 o2 * 60 + twoDigits p1 p2) * 60 : Nat) : Int) < 0 → sign = '-' := by
      intro h
      by_contra hs1
      rw [if_neg hs1] at h
      omega
    have hedge := Civil.ofUnix_year_edges (fourDigits y1 y2 y3 y4) (twoDigits m1 m2)
      (twoDigits d1 d2) hmonth.1 hmonth.2 hday.1 hd31 hy9
      (twoDigits h1 h2 * 3600 + twoDigits n1 n2 * 60 + twoDigits s1 s2) (by omega) _
      hoff.1 hoff.2
    have hlow : (Civil.ofUnix (Civil.toUnix
          (Civil.mk (fourDigits y1 y2 y3 y4 : Nat) (twoDigits m1 m2) (twoDigits d1 d2)
            (twoDigits h1 h2) (twoDigits n1 n2) (twoDigits s1 s2))
        - (if sign = '-' then -1 else 1)
          * (((twoDigits o1 o2 * 60 + twoDigits p1 p2) * 60 : Nat) : Int))).year < 0 →
        fourDigits y1 y2 y3 y4 = 0 ∧ sign = '+' ∧
          (formatRFC3339UTC (Civil.toUnix
          (Civil.mk (fourDigits y1 y2 y3 y4 : Nat) (twoDigits m1 m2) (twoDigits d1 d2)
            (twoDigits h1 h2) (twoDigits n1 n2) (twoDigits s1 s2))
        - (if sign = '-' then -1 else 1)
          * (((twoDigits o1 o2 * 60 + twoDigits p1 p2) * 60 : Nat) : Int))).take 12
            = "-0001-12-31T".toList := by
      intro hneg
      obtain ⟨e1, e2, e3⟩ := hedge.1 hneg
      exact ⟨e1, hpos e2, formatRFC3339UTC_year_neg _ e3⟩
    have hhigh : 9999 < (Civil.ofUnix (Civil.toUnix
          (Civil.mk (fourDigits y1 y2 y3 y4 : Nat) (twoDigits m1 m2) (twoDigits d1 d2)
            (twoDigits h1 h2) (twoDigits n1 n2) (twoDigits s1 s2))
        - (if sign = '-' then -1 else 1)
          * (((twoDigits o1 o2 * 60 + twoDigits p1 p2) * 60 : Nat) : Int))).year →
        fourDigits y1 y2 y3 y4 = 9999 ∧ sign = '-' ∧
          (formatRFC3339UTC (Civil.toUnix
          (Civil.mk (fourDigits y1 y2 y3 y4 : Nat) (twoDigits m1 m2) (twoDigits d1 d2)
            (twoDigits h1 h2) (twoDigits n1 n2) (twoDigits s1 s2))
        - (if sign = '-' then -1 else 1)
          * (((twoDigits o1 o2 * 60 + twoDigits p1 p2) * 60 : Nat) : Int))).take 12
            = "10000-01-01T".toList := by
      intro hbig
      obtain ⟨e1, e2, e3⟩ := hedge.2 hbig
      exact ⟨e1, hnegs e2, formatRFC3339UTC_year_big _ e3⟩
    refine ⟨_, rfl, ?_, ?_, ?_, ?_, ?_, hlow, hhigh⟩
    · unfold parseTime
      rw [hparse]
    · exact (Civil.toUnix_ofUnix _).1
    · constructor
      · intro hform
        obtain ⟨c1, c2, c3, c4, c5, c6, c7, c8, hc1, htake⟩ := isRFC3339UTC_take _ hform
        constructor
        · by_contra hneg
          obtain ⟨-, -, e3⟩ := hlow (by omega)
          rw [e3] at htake
          have hx := congrArg List.head? htake
          simp only [List.cons_append, List.head?_cons] at hx
          have hx2 : ('-' : Char) = c1 := by
            have hl : "-0001-12-31T".toList.head? = some '-' := by rfl
            rw [hl] at hx
            exact Option.some.inj hx
          rw [← hx2] at hc1
          exact absurd hc1 (by decide)
        · by_contra hbig
          obtain ⟨-, -, e3⟩ := hhigh (by omega)
          rw [e3] at htake
          have hx : "10000-01-01T".toList.get? 4
              = ([c1, c2, c3, c4, '-', c5, c6, '-', c7, c8, 'T'] ++ _).get? 4 :=
            congrArg (fun l => l.get? 4) htake
          have hl : "10000-01-01T".toList.get? 4 = some '0' := by rfl
          have hr : ∀ X : Str,
              ([c1, c2, c3, c4, '-', c5, c6, '-', c7, c8, 'T'] ++ X).get? 4 = some '-' :=
            fun _ => rfl
          rw [hl, hr] at hx
          exact absurd hx (by decide)
      · intro hyear
        exact formatRFC3339UTC_form _ hyear.1 hyear.2
    · intro hyear
      obtain ⟨-, a1, a2, a3, -, a4, a5, a6, a7⟩ := Civil.toUnix_ofUnix
        (Civil.toUnix
            (Civil.mk (fourDigits y1 y2 y3 y4 : Nat) (twoDigits m1 m2) (twoDigits d1 d2)
              (twoDigits h1 h2) (twoDigits n1 n2) (twoDigits s1 s2))
          - (if sign = '-' then -1 else 1)
            * (((twoDigits o1 o2 * 60 + twoDigits p1 p2) * 60 : Nat) : Int))
      exact ⟨a1, a2, a3, a4 hyear.1, a5, a6, a7,
        parseRFC3339_formatRFC3339UTC _ hyear.1 hyear.2⟩
    · intro hyear
      exact Civil.ofUnix_year_range (fourDigits y1 y2 y3 y4) (twoDigits m1 m2)
        (twoDigits d1 d2) hmonth.1 hmonth.2 hday.1 hd31 hyear.1 hyear.2
        (twoDigits h1 h2 * 3600 + twoDigits n1 n2 * 60 + twoDigits s1 s2) (by omega) _
        hoff.1 hoff.2
  · intro y1 y2 y3 y4 m1 m2 d1 d2 h1 h2 n1 n2 sign o1 o2 p1 p2 frac hy hm hd hh hn
    exact parseTime_error_of_getDateTime _
      (getDateTime_leap_second y1 y2 y3 y4 m1 m2 d1 d2 h1 h2 n1 n2
        (frac ++ [sign, o1, o2, ':', p1, p2]) hy hm hd hh hn)

/-- A timestamp of the last half hour of 2024 in a zone five hours behind UTC,
with a fraction: the result is `2025-01-01T04:30:00Z`, the fraction dropped and
the date carried into the next year, and it has the UTC form. -/
theorem parseTime_offset_witness :
    ∃ t : Int,
      parseTime "2024-12-31T23:30:00.25-05:00".toList = .ok (formatRFC3339UTC t) ∧
      formatRFC3339UTC t = "2025-01-01T04:30:00Z".toList ∧
      isRFC3339UTC (formatRFC3339UTC t) = true ∧
      parseRFC3339 (formatRFC3339UTC t) = some t := by
  obtain ⟨t, ht, hp, -, hform, hvalid, hyear, -, -⟩ :=
    parseTime_offset.1 '2' '0' '2' '4' '1' '2' '3' '1' '2' '3' '3' '0' '0' '0' '-' '0' '5' '0' '0'
      ".25".toList
      (by decide) (by decide) (by decide) (by decide) (by decide) (by decide)
      (Or.inr ⟨"25".toList, by decide, by decide, by rfl⟩)
      (by decide) (by decide) (by decide) (by decide) (by decide) (by decide) (by decide)
      (by decide) (by decide) (by decide)
  have hy := hyear (by decide)
  refine ⟨t, hp, ?_, hform.mpr hy, (hvalid hy).2.2.2.2.2.2.2⟩
  rw [ht]
  rfl

/-- C19 as stated fails. The timestamp `1990-12-31T15:59:60-08:00`, a leap second
and well formed by RFC 3339, is rejected. A timestamp of the first hour of the
year 0000 with the offset `+01:00` is accepted, and the result has a negative
five-character year, not the form `YYYY-MM-DDTHH:MM:SSZ`; at the other end the
year gets five digits. -/
theorem parseTime_offset_counterexample :
    parseTime "1990-12-31T15:59:60-08:00".toList
        = .error "unsupported time format: 1990-12-31T15:59:60-08:00".toList ∧
      parseTime "0000-01-01T00:00:00+01:00".toList = .ok "-0001-12-31T23:00:00Z".toList ∧
      isRFC3339UTC "-0001-12-31T23:00:00Z".toList = false ∧
      parseTime "9999-12-31T23:59:59-01:00".toList = .ok "10000-01-01T00:59:59Z".toList ∧
      isRFC3339UTC "10000-01-01T00:59:59Z".toList = false := by
  refine ⟨by rfl, by rfl, by decide, by rfl, by decide⟩

end ConformaVSA
